import Mathlib

/-!
# inframap-d2: a shallow embedding of the collectors, the model and the D2 renderer

Conventions of the embedding.

* Go strings are Lean strings (sequences of Unicode code points; invalid UTF-8 is
  outside the model).  Functions of the Go standard library are given by small
  list programs over the characters of the string.
* A Go map is the list of its entries, in the order in which a range statement
  visits them.  Go leaves that order unspecified, so every permutation of the
  list stands for the same map; lookups and stores go through mapGet and mapSet.
* A pointer to a struct held in a map is the struct stored under its key; writing
  through the pointer is a store under that key (no two keys share a pointer).
* A strings.Builder that a function writes to is the string the function returns.
* Go int is a 64-bit signed integer, embedded in Int.
* A function that can panic on a nil pointer returns an Option; none is the panic.
* What a function reads from outside the program (os.Getenv, util.ExpandPath, the
  units, pods and services a collector has fetched) is an argument of its embedding.
* Where strings.ToLower yields a map key or one side of a comparison of two lowered
  strings, the case table of unicode.ToLower is an argument, lower, and the theorems
  hold for every table (strToLower).  The concrete inputs are ASCII and are evaluated
  with lowerRune, which is unicode.ToLower on ASCII.
-/

namespace Inframap

/-! ## Go standard library -/

/-- The rune-wise action of unicode.ToLower that the program can observe: ASCII capitals,
and the two non-ASCII runes whose lower case is an ASCII letter (U+0130 and U+212A).
Every other rune is carried unchanged. -/
def lowerRune (c : Char) : Char :=
  if 'A' ≤ c ∧ c ≤ 'Z' then Char.ofNat (c.toNat + 32)
  else if c = Char.ofNat 0x130 then 'i'
  else if c = Char.ofNat 0x212A then 'k'
  else c

/-- Go strings.ToLower, as far as the program can observe it where the lowered string is
compared with ASCII keys or keywords only, or loses its non-ASCII runes afterwards. -/
def goToLower (s : String) : String := String.mk (s.data.map lowerRune)

/-- Go strings.ToLower in full: the image of the string, rune by rune, under
unicode.ToLower.  The case table of unicode.ToLower is not part of the program: it is the
argument lower, and what is proved of a function that takes it is proved for every rune
map, the table of the Go library among them.  It is used where the lowered string becomes
a map key or is compared with another lowered string. -/
def strToLower (lower : Char → Char) (s : String) : String := String.mk (s.data.map lower)

/-- The rune-wise action of unicode.ToUpper on ASCII letters. -/
def upperRune (c : Char) : Char :=
  if 'a' ≤ c ∧ c ≤ 'z' then Char.ofNat (c.toNat - 32) else c

/-- Substring test on character lists: sub occurs in s as a contiguous block. -/
def hasInfix : List Char → List Char → Bool
  | [], sub => sub.isEmpty
  | c :: cs, sub => sub.isPrefixOf (c :: cs) || hasInfix cs sub

/-- Go strings.Contains. -/
def strContains (s sub : String) : Bool := hasInfix s.data sub.data

/-- Go strings.HasPrefix. -/
def strHasPrefix (s pre : String) : Bool := pre.data.isPrefixOf s.data

/-- Go strings.ReplaceAll for a pattern of one rune. -/
def replaceRune (s : String) (old : Char) (new : String) : String :=
  String.mk (s.data.flatMap (fun c => if c = old then new.data else [c]))

/-- Go strings.Join. -/
def strJoin (parts : List String) (sep : String) : String :=
  String.intercalate sep parts

/-- Split a character list at every occurrence of the separator rune. -/
def splitRunes (sep : Char) : List Char → List (List Char)
  | [] => [[]]
  | c :: cs =>
    if c = sep then [] :: splitRunes sep cs
    else
      match splitRunes sep cs with
      | [] => [[c]]
      | seg :: segs => (c :: seg) :: segs

/-- Go strings.Split for a separator of one rune. -/
def strSplit (s : String) (sep : Char) : List String :=
  (splitRunes sep s.data).map String.mk

/-- Largest value of a Go int. -/
def maxInt : Int := 2 ^ 63 - 1

/-- Smallest value of a Go int. -/
def minInt : Int := -(2 ^ 63)

/-- A decimal digit rune. -/
def isDigitRune (c : Char) : Prop := '0' ≤ c ∧ c ≤ '9'

/-- Value of a decimal digit rune. -/
def digitVal (c : Char) : Option Nat :=
  if '0' ≤ c ∧ c ≤ '9' then some (c.toNat - 48) else none

/-- Value of a non-empty run of decimal digits, read from the left with accumulator acc. -/
def parseDigits : List Char → Nat → Option Nat
  | [], acc => some acc
  | c :: cs, acc =>
    match digitVal c with
    | some d => parseDigits cs (acc * 10 + d)
    | none => none

/-- Go strconv.Atoi: the value and whether the error is nil.  A syntax error gives 0, a
range error gives the nearest representable value. -/
def Atoi (s : String) : Int × Bool :=
  let body (neg : Bool) (ds : List Char) : Int × Bool :=
    match ds with
    | [] => (0, false)
    | _ :: _ =>
      match parseDigits ds 0 with
      | none => (0, false)
      | some v =>
        if neg then
          if (v : Int) > 2 ^ 63 then (minInt, false) else (-(v : Int), true)
        else
          if (v : Int) ≥ 2 ^ 63 then (maxInt, false) else ((v : Int), true)
  match s.data with
  | [] => (0, false)
  | '-' :: ds => body true ds
  | '+' :: ds => body false ds
  | ds => body false ds

/-- The verb %d of Go fmt applied to an int. -/
def fmtD (i : Int) : String :=
  if i < 0 then "-" ++ Nat.repr i.natAbs else Nat.repr i.toNat

/-- The escape strconv.Quote writes for one rune.  Printable runes other than the quote and
the backslash are written as they are; the control characters with a short escape get it.
Other non-printable runes are outside the model and carried unchanged. -/
def quoteRune (c : Char) : List Char :=
  if c = '"' then ['\\', '"']
  else if c = '\\' then ['\\', '\\']
  else if c = '\n' then ['\\', 'n']
  else if c = '\t' then ['\\', 't']
  else if c = '\r' then ['\\', 'r']
  else [c]

/-- The verb %q of Go fmt applied to a string (strconv.Quote). -/
def fmtQ (s : String) : String :=
  "\"" ++ String.mk (s.data.flatMap quoteRune) ++ "\""

/-- Go comparison s < t of two strings: lexicographic on the runes by code point, which is
the order of their UTF-8 bytes. -/
def runesLt : List Char → List Char → Bool
  | _, [] => false
  | [], _ :: _ => true
  | a :: as, b :: bs => if a < b then true else if b < a then false else runesLt as bs

/-- Go s < t on strings. -/
def strLess (s t : String) : Bool := runesLt s.data t.data

/-- One pass of insertion: x is placed before the first element with a strictly larger key. -/
def insertByKey {α : Type} (key : α → String) (x : α) : List α → List α
  | [] => [x]
  | y :: ys => if strLess (key x) (key y) then x :: y :: ys else y :: insertByKey key x ys

/-- Go sort.Slice for a comparison of string keys: insertion sort on the key, which is what
sort.Slice runs on slices shorter than twelve and agrees with it on any slice whose keys
are pairwise distinct. -/
def sortByKey {α : Type} (key : α → String) (l : List α) : List α :=
  l.foldl (fun acc x => insertByKey key x acc) []

/-! ## Go maps -/

/-- Map lookup m[k] with the comma-ok result as an option. -/
def mapGet {α : Type} (m : List (String × α)) (k : String) : Option α :=
  match m with
  | [] => none
  | (k', v) :: rest => if k' = k then some v else mapGet rest k

/-- Map store m[k] = v: the entry under k is replaced, a new key is added. -/
def mapSet {α : Type} (m : List (String × α)) (k : String) (v : α) : List (String × α) :=
  match m with
  | [] => [(k, v)]
  | (k', v') :: rest => if k' = k then (k, v) :: rest else (k', v') :: mapSet rest k v

/-- The keys of a map. -/
def mapKeys {α : Type} (m : List (String × α)) : List String := m.map Prod.fst

/-! ## internal/util -/

/-- The runes the pattern [^a-zA-Z0-9_-] does not match. -/
def isIDRune (c : Char) : Bool :=
  ('a' ≤ c ∧ c ≤ 'z') || ('A' ≤ c ∧ c ≤ 'Z') || ('0' ≤ c ∧ c ≤ '9') || c = '_' || c = '-'

/-- util.SanitizeID -/
def SanitizeID (s : String) : String :=
  let s := goToLower s
  let s := replaceRune s ' ' "-"
  let s := replaceRune s '.' "-"
  let s := replaceRune s '/' "-"
  let s := String.mk (s.data.filter isIDRune)
  if s = "" then "unknown" else s

/-- util.Quote -/
def Quote (s : String) : String :=
  let s := replaceRune s '"' "\\\""
  "\"" ++ s ++ "\""

/-! ## internal/model -/

/-- model.ServerType is a Go string type: any string can be stored in it. -/
abbrev ServerType := String

def ServerTypeProduction : ServerType := "production"
def ServerTypeLab : ServerType := "lab"
def ServerTypeLocal : ServerType := "local"
def ServerTypeCluster : ServerType := "cluster"
def ServerTypeHypervisor : ServerType := "hypervisor"

/-- model.ServiceType is a Go string type. -/
abbrev ServiceType := String

def ServiceTypeContainer : ServiceType := "container"
def ServiceTypeDatabase : ServiceType := "database"
def ServiceTypeApp : ServiceType := "app"
def ServiceTypeSystem : ServiceType := "system"
def ServiceTypeVM : ServiceType := "vm"
def ServiceTypeLXC : ServiceType := "lxc"
def ServiceTypePod : ServiceType := "pod"

/-- model.PortMapping -/
structure PortMapping where
  HostIP : String := ""
  HostPort : Int := 0
  ContainerPort : Int := 0
  Protocol : String := ""
  deriving DecidableEq

/-- model.VolumeMount -/
structure VolumeMount where
  Source : String := ""
  Target : String := ""
  deriving DecidableEq

/-- model.HealthCheck -/
structure HealthCheck where
  Port : Int := 0
  Path : String := ""
  ExpectedStatus : Int := 0
  Timeout : Int := 0
  deriving DecidableEq

/-- model.Service; the field Type is written Type_. -/
structure Service where
  Name : String := ""
  Image : String := ""
  Type_ : ServiceType := ""
  Ports : List PortMapping := []
  Networks : List String := []
  DependsOn : List String := []
  Volumes : List VolumeMount := []
  HealthCheck : Option HealthCheck := none
  ComposeFile : String := ""
  Category : String := ""
  deriving DecidableEq

/-- model.Server; the field Type is written Type_. -/
structure Server where
  Hostname : String := ""
  Label : String := ""
  PublicIP : String := ""
  TailscaleIP : String := ""
  Type_ : ServerType := ""
  OS : String := ""
  Online : Bool := false
  AnsibleGroups : List String := []
  Services : List Service := []
  deriving DecidableEq

/-- model.Device -/
structure Device where
  Hostname : String := ""
  OS : String := ""
  TailscaleIP : String := ""
  Online : Bool := false
  Tags : List String := []
  deriving DecidableEq

/-- model.ServerGroup -/
structure ServerGroup where
  Name : String := ""
  Label : String := ""
  Servers : List String := []
  deriving DecidableEq

/-- model.Network -/
structure Network where
  Name : String := ""
  Driver : String := ""
  Services : List String := []
  deriving DecidableEq

/-- model.Infrastructure -/
structure Infrastructure where
  Servers : List (String × Server) := []
  ServerGroups : List (String × ServerGroup) := []
  Devices : List (String × Device) := []
  Networks : List (String × Network) := []
  TailnetName : String := ""
  deriving DecidableEq

/-- model.NewInfrastructure -/
def NewInfrastructure : Infrastructure := {}

/-- model.PortMapping.String -/
def PortMapping.String (p : PortMapping) : String :=
  let proto := if p.Protocol = "" ∨ p.Protocol = "tcp" then "" else "/" ++ p.Protocol
  if p.HostPort = p.ContainerPort then fmtD p.HostPort ++ proto
  else fmtD p.HostPort ++ "→" ++ fmtD p.ContainerPort ++ proto

/-- The two halves of s around its first occurrence of the rune c, if it has one
(strings.Index with the slices s[:idx] and s[idx+1:]). -/
def cutRunes (c : Char) : List Char → Option (List Char × List Char)
  | [] => none
  | x :: xs =>
    if x = c then some ([], xs)
    else
      match cutRunes c xs with
      | some (before, after) => some (x :: before, after)
      | none => none

/-- model.ParsePortMapping -/
def ParsePortMapping (s : String) : PortMapping :=
  let pm : PortMapping := { Protocol := "tcp" }
  let (pm, s) :=
    match cutRunes '/' s.data with
    | some (before, after) => ({ pm with Protocol := String.mk after }, String.mk before)
    | none => (pm, s)
  match strSplit s ':' with
  | [p0] =>
    let port := (Atoi p0).1
    { pm with HostPort := port, ContainerPort := port }
  | [p0, p1] =>
    { pm with HostPort := (Atoi p0).1, ContainerPort := (Atoi p1).1 }
  | [p0, p1, p2] =>
    { pm with HostIP := p0, HostPort := (Atoi p1).1, ContainerPort := (Atoi p2).1 }
  | _ => pm

/-- model.categoryPatterns, in the order of the source text. -/
def categoryPatterns : List (String × String) := [
  ("plex", "media"),
  ("jellyfin", "media"),
  ("jellyseerr", "media"),
  ("radarr", "media"),
  ("sonarr", "media"),
  ("prowlarr", "media"),
  ("bazarr", "media"),
  ("overseerr", "media"),
  ("tautulli", "media"),
  ("emby", "media"),
  ("kodi", "media"),
  ("transmission", "downloads"),
  ("qbittorrent", "downloads"),
  ("sabnzbd", "downloads"),
  ("gluetun", "downloads"),
  ("nzbget", "downloads"),
  ("deluge", "downloads"),
  ("aria2", "downloads"),
  ("traefik", "infrastructure"),
  ("nginx", "infrastructure"),
  ("nginx-proxy-manager", "infrastructure"),
  ("caddy", "infrastructure"),
  ("portainer", "infrastructure"),
  ("docker", "infrastructure"),
  ("watchtower", "infrastructure"),
  ("netdata", "monitoring"),
  ("grafana", "monitoring"),
  ("prometheus", "monitoring"),
  ("uptime-kuma", "monitoring"),
  ("cockpit", "monitoring"),
  ("stirling-pdf", "tools"),
  ("it-tools", "tools"),
  ("homepage", "tools"),
  ("homarr", "tools"),
  ("dashy", "tools"),
  ("vikunja", "productivity"),
  ("n8n", "productivity"),
  ("super-productivity", "productivity"),
  ("gitea", "dev"),
  ("gitlab", "dev"),
  ("forgejo", "dev"),
  ("semaphore", "dev"),
  ("home-assistant", "home"),
  ("homeassistant", "home"),
  ("vaultwarden", "security"),
  ("bitwarden", "security"),
  ("authelia", "security"),
  ("ntfy", "communication")]

/-- The first entry of a table, in the order given, whose key occurs in s: the loop
`for key, val := range table { if strings.Contains(s, key) { return val } }`. -/
def firstContained (visit : List (String × String)) (s : String) : Option String :=
  match visit with
  | [] => none
  | (key, val) :: rest => if strContains s key then some val else firstContained rest s

/-- model.CategorizeService.  The argument visit is categoryPatterns in the order in which
this call's range statement visits it. -/
def CategorizeService (visit : List (String × String)) (name image : String) : String :=
  let lower := goToLower (name ++ " " ++ image)
  match mapGet categoryPatterns (goToLower name) with
  | some cat => cat
  | none =>
    match firstContained visit lower with
    | some cat => cat
    | none => ""

/-! ## internal/collector: compose -/

/-- The keyword slice of collector.detectServiceType. -/
def dbKeywords : List String :=
  ["postgres", "mysql", "mariadb", "mongo", "redis", "memcached", "influxdb", "sqlite"]

/-- collector.detectServiceType -/
def detectServiceType (image name : String) : ServiceType :=
  let lower := goToLower (image ++ " " ++ name)
  if dbKeywords.any (fun kw => strContains lower kw) then ServiceTypeDatabase
  else ServiceTypeContainer

/-- collector.ensureServer -/
def ensureServer (infra : Infrastructure) (hostname : String) : Infrastructure :=
  if hostname = "" then infra
  else
    match mapGet infra.Servers hostname with
    | some _ => infra
    | none =>
      let server : Server :=
        { Hostname := hostname, Label := hostname, Type_ := ServerTypeLocal, Online := true }
      { infra with Servers := mapSet infra.Servers hostname server }

/-! ## internal/collector: tailscale -/

/-- collector.TailscaleCollector -/
structure TailscaleCollector where
  JsonFile : String := ""
  IncludeOffline : Bool := false
  deriving DecidableEq

/-- collector.tailscalePeer -/
structure tailscalePeer where
  HostName : String := ""
  DNSName : String := ""
  OS : String := ""
  TailscaleIPs : List String := []
  Online : Bool := false
  Tags : List String := []
  deriving DecidableEq

/-- collector.tailscaleTailnet -/
structure tailscaleTailnet where
  Name : String := ""
  deriving DecidableEq

/-- collector.tailscaleStatus; Peer is a Go map. -/
structure tailscaleStatus where
  Self : tailscalePeer := {}
  Peer : List (String × tailscalePeer) := []
  MagicDNSSuffix : String := ""
  CurrentTailnet : Option tailscaleTailnet := none
  deriving DecidableEq

/-- The local tsIP of processPeer: the first address of the peer, the empty string when it
has none. -/
def firstIP (peer : tailscalePeer) : String :=
  match peer.TailscaleIPs with
  | [] => ""
  | ip :: _ => ip

/-- The three assignments processPeer makes through the pointer to an existing Server. -/
def enrichServer (server : Server) (peer : tailscalePeer) : Server :=
  { server with TailscaleIP := firstIP peer, OS := peer.OS, Online := peer.Online }

/-- collector.TailscaleCollector.processPeer; lower is the case table of strings.ToLower. -/
def TailscaleCollector.processPeer (_tc : TailscaleCollector) (lower : Char → Char)
    (infra : Infrastructure) (peer : tailscalePeer) : Infrastructure :=
  let hostname := strToLower lower peer.HostName
  if hostname = "" then infra
  else
    let tsIP := firstIP peer
    match mapGet infra.Servers hostname with
    | some server =>
      { infra with Servers := mapSet infra.Servers hostname (enrichServer server peer) }
    | none =>
      let isServer := peer.Tags.any (fun tag => strContains tag "server")
      if isServer then
        let server : Server :=
          { Hostname := hostname, Label := hostname, TailscaleIP := tsIP, OS := peer.OS,
            Online := peer.Online, Type_ := ServerTypeLab }
        { infra with Servers := mapSet infra.Servers hostname server }
      else
        let device : Device :=
          { Hostname := hostname, OS := peer.OS, TailscaleIP := tsIP,
            Online := peer.Online, Tags := peer.Tags }
        { infra with Devices := mapSet infra.Devices hostname device }

/-- The body of the loop over status.Peer in Collect, for one entry. -/
def TailscaleCollector.collectPeer (tc : TailscaleCollector) (lower : Char → Char)
    (infra : Infrastructure) (peer : tailscalePeer) : Infrastructure :=
  if !peer.Online && !tc.IncludeOffline then infra
  else tc.processPeer lower infra peer

/-- collector.TailscaleCollector.Collect, from the decoded payload on: reading the payload
(getData) and decoding it (json.Unmarshal) happen before the Model is touched. -/
def TailscaleCollector.Collect (tc : TailscaleCollector) (lower : Char → Char)
    (infra : Infrastructure) (status : tailscaleStatus) : Infrastructure :=
  let infra :=
    match status.CurrentTailnet with
    | some t => { infra with TailnetName := t.Name }
    | none => infra
  let infra := tc.processPeer lower infra status.Self
  status.Peer.foldl (fun acc entry => tc.collectPeer lower acc entry.2) infra

/-! ## internal/config -/

/-- config.Display -/
structure Display where
  ShowDevices : Bool := false
  ShowVolumes : Bool := false
  GroupBy : String := ""
  deriving DecidableEq

/-- config.RenderConfig -/
structure RenderConfig where
  DetailLevel : String := ""
  AutoRender : Bool := false
  Format : String := ""
  deriving DecidableEq

/-- config.Config, without the fields Sources and RawSources, which the renderer does not
read. -/
structure Config where
  Output : String := ""
  Layout : String := ""
  Direction : String := ""
  Theme : String := ""
  Display : Display := {}
  Render : RenderConfig := {}
  deriving DecidableEq

/-! ## internal/render: themes and icons -/

/-- render.ThemeColor -/
structure ThemeColor where
  Fill : String := ""
  Stroke : String := ""
  Font : String := ""
  deriving DecidableEq

/-- render.Theme -/
structure Theme where
  Name : String := ""
  Colors : List (String × ThemeColor) := []
  deriving DecidableEq

/-- The theme default of render.themes. -/
def defaultTheme : Theme :=
  { Name := "default",
    Colors := [
      ("production", { Fill := "#FEE2E2", Stroke := "#DC2626", Font := "#991B1B" }),
      ("lab", { Fill := "#DCFCE7", Stroke := "#16A34A", Font := "#166534" }),
      ("local", { Fill := "#FEF9C3", Stroke := "#CA8A04", Font := "#854D0E" }),
      ("cluster", { Fill := "#E0F2FE", Stroke := "#0284C7", Font := "#075985" }),
      ("hypervisor", { Fill := "#FFF7ED", Stroke := "#EA580C", Font := "#9A3412" }),
      ("devices", { Fill := "#F3F4F6", Stroke := "#6B7280", Font := "#374151" }),
      ("cloud", { Fill := "#DBEAFE", Stroke := "#2563EB", Font := "#1E40AF" }),
      ("database", { Fill := "#EDE9FE", Stroke := "#7C3AED", Font := "#5B21B6" }),
      ("system", { Fill := "#E0E7FF", Stroke := "#4F46E5", Font := "#3730A3" })] }

/-- The theme dark of render.themes. -/
def darkTheme : Theme :=
  { Name := "dark",
    Colors := [
      ("production", { Fill := "#450A0A", Stroke := "#EF4444", Font := "#FCA5A5" }),
      ("lab", { Fill := "#052E16", Stroke := "#22C55E", Font := "#86EFAC" }),
      ("local", { Fill := "#422006", Stroke := "#EAB308", Font := "#FDE047" }),
      ("cluster", { Fill := "#082F49", Stroke := "#0EA5E9", Font := "#7DD3FC" }),
      ("hypervisor", { Fill := "#431407", Stroke := "#F97316", Font := "#FDBA74" }),
      ("devices", { Fill := "#1F2937", Stroke := "#9CA3AF", Font := "#D1D5DB" }),
      ("cloud", { Fill := "#1E3A5F", Stroke := "#3B82F6", Font := "#93C5FD" }),
      ("database", { Fill := "#2E1065", Stroke := "#A78BFA", Font := "#C4B5FD" }),
      ("system", { Fill := "#1E1B4B", Stroke := "#818CF8", Font := "#A5B4FC" })] }

/-- The theme monochrome of render.themes. -/
def monochromeTheme : Theme :=
  { Name := "monochrome",
    Colors := [
      ("production", { Fill := "#E5E7EB", Stroke := "#374151", Font := "#111827" }),
      ("lab", { Fill := "#F3F4F6", Stroke := "#6B7280", Font := "#374151" }),
      ("local", { Fill := "#F9FAFB", Stroke := "#9CA3AF", Font := "#4B5563" }),
      ("cluster", { Fill := "#E5E7EB", Stroke := "#4B5563", Font := "#1F2937" }),
      ("hypervisor", { Fill := "#D1D5DB", Stroke := "#374151", Font := "#111827" }),
      ("devices", { Fill := "#F3F4F6", Stroke := "#9CA3AF", Font := "#6B7280" }),
      ("cloud", { Fill := "#E5E7EB", Stroke := "#6B7280", Font := "#374151" }),
      ("database", { Fill := "#D1D5DB", Stroke := "#4B5563", Font := "#1F2937" }),
      ("system", { Fill := "#E5E7EB", Stroke := "#6B7280", Font := "#374151" })] }

/-- The theme ocean of render.themes. -/
def oceanTheme : Theme :=
  { Name := "ocean",
    Colors := [
      ("production", { Fill := "#FEE2E2", Stroke := "#DC2626", Font := "#991B1B" }),
      ("lab", { Fill := "#CFFAFE", Stroke := "#0891B2", Font := "#155E75" }),
      ("local", { Fill := "#E0F2FE", Stroke := "#0284C7", Font := "#075985" }),
      ("cluster", { Fill := "#DBEAFE", Stroke := "#2563EB", Font := "#1E40AF" }),
      ("hypervisor", { Fill := "#C7D2FE", Stroke := "#4F46E5", Font := "#3730A3" }),
      ("devices", { Fill := "#F0F9FF", Stroke := "#38BDF8", Font := "#0369A1" }),
      ("cloud", { Fill := "#E0F2FE", Stroke := "#0EA5E9", Font := "#0C4A6E" }),
      ("database", { Fill := "#C7D2FE", Stroke := "#6366F1", Font := "#3730A3" }),
      ("system", { Fill := "#DBEAFE", Stroke := "#3B82F6", Font := "#1E40AF" })] }

/-- render.themes -/
def themes : List (String × Theme) :=
  [("default", defaultTheme), ("dark", darkTheme), ("monochrome", monochromeTheme),
   ("ocean", oceanTheme)]

/-- render.GetTheme -/
def GetTheme (name : String) : Theme :=
  match mapGet themes name with
  | some t => t
  | none => defaultTheme

/-- render.Theme.ColorForServerType -/
def Theme.ColorForServerType (t : Theme) (st : ServerType) : ThemeColor :=
  match mapGet t.Colors st with
  | some c => c
  | none => (mapGet t.Colors "lab").getD {}

/-- render.Theme.ColorForElement -/
def Theme.ColorForElement (t : Theme) (name : String) : ThemeColor :=
  match mapGet t.Colors name with
  | some c => c
  | none => { Fill := "#F9FAFB", Stroke := "#D1D5DB", Font := "#111827" }

def terrastruct : String := "https://icons.terrastruct.com"
def selfhst : String := "https://cdn.jsdelivr.net/gh/selfhst/icons/svg"

/-- render.iconRegistry, in the order of the source text. -/
def iconRegistry : List (String × String) := [
  ("postgres", terrastruct ++ "/dev/postgresql.svg"),
  ("postgresql", terrastruct ++ "/dev/postgresql.svg"),
  ("mysql", terrastruct ++ "/dev/mysql.svg"),
  ("mariadb", selfhst ++ "/mariadb.svg"),
  ("redis", terrastruct ++ "/dev/redis.svg"),
  ("mongodb", selfhst ++ "/mongodb.svg"),
  ("mongo", selfhst ++ "/mongodb.svg"),
  ("couchdb", selfhst ++ "/couchdb.svg"),
  ("nginx", terrastruct ++ "/dev/nginx.svg"),
  ("nginx-proxy-manager", selfhst ++ "/nginx-proxy-manager.svg"),
  ("npm", selfhst ++ "/nginx-proxy-manager.svg"),
  ("traefik", selfhst ++ "/traefik.svg"),
  ("caddy", selfhst ++ "/caddy.svg"),
  ("cloudflare", selfhst ++ "/cloudflare.svg"),
  ("netdata", selfhst ++ "/netdata.svg"),
  ("grafana", selfhst ++ "/grafana.svg"),
  ("prometheus", selfhst ++ "/prometheus.svg"),
  ("uptime-kuma", selfhst ++ "/uptime-kuma.svg"),
  ("docker", terrastruct ++ "/dev/docker.svg"),
  ("portainer", selfhst ++ "/portainer.svg"),
  ("nodejs", terrastruct ++ "/dev/nodejs.svg"),
  ("node", terrastruct ++ "/dev/nodejs.svg"),
  ("go", selfhst ++ "/golang.svg"),
  ("python", terrastruct ++ "/dev/python.svg"),
  ("tailscale", selfhst ++ "/tailscale.svg"),
  ("cockpit", selfhst ++ "/cockpit.svg"),
  ("kubernetes", terrastruct ++ "/dev/kubernetes.svg"),
  ("k8s", terrastruct ++ "/dev/kubernetes.svg"),
  ("proxmox", selfhst ++ "/proxmox.svg"),
  ("terraform", terrastruct ++ "/dev/terraform.svg"),
  ("linux", terrastruct ++ "/dev/linux.svg"),
  ("debian", terrastruct ++ "/dev/debian.svg"),
  ("macos", terrastruct ++ "/dev/apple.svg"),
  ("ios", terrastruct ++ "/dev/apple.svg"),
  ("android", terrastruct ++ "/dev/android.svg"),
  ("windows", terrastruct ++ "/dev/windows.svg"),
  ("plex", selfhst ++ "/plex.svg"),
  ("jellyfin", selfhst ++ "/jellyfin.svg"),
  ("jellyseerr", selfhst ++ "/jellyseerr.svg"),
  ("radarr", selfhst ++ "/radarr.svg"),
  ("sonarr", selfhst ++ "/sonarr.svg"),
  ("prowlarr", selfhst ++ "/prowlarr.svg"),
  ("bazarr", selfhst ++ "/bazarr.svg"),
  ("overseerr", selfhst ++ "/overseerr.svg"),
  ("tautulli", selfhst ++ "/tautulli.svg"),
  ("transmission", selfhst ++ "/transmission.svg"),
  ("qbittorrent", selfhst ++ "/qbittorrent.svg"),
  ("sabnzbd", selfhst ++ "/sabnzbd.svg"),
  ("gluetun", selfhst ++ "/gluetun.svg"),
  ("vaultwarden", selfhst ++ "/vaultwarden.svg"),
  ("bitwarden", selfhst ++ "/bitwarden.svg"),
  ("homepage", selfhst ++ "/homepage.svg"),
  ("homarr", selfhst ++ "/homarr.svg"),
  ("home-assistant", selfhst ++ "/home-assistant.svg"),
  ("homeassistant", selfhst ++ "/home-assistant.svg"),
  ("stirling-pdf", selfhst ++ "/stirling-pdf.svg"),
  ("it-tools", selfhst ++ "/it-tools.svg"),
  ("n8n", selfhst ++ "/n8n.svg"),
  ("gitea", selfhst ++ "/gitea.svg"),
  ("vikunja", selfhst ++ "/vikunja.svg"),
  ("ntfy", selfhst ++ "/ntfy.svg"),
  ("semaphore", selfhst ++ "/semaphore.svg"),
  ("kiwix", selfhst ++ "/kiwix.svg"),
  ("audiobookshelf", selfhst ++ "/audiobookshelf.svg"),
  ("recyclarr", selfhst ++ "/recyclarr.svg"),
  ("super-productivity", selfhst ++ "/super-productivity.svg"),
  ("obsidian", selfhst ++ "/obsidian.svg")]

/-- The map imageNames of render.smartServiceName, in the order of the source text. -/
def imageNames : List (String × String) := [
  ("postgres", "PostgreSQL"),
  ("mysql", "MySQL"),
  ("mariadb", "MariaDB"),
  ("redis", "Redis"),
  ("mongo", "MongoDB"),
  ("memcached", "Memcached"),
  ("influxdb", "InfluxDB"),
  ("nginx", "Nginx"),
  ("traefik", "Traefik"),
  ("caddy", "Caddy")]

/-- The map genericNames of render.smartServiceName. -/
def genericNames : List (String × Bool) := [
  ("db", true), ("database", true), ("cache", true), ("proxy", true),
  ("web", true), ("server", true), ("app", true), ("api", true)]

/-- The orders in which the range statements of one rendering visit the two lookup tables
that the renderer iterates: icons is iconRegistry and products is imageNames, each in some
order.  One order per table is used for the whole run. -/
structure TableOrder where
  icons : List (String × String) := iconRegistry
  products : List (String × String) := imageNames
  deriving DecidableEq

/-- render.LookupIcon -/
def LookupIcon (visit : List (String × String)) (name image : String) : String :=
  match mapGet iconRegistry (goToLower name) with
  | some url => url
  | none =>
    let imgLower := goToLower image
    match firstContained visit imgLower with
    | some url => url
    | none =>
      let nameLower := goToLower name
      match firstContained visit nameLower with
      | some url => url
      | none => ""

/-- render.LookupOSIcon -/
def LookupOSIcon (visit : List (String × String)) (os : String) : String :=
  let osLower := goToLower os
  match firstContained visit osLower with
  | some url => url
  | none => ""

/-! ## internal/render: the D2 renderer -/

/-- render.D2Renderer -/
structure D2Renderer where
  DetailLevel : String := ""
  deriving DecidableEq

/-- render.D2Renderer.detail -/
def D2Renderer.detail (r : D2Renderer) : String :=
  if r.DetailLevel = "" then "standard" else r.DetailLevel

/-- The placeholder Service that filterServices appends for systemCount system services. -/
def systemSummary (systemCount : Nat) : Service :=
  { Name := "system-summary-" ++ fmtD systemCount, Type_ := ServiceTypeSystem }

/-- The body of the loop of filterServices: the state is the slice filtered and the counter
systemCount. -/
def filterStep (acc : List Service × Nat) (svc : Service) : List Service × Nat :=
  if svc.Type_ = ServiceTypeSystem then (acc.1, acc.2 + 1) else (acc.1 ++ [svc], acc.2)

/-- render.D2Renderer.filterServices -/
def D2Renderer.filterServices (r : D2Renderer) (services : List Service) : List Service :=
  if r.detail = "detailed" then services
  else
    let state := services.foldl filterStep ([], 0)
    let filtered := state.1
    let systemCount := state.2
    if systemCount > 0 then filtered ++ [systemSummary systemCount] else filtered

/-- render.smartServiceName.  The argument visit is imageNames in the order in which this
call's range statement visits it. -/
def smartServiceName (visit : List (String × String)) (name image : String) : String :=
  if (mapGet genericNames (goToLower name)).getD false ∧ image ≠ "" then
    match firstContained visit (goToLower image) with
    | some display => display
    | none => name
  else name

/-- render.D2Renderer.serviceLabel -/
def D2Renderer.serviceLabel (r : D2Renderer) (ord : TableOrder) (svc : Service) : String :=
  let displayName := smartServiceName ord.products svc.Name svc.Image
  if r.detail = "detailed" then
    let portStrs := (svc.Ports.filter (fun p => p.HostPort > 0)).map
      (fun p => ":" ++ fmtD p.HostPort)
    if portStrs.length > 0 then displayName ++ " " ++ strJoin portStrs " "
    else displayName
  else
    match svc.Ports with
    | p :: _ => if p.HostPort > 0 then displayName ++ " :" ++ fmtD p.HostPort else displayName
    | [] => displayName

/-- render.D2Renderer.serviceProperties -/
def D2Renderer.serviceProperties (r : D2Renderer) (ord : TableOrder) (svc : Service)
    (theme : Theme) : List String :=
  let props : List String := []
  let props :=
    if svc.Type_ = ServiceTypeDatabase then
      let color := theme.ColorForElement "database"
      props ++ ["shape: cylinder", "style.fill: " ++ fmtQ color.Fill,
        "style.stroke: " ++ fmtQ color.Stroke]
    else props
  let props := if svc.Type_ = ServiceTypeVM then props ++ ["shape: rectangle"] else props
  let props := if svc.Type_ = ServiceTypeLXC then props ++ ["shape: hexagon"] else props
  let props :=
    if svc.Type_ = ServiceTypeSystem then
      let color := theme.ColorForElement "system"
      props ++ ["style.fill: " ++ fmtQ color.Fill, "style.stroke: " ++ fmtQ color.Stroke]
    else props
  if r.detail ≠ "minimal" then
    let icon := LookupIcon ord.icons svc.Name svc.Image
    if icon ≠ "" then props ++ ["icon: " ++ icon] else props
  else props

/-- render.D2Renderer.renderService -/
def D2Renderer.renderService (r : D2Renderer) (ord : TableOrder) (svc : Service)
    (theme : Theme) (indent : String) : String :=
  if svc.Type_ = ServiceTypeSystem ∧ strHasPrefix svc.Name "system-summary-" then
    let count := String.mk (svc.Name.data.drop "system-summary-".length)
    let id := "system-services"
    let label := "System (" ++ count ++ ")"
    let color := theme.ColorForElement "system"
    indent ++ id ++ ": " ++ Quote label ++ " \x7b\n"
      ++ indent ++ "  style.fill: " ++ fmtQ color.Fill ++ "\n"
      ++ indent ++ "  style.stroke: " ++ fmtQ color.Stroke ++ "\n"
      ++ indent ++ "\x7d\n"
  else
    let id := SanitizeID svc.Name
    let label := r.serviceLabel ord svc
    let head := indent ++ id ++ ": " ++ Quote label
    let props := r.serviceProperties ord svc theme
    if props.length > 0 then
      head ++ " \x7b\n"
        ++ String.join (props.map (fun prop => indent ++ "  " ++ prop ++ "\n"))
        ++ indent ++ "\x7d\n"
    else head ++ "\n"

/-- render.sortedServices -/
def sortedServices (services : List Service) : List Service :=
  sortByKey (fun svc => svc.Name) services

/-- render.D2Renderer.renderFlatServices -/
def D2Renderer.renderFlatServices (r : D2Renderer) (ord : TableOrder) (services : List Service)
    (theme : Theme) (indent : String) : String :=
  String.join ((sortedServices services).map (fun svc => r.renderService ord svc theme indent))

/-- The key under which renderGroupedServices files a Service. -/
def categoryKey (svc : Service) : String :=
  if svc.Category = "" then "services" else svc.Category

/-- The label of a category sub-group, strings.ToUpper(name[:1]) + name[1:], for a name
whose first rune is ASCII. -/
def categoryLabel (name : String) : String :=
  match name.data with
  | [] => ""
  | c :: cs => String.mk (upperRune c :: cs)

/-- render.D2Renderer.renderGroupedServices.  The keys of the local map groups are
collected without repetition and sorted; the Services under a key keep their order. -/
def D2Renderer.renderGroupedServices (r : D2Renderer) (ord : TableOrder) (_server : Server)
    (services : List Service) (theme : Theme) (indent : String) : String :=
  let groupNames := sortByKey id (services.map categoryKey).dedup
  if groupNames.length ≤ 1 then r.renderFlatServices ord services theme indent
  else
    String.join (groupNames.map (fun name =>
      let svcs := services.filter (fun svc => categoryKey svc = name)
      let id := SanitizeID name
      let label := categoryLabel name
      indent ++ id ++ ": " ++ Quote label ++ " \x7b\n"
        ++ String.join ((sortedServices svcs).map
            (fun svc => r.renderService ord svc theme (indent ++ "  ")))
        ++ indent ++ "\x7d\n"))

/-- render.D2Renderer.renderServer -/
def D2Renderer.renderServer (r : D2Renderer) (ord : TableOrder) (server : Server)
    (theme : Theme) (cfg : Config) (indent : String) : String :=
  let id := SanitizeID server.Hostname
  let label :=
    if server.PublicIP ≠ "" ∧ r.detail ≠ "minimal" then
      server.Hostname ++ " — " ++ server.PublicIP
    else server.Hostname
  let head := indent ++ id ++ ": " ++ Quote label ++ " \x7b\n"
  let icon :=
    if r.detail ≠ "minimal" then
      let icon := LookupOSIcon ord.icons server.OS
      if icon ≠ "" then indent ++ "  icon: " ++ icon ++ "\n" else ""
    else ""
  let tooltip :=
    if server.TailscaleIP ≠ "" ∧ r.detail ≠ "minimal" then
      indent ++ "  tooltip: " ++ fmtQ ("Tailscale: " ++ server.TailscaleIP) ++ "\n"
    else ""
  let body :=
    if r.detail ≠ "minimal" then
      let services := r.filterServices server.Services
      let grid := if services.length > 8 then indent ++ "  grid-columns: 4\n" else ""
      let nodes :=
        if server.Type_ = ServerTypeLocal ∧ cfg.Display.GroupBy = "category" then
          r.renderGroupedServices ord server services theme (indent ++ "  ")
        else r.renderFlatServices ord services theme (indent ++ "  ")
      grid ++ nodes
    else ""
  head ++ icon ++ tooltip ++ body ++ indent ++ "\x7d\n"

/-- render.sortedDevices -/
def sortedDevices (devices : List (String × Device)) : List Device :=
  sortByKey (fun d => d.Hostname) (devices.map Prod.snd)

/-- render.D2Renderer.renderDevices -/
def D2Renderer.renderDevices (r : D2Renderer) (ord : TableOrder) (infra : Infrastructure)
    (theme : Theme) : String :=
  let color := theme.ColorForElement "devices"
  let head := "  devices: \"Other Devices\" \x7b\n"
    ++ "    style.fill: " ++ fmtQ color.Fill ++ "\n"
    ++ "    style.stroke: " ++ fmtQ color.Stroke ++ "\n"
    ++ "\n"
  let nodes := (sortedDevices infra.Devices).map (fun dev =>
    let id := SanitizeID dev.Hostname
    let label :=
      if dev.OS ≠ "" ∧ r.detail = "detailed" then dev.Hostname ++ " (" ++ dev.OS ++ ")"
      else dev.Hostname
    let icon := LookupOSIcon ord.icons dev.OS
    "    " ++ id ++ ": " ++ Quote label
      ++ (if icon ≠ "" then " \x7b\n      icon: " ++ icon ++ "\n    \x7d\n" else "\n"))
  head ++ String.join nodes ++ "  \x7d\n\n"

/-- The target of the edge from cloudflare to a production Server: its first Service that
is not a system service, or the Server itself. -/
def cloudflareTarget (server : Server) : String :=
  let sid := SanitizeID server.Hostname
  match server.Services.find? (fun svc => svc.Type_ ≠ ServiceTypeSystem) with
  | some svc => "tailnet.production." ++ sid ++ "." ++ SanitizeID svc.Name
  | none => "tailnet.production." ++ sid

/-- The lines the second loop of renderExternalConnections writes, over the Servers in the
order given; connWritten is the flag of the same name. -/
def cloudflareEdges (connWritten : Bool) : List Server → String
  | [] => ""
  | server :: rest =>
    if server.Type_ ≠ ServerTypeProduction then cloudflareEdges connWritten rest
    else
      (if !connWritten then "internet -> cloudflare \x7b style.stroke-dash: 3 \x7d\n" else "")
        ++ "cloudflare -> " ++ cloudflareTarget server ++ "\n"
        ++ cloudflareEdges true rest

/-- The lines the last loop of renderExternalConnections writes for one Server. -/
def D2Renderer.dependencyEdges (r : D2Renderer) (server : Server) : String :=
  let sid := SanitizeID server.Hostname
  let groupID := SanitizeID server.Type_
  String.join (server.Services.map (fun svc =>
    let svcID := SanitizeID svc.Name
    String.join (svc.DependsOn.map (fun dep =>
      let depID := SanitizeID dep
      let ends := "tailnet." ++ groupID ++ "." ++ sid ++ "." ++ svcID
        ++ " -> tailnet." ++ groupID ++ "." ++ sid ++ "." ++ depID
      if r.detail = "detailed" then
        ends ++ ": \"depends_on\" \x7b style.stroke-dash: 3 \x7d\n"
      else ends ++ " \x7b style.stroke-dash: 3 \x7d\n"))))

/-- render.D2Renderer.renderExternalConnections.  The three loops over infra.Servers visit
the map in the order of the list. -/
def D2Renderer.renderExternalConnections (r : D2Renderer) (infra : Infrastructure) : String :=
  let servers := infra.Servers.map Prod.snd
  let hasProduction := servers.any (fun server => server.Type_ = ServerTypeProduction)
  let external :=
    if hasProduction then
      let cloudColor := (GetTheme "default").ColorForElement "cloud"
      "cloudflare: \"Cloudflare\" \x7b\n  shape: cloud\n  style.fill: " ++ fmtQ cloudColor.Fill
        ++ "\n  style.stroke: " ++ fmtQ cloudColor.Stroke ++ "\n\x7d\n"
        ++ "internet: \"Internet\" \x7b\n  shape: cloud\n\x7d\n\n"
        ++ cloudflareEdges false servers
    else ""
  let internal :=
    if r.detail ≠ "minimal" then String.join (servers.map r.dependencyEdges) else ""
  external ++ internal

/-- render.serversOfType -/
def serversOfType (infra : Infrastructure) (stype : ServerType) : List Server :=
  sortByKey (fun s => s.Hostname)
    ((infra.Servers.map Prod.snd).filter (fun s => s.Type_ = stype))

/-- The slice groupOrder of Render. -/
def groupOrder : List ServerType :=
  [ServerTypeProduction, ServerTypeLab, ServerTypeCluster, ServerTypeHypervisor,
   ServerTypeLocal]

/-- The block Render writes for one classification: nothing when it has no Server. -/
def D2Renderer.renderGroup (r : D2Renderer) (ord : TableOrder) (infra : Infrastructure)
    (theme : Theme) (cfg : Config) (stype : ServerType) : String :=
  let servers := serversOfType infra stype
  if servers.length = 0 then ""
  else
    let groupLabel :=
      match mapGet infra.ServerGroups stype with
      | some group => group.Label
      | none => stype
    let color := theme.ColorForServerType stype
    "  " ++ SanitizeID stype ++ ": " ++ Quote groupLabel ++ " \x7b\n"
      ++ "    style.fill: " ++ fmtQ color.Fill ++ "\n"
      ++ "    style.stroke: " ++ fmtQ color.Stroke ++ "\n"
      ++ "\n"
      ++ String.join (servers.map (fun server => r.renderServer ord server theme cfg "    "))
      ++ "  \x7d\n\n"

/-- The part of Render that writes the device block. -/
def D2Renderer.devicesPart (r : D2Renderer) (ord : TableOrder) (infra : Infrastructure)
    (theme : Theme) (cfg : Config) : String :=
  if cfg.Display.ShowDevices ∧ infra.Devices.length > 0 ∧ r.detail ≠ "minimal" then
    r.renderDevices ord infra theme
  else ""

/-- The part of Render that writes the external connections. -/
def D2Renderer.externalPart (r : D2Renderer) (infra : Infrastructure) : String :=
  if r.detail ≠ "minimal" then r.renderExternalConnections infra else ""

/-- render.D2Renderer.Render -/
def D2Renderer.Render (r : D2Renderer) (ord : TableOrder) (infra : Infrastructure)
    (cfg : Config) : String :=
  let r := { r with DetailLevel := cfg.Render.DetailLevel }
  let theme := GetTheme cfg.Theme
  let direction := if cfg.Direction = "" then "right" else cfg.Direction
  let tailnetLabel :=
    if infra.TailnetName ≠ "" then "Tailscale — " ++ infra.TailnetName else "Tailscale VPN"
  "direction: " ++ direction ++ "\n\n"
    ++ "tailnet: " ++ Quote tailnetLabel ++ " \x7b\n"
    ++ String.join (groupOrder.map (fun stype => r.renderGroup ord infra theme cfg stype))
    ++ r.devicesPart ord infra theme cfg
    ++ "\x7d\n\n"
    ++ r.externalPart infra

/-- render.RenderD2 -/
def RenderD2 (ord : TableOrder) (infra : Infrastructure) (cfg : Config) : String :=
  let r : D2Renderer := { DetailLevel := cfg.Render.DetailLevel }
  r.Render ord infra cfg

/-! ## internal/model: Server.AddService -/

/-- model.Server.AddService -/
def Server.AddService (s : Server) (svc : Service) : Server :=
  { s with Services := s.Services ++ [svc] }

/-! ## internal/collector: merge -/

/-- collector.categorizeServices.  The argument visit is the order in which the calls of
CategorizeService visit categoryPatterns. -/
def categorizeServices (visit : List (String × String)) (infra : Infrastructure) :
    Infrastructure :=
  let categorize (svc : Service) : Service :=
    if svc.Category = "" then
      { svc with Category := CategorizeService visit svc.Name svc.Image }
    else svc
  let perServer (e : String × Server) : String × Server :=
    (e.1, { e.2 with Services := e.2.Services.map categorize })
  { infra with Servers := infra.Servers.map perServer }

/-- The map literal groups of buildTypeGroups. -/
def typeGroups : List (ServerType × ServerGroup) :=
  [(ServerTypeProduction, { Name := "production", Label := "Production" }),
   (ServerTypeLab, { Name := "lab", Label := "Lab Servers" }),
   (ServerTypeLocal, { Name := "local", Label := "Local" }),
   (ServerTypeCluster, { Name := "cluster", Label := "Kubernetes" }),
   (ServerTypeHypervisor, { Name := "hypervisor", Label := "Hypervisors" })]

/-- The body of the first loop of buildTypeGroups, for the entry hostname, server. -/
def groupStep (groups : List (ServerType × ServerGroup)) (e : String × Server) :
    List (ServerType × ServerGroup) :=
  match mapGet groups e.2.Type_ with
  | some g => mapSet groups e.2.Type_ { g with Servers := g.Servers ++ [e.1] }
  | none => groups

/-- The body of the second loop of buildTypeGroups, for the entry stype, group. -/
def storeStep (serverGroups : List (String × ServerGroup)) (e : ServerType × ServerGroup) :
    List (String × ServerGroup) :=
  if e.2.Servers.length > 0 then mapSet serverGroups e.1 e.2 else serverGroups

/-- collector.buildTypeGroups -/
def buildTypeGroups (infra : Infrastructure) : Infrastructure :=
  let groups := infra.Servers.foldl groupStep typeGroups
  { infra with ServerGroups := groups.foldl storeStep infra.ServerGroups }

/-- collector.Merge -/
def Merge (visit : List (String × String)) (infra : Infrastructure) : Infrastructure :=
  buildTypeGroups (categorizeServices visit infra)

/-! ## internal/collector: proxmox -/

/-- collector.ProxmoxCollector -/
structure ProxmoxCollector where
  APIURL : String := ""
  TokenID : String := ""
  Token : String := ""
  Insecure : Bool := false
  TestNodes : String := ""
  TestResources : String := ""
  deriving DecidableEq

/-- collector.pveNode, without the floating-point field CPU, which Collect does not read. -/
structure pveNode where
  Node : String := ""
  Status : String := ""
  MaxCPU : Int := 0
  Mem : Int := 0
  MaxMem : Int := 0
  deriving DecidableEq

/-- collector.pveResource, without the floating-point field CPU; the field Type is written
Type_. -/
structure pveResource where
  ID : String := ""
  Type_ : String := ""
  Node : String := ""
  VMID : Int := 0
  Name : String := ""
  Status : String := ""
  MaxCPU : Int := 0
  Mem : Int := 0
  MaxMem : Int := 0
  deriving DecidableEq

/-- The body of the first loop of ProxmoxCollector.Collect, for one node. -/
def pveNodeStep (infra : Infrastructure) (node : pveNode) : Infrastructure :=
  let serverName := node.Node
  match mapGet infra.Servers serverName with
  | none =>
    let server : Server :=
      { Hostname := serverName, Label := serverName, Type_ := ServerTypeHypervisor,
        Online := node.Status = "online" }
    { infra with Servers := mapSet infra.Servers serverName server }
  | some server =>
    let server : Server := { server with Type_ := ServerTypeHypervisor }
    { infra with Servers := mapSet infra.Servers serverName server }

/-- The body of the second loop of ProxmoxCollector.Collect, for one resource. -/
def pveResourceStep (infra : Infrastructure) (res : pveResource) : Infrastructure :=
  if res.Status ≠ "running" then infra
  else
    match mapGet infra.Servers res.Node with
    | none => infra
    | some server =>
      let svcType := if res.Type_ = "lxc" then ServiceTypeLXC else ServiceTypeVM
      let svc : Service := { Name := res.Name, Type_ := svcType, Category := "virtualization" }
      { infra with Servers := mapSet infra.Servers res.Node (server.AddService svc) }

/-- collector.ProxmoxCollector.Collect, from the decoded node and resource lists on:
getNodes and getResources run before the Model is touched. -/
def ProxmoxCollector.Collect (_pc : ProxmoxCollector) (infra : Infrastructure)
    (nodes : List pveNode) (resources : List pveResource) : Infrastructure :=
  resources.foldl pveResourceStep (nodes.foldl pveNodeStep infra)

/-! ## internal/collector: systemd -/

/-- collector.systemdServer -/
structure systemdServer where
  Host : String := ""
  SSH : String := ""
  Filter : List String := []
  Exclude : List String := []
  TestFile : String := ""
  deriving DecidableEq

/-- collector.SystemdCollector -/
structure SystemdCollector where
  Servers : List systemdServer := []
  deriving DecidableEq

/-- collector.systemdUnit -/
structure systemdUnit where
  Unit : String := ""
  Load : String := ""
  Active : String := ""
  Sub : String := ""
  Description : String := ""
  deriving DecidableEq

/-- The block of SystemdCollector.Collect under the comment Ensure server exists, for one
configured server. -/
def systemdEnsureServer (infra : Infrastructure) (srv : systemdServer) : Infrastructure :=
  match mapGet infra.Servers srv.Host with
  | some _ => infra
  | none =>
    let server : Server :=
      { Hostname := srv.Host, Label := srv.Host, Type_ := ServerTypeLab, Online := true }
    { infra with Servers := mapSet infra.Servers srv.Host server }

/-! ## internal/collector: the pipeline -/

/-- A Go error value, by its message. -/
structure GoError where
  msg : String := ""
  deriving DecidableEq

/-- collector.CollectorError -/
structure CollectorError where
  Collector : String := ""
  Err : GoError := {}
  deriving DecidableEq

/-- collector.CollectorError.Error -/
def CollectorError.Error (e : CollectorError) : String := e.Collector ++ ": " ++ e.Err.msg

/-- collector.CollectorError.Unwrap -/
def CollectorError.Unwrap (e : CollectorError) : GoError := e.Err

/-- collector.CollectResult; Err holds nil or the CollectorError stored in it. -/
structure CollectResult where
  Name : String := ""
  Skipped : Bool := false
  Detail : String := ""
  Err : Option CollectorError := none
  deriving DecidableEq

/-- collector.CollectorMetadata -/
structure CollectorMetadata where
  Name : String := ""
  DisplayName : String := ""
  Description : String := ""
  ConfigKey : String := ""
  DetectHint : String := ""
  deriving DecidableEq

/-- A value of the untyped configuration tree (Go any, as decoded from YAML).  A float64 is
given by the int that the conversion int(v) makes of it, which is all the program reads of
a float64. -/
inductive ConfigValue where
  | null : ConfigValue
  | str (s : String) : ConfigValue
  | bool (b : Bool) : ConfigValue
  | int (i : Int) : ConfigValue
  | float (truncated : Int) : ConfigValue
  | list (items : List ConfigValue) : ConfigValue
  | map (entries : List (String × ConfigValue)) : ConfigValue

/-- The type assertion rawSources[key].(map[string]any): the section, or nil. -/
def sectionOf (rawSources : List (String × ConfigValue)) (key : String) :
    Option (List (String × ConfigValue)) :=
  match mapGet rawSources key with
  | some (ConfigValue.map entries) => some entries
  | _ => none

/-- The interface collector.RegisteredCollector, as far as the pipeline uses it.  Configure
returns its error or nil; Collect is the method of the instance configured with the given
section: it returns the Model as the call leaves it and its error or nil. -/
structure RegisteredCollector where
  Metadata : CollectorMetadata
  Enabled : List (String × ConfigValue) → Bool
  Configure : Option (List (String × ConfigValue)) → Option GoError
  Collect : Option (List (String × ConfigValue)) → Infrastructure →
    Infrastructure × Option GoError

/-- A call the pipeline makes: Configure or Collect on the collector at a position of the
registry, or Merge.  The list of calls is kept beside the results to state which calls a
run makes. -/
inductive Call where
  | configure (i : Nat) : Call
  | collect (i : Nat) : Call
  | merge : Call
  deriving DecidableEq

/-- The three results of collector.Collect, and the calls the run made. -/
structure CollectOutcome where
  infra : Option Infrastructure := none
  results : List CollectResult := []
  err : Option CollectorError := none
  calls : List Call := []
  deriving DecidableEq

/-- The loop of collector.Collect from the collector at position i on, followed by Merge
when the loop ends. -/
def collectFrom (visit : List (String × String)) (rawSources : List (String × ConfigValue)) :
    List RegisteredCollector → Nat → Infrastructure → List CollectResult → List Call →
    CollectOutcome
  | [], _, infra, results, calls =>
    { infra := some (Merge visit infra), results := results, err := none,
      calls := calls ++ [Call.merge] }
  | c :: rest, i, infra, results, calls =>
    let md := c.Metadata
    if !c.Enabled rawSources then
      collectFrom visit rawSources rest (i + 1) infra
        (results ++ [{ Name := md.DisplayName, Skipped := true }]) calls
    else
      let sect := sectionOf rawSources md.ConfigKey
      match c.Configure sect with
      | some err =>
        let cerr : CollectorError := { Collector := md.DisplayName, Err := err }
        { infra := none, results := results ++ [{ Name := md.DisplayName, Err := some cerr }],
          err := some cerr, calls := calls ++ [Call.configure i] }
      | none =>
        match c.Collect sect infra with
        | (_, some err) =>
          let cerr : CollectorError := { Collector := md.DisplayName, Err := err }
          { infra := none,
            results := results ++ [{ Name := md.DisplayName, Err := some cerr }],
            err := some cerr, calls := calls ++ [Call.configure i, Call.collect i] }
        | (infra2, none) =>
          collectFrom visit rawSources rest (i + 1) infra2
            (results ++ [{ Name := md.DisplayName }])
            (calls ++ [Call.configure i, Call.collect i])

/-- collector.Collect.  The argument all is the slice All() returns and rawSources is
cfg.RawSources. -/
def Collect (visit : List (String × String)) (all : List RegisteredCollector)
    (rawSources : List (String × ConfigValue)) : CollectOutcome :=
  collectFrom visit rawSources all 0 NewInfrastructure [] []

/-! ## internal/collector: systemd, the unit loop -/

/-- Go strings.TrimSuffix. -/
def trimSuffix (s suffix : String) : String :=
  if suffix.data.isSuffixOf s.data then
    String.mk (s.data.take (s.data.length - suffix.data.length))
  else s

/-- collector.matchesAny; toLower is the case table of strings.ToLower. -/
def matchesAny (toLower : Char → Char) (name : String) (patterns : List String) : Bool :=
  let lower := strToLower toLower name
  patterns.any (fun p => strContains lower (strToLower toLower p))

/-- The body of the loop over units in SystemdCollector.Collect; the state is the Server
the pointer server designates. -/
def systemdUnitStep (lower : Char → Char) (srv : systemdServer) (server : Server)
    (unit : systemdUnit) : Server :=
  let name := trimSuffix unit.Unit ".service"
  if srv.Filter.length > 0 ∧ ¬ matchesAny lower name srv.Filter then server
  else if matchesAny lower name srv.Exclude then server
  else
    let svcType :=
      if detectServiceType "" name = ServiceTypeDatabase then ServiceTypeDatabase
      else ServiceTypeSystem
    server.AddService { Name := name, Type_ := svcType }

/-- The body of the loop over sc.Servers in SystemdCollector.Collect once getUnits has
returned units: the Server under srv.Host, created when missing, receives the units.  The
lookup after systemdEnsureServer always finds an entry. -/
def systemdServerStep (lower : Char → Char) (infra : Infrastructure) (srv : systemdServer)
    (units : List systemdUnit) : Infrastructure :=
  let infra := systemdEnsureServer infra srv
  match mapGet infra.Servers srv.Host with
  | some server =>
    { infra with
      Servers := mapSet infra.Servers srv.Host (units.foldl (systemdUnitStep lower srv) server) }
  | none => infra

/-- The loop of SystemdCollector.Collect over the configured servers; getUnits gives what
sc.getUnits returns for each of them. -/
def systemdCollectLoop (lower : Char → Char)
    (getUnits : systemdServer → Except GoError (List systemdUnit)) :
    List systemdServer → Infrastructure → Infrastructure × Option GoError
  | [], infra => (infra, none)
  | srv :: rest, infra =>
    match getUnits srv with
    | .error err =>
      (infra, some { msg := "getting units for " ++ srv.Host ++ ": " ++ err.msg })
    | .ok units =>
      systemdCollectLoop lower getUnits rest (systemdServerStep lower infra srv units)

/-- collector.SystemdCollector.Collect -/
def SystemdCollector.Collect (sc : SystemdCollector) (lower : Char → Char)
    (getUnits : systemdServer → Except GoError (List systemdUnit))
    (infra : Infrastructure) : Infrastructure × Option GoError :=
  systemdCollectLoop lower getUnits sc.Servers infra

/-! ## internal/util: StripJinja2 -/

/-- The part `[^}]*\}\}` of jinjaVarPattern at the start of a rune list: the number of runes
it matches.  The class cannot pass a closing brace, so the match runs to the first closing
brace, which must be followed by a second one. -/
def closeLen : List Char → Option Nat
  | [] => none
  | c :: cs =>
    if c = '}' then
      match cs with
      | d :: _ => if d = '}' then some 2 else none
      | [] => none
    else (closeLen cs).map (fun n => n + 1)

/-- The pattern jinjaVarPattern, `\{\{[^}]*\}\}`, at the start of a rune list: the number of
runes of the match, when there is one. -/
def jinjaMatchLen : List Char → Option Nat
  | a :: b :: rest =>
    if a = '{' ∧ b = '{' then (closeLen rest).map (fun n => n + 2) else none
  | _ => none

/-- The method ReplaceAllString of jinjaVarPattern for a replacement text without dollar
sign: the matches are searched from left to right, each search starting where the last
match ended.  The argument skip counts the runes of the current match that are still to be
passed over. -/
def replaceAllJinja (repl : List Char) : Nat → List Char → List Char
  | _, [] => []
  | skip + 1, _ :: cs => replaceAllJinja repl skip cs
  | 0, c :: cs =>
    match jinjaMatchLen (c :: cs) with
    | some n => repl ++ replaceAllJinja repl (n - 1) cs
    | none => c :: replaceAllJinja repl 0 cs

/-- util.StripJinja2 -/
def StripJinja2 (content : String) : String :=
  String.mk (replaceAllJinja "PLACEHOLDER".data 0 content.data)

/-! ## internal/collector: compose, the Services of a parsed file -/

/-- The fields of composetypes.ServicePortConfig that projectToServices reads. -/
structure composePort where
  HostIP : String := ""
  Published : String := ""
  Target : Nat := 0
  Protocol : String := ""
  deriving DecidableEq

/-- The fields of composetypes.ServiceVolumeConfig that projectToServices reads. -/
structure composeVolume where
  Source : String := ""
  Target : String := ""
  deriving DecidableEq

/-- The fields of composetypes.ServiceConfig that projectToServices reads.  Networks and
DependsOn are the keys of the two maps in the order in which they are visited. -/
structure composeServiceConfig where
  Name : String := ""
  Image : String := ""
  Ports : List composePort := []
  Networks : List String := []
  DependsOn : List String := []
  Volumes : List composeVolume := []
  deriving DecidableEq

/-- The Service that the loop body of projectToServices builds for one service of the
project. -/
def projectService (path : String) (svc : composeServiceConfig) : Service :=
  { Name := svc.Name,
    Image := svc.Image,
    Type_ := detectServiceType svc.Image svc.Name,
    ComposeFile := path,
    Ports := svc.Ports.map (fun p =>
      ({ HostIP := p.HostIP, HostPort := (Atoi p.Published).1, ContainerPort := p.Target,
         Protocol := p.Protocol } : PortMapping)),
    Networks := svc.Networks,
    DependsOn := svc.DependsOn,
    Volumes := svc.Volumes.map (fun v => ({ Source := v.Source, Target := v.Target } : VolumeMount)) }

/-- The statement `infra.Servers[server].AddService(svc)`.  The map lookup gives the nil
pointer when there is no entry under the key, and AddService, which reads s.Services,
then dereferences nil: the run ends in a panic, written none. -/
def addServiceAt (infra : Infrastructure) (server : String) (svc : Service) :
    Option Infrastructure :=
  match mapGet infra.Servers server with
  | some s => some { infra with Servers := mapSet infra.Servers server (s.AddService svc) }
  | none => none

/-- The calls of addServiceAt that a loop makes for the Services it builds, in order. -/
def addServices (server : String) : List Service → Infrastructure → Option Infrastructure
  | [], infra => some infra
  | svc :: rest, infra =>
    match addServiceAt infra server svc with
    | some infra => addServices server rest infra
    | none => none

/-- collector.ComposeCollector.projectToServices on the services of the project in the
order in which they are visited.  The result is the Model when the function returns, which
it does with the error nil, and none when it panics. -/
def projectToServices (infra : Infrastructure) (project : List composeServiceConfig)
    (path server : String) : Option Infrastructure :=
  let infra := ensureServer infra server
  addServices server (project.map (projectService path)) infra

/-- collector.ComposeCollector.parseFallback from the point where the YAML text is decoded.
The argument servicesMap is none when the key services is missing or is not a map; an entry
is none when its value is not a map, and otherwise the Service the loop body builds for it
from its image, ports, networks, depends_on and volumes.  The result is the Model when the
function returns, which it then does with the error nil, and none when it panics. -/
def parseFallback (infra : Infrastructure) (servicesMap : Option (List (String × Option Service)))
    (server : String) : Option Infrastructure :=
  match servicesMap with
  | none => some infra
  | some entries =>
    let infra := ensureServer infra server
    addServices server (entries.filterMap (fun e => e.2)) infra

/-! ## internal/collector: kubernetes -/

/-- collector.KubernetesCollector -/
structure KubernetesCollector where
  Kubeconfig : String := ""
  Context : String := ""
  Namespaces : List String := []
  TestPods : String := ""
  TestServices : String := ""
  TestIngresses : String := ""
  deriving DecidableEq

/-- collector.k8sMeta -/
structure k8sMeta where
  Name : String := ""
  Namespace : String := ""
  Labels : List (String × String) := []
  deriving DecidableEq

/-- collector.k8sPort -/
structure k8sPort where
  ContainerPort : Int := 0
  Protocol : String := ""
  deriving DecidableEq

/-- collector.k8sContainer -/
structure k8sContainer where
  Name : String := ""
  Image : String := ""
  Ports : List k8sPort := []
  deriving DecidableEq

/-- collector.k8sPodSpec -/
structure k8sPodSpec where
  Containers : List k8sContainer := []
  deriving DecidableEq

/-- The field Status of collector.k8sPod. -/
structure k8sPodStatus where
  Phase : String := ""
  deriving DecidableEq

/-- collector.k8sPod -/
structure k8sPod where
  Metadata : k8sMeta := {}
  Spec : k8sPodSpec := {}
  Status : k8sPodStatus := {}
  deriving DecidableEq

/-- collector.k8sServicePort -/
structure k8sServicePort where
  Port : Int := 0
  TargetPort : Int := 0
  NodePort : Int := 0
  Protocol : String := ""
  deriving DecidableEq

/-- collector.k8sServiceSpec; the field Type is written Type_. -/
structure k8sServiceSpec where
  Type_ : String := ""
  Ports : List k8sServicePort := []
  Selector : List (String × String) := []
  deriving DecidableEq

/-- collector.k8sService -/
structure k8sService where
  Metadata : k8sMeta := {}
  Spec : k8sServiceSpec := {}
  deriving DecidableEq

/-- collector.containsStr -/
def containsStr (s : List String) (v : String) : Bool :=
  s.any (fun item => item = v)

/-- The body of the loop of KubernetesCollector.Collect that builds the map svcPorts. -/
def svcPortsStep (svcPorts : List (String × Int)) (svc : k8sService) : List (String × Int) :=
  match svc.Spec.Ports with
  | p :: _ =>
    let key := svc.Metadata.Name ++ "@" ++ svc.Metadata.Namespace
    let port := if p.NodePort > 0 then p.NodePort else p.Port
    mapSet svcPorts key port
  | [] => svcPorts

/-- The body of the loop of KubernetesCollector.Collect that groups the pods by namespace
in the map nsPods. -/
def nsPodsStep (kc : KubernetesCollector) (nsPods : List (String × List k8sPod))
    (pod : k8sPod) : List (String × List k8sPod) :=
  if pod.Status.Phase ≠ "Running" then nsPods
  else
    let ns := pod.Metadata.Namespace
    if kc.Namespaces.length > 0 ∧ ¬ containsStr kc.Namespaces ns then nsPods
    else mapSet nsPods ns ((mapGet nsPods ns).getD [] ++ [pod])

/-- The name under which a container is filed: the label app of its pod, or the name of the
container. -/
def k8sSvcName (pod : k8sPod) (container : k8sContainer) : String :=
  match mapGet pod.Metadata.Labels "app" with
  | some appLabel => appLabel
  | none => container.Name

/-- The body of the loop over the containers of a pod; the state is the map seen and the
Server the pointer server designates. -/
def k8sContainerStep (svcPorts : List (String × Int)) (ns : String) (pod : k8sPod)
    (state : List (String × Bool) × Server) (container : k8sContainer) :
    List (String × Bool) × Server :=
  let svcName := k8sSvcName pod container
  if (mapGet state.1 svcName).getD false then state
  else
    let seen := mapSet state.1 svcName true
    let ports : List PortMapping :=
      match mapGet svcPorts (svcName ++ "@" ++ ns) with
      | some port => [{ HostPort := port, ContainerPort := port, Protocol := "tcp" }]
      | none =>
        match container.Ports with
        | p :: _ => [{ ContainerPort := p.ContainerPort, Protocol := goToLower p.Protocol }]
        | [] => []
    let svc : Service :=
      { Name := svcName, Image := container.Image,
        Type_ := detectServiceType container.Image svcName, Ports := ports,
        Category := "kubernetes" }
    (seen, state.2.AddService svc)

/-- The body of the loop over the pods of a namespace. -/
def k8sPodStep (svcPorts : List (String × Int)) (ns : String)
    (state : List (String × Bool) × Server) (pod : k8sPod) : List (String × Bool) × Server :=
  pod.Spec.Containers.foldl (k8sContainerStep svcPorts ns pod) state

/-- The body of the loop over nsPods, for the entry ns, podList: the Server k8s-ns, created
when missing, receives the Services of the pods. -/
def k8sNamespaceStep (svcPorts : List (String × Int)) (infra : Infrastructure)
    (e : String × List k8sPod) : Infrastructure :=
  let serverName := "k8s-" ++ e.1
  let server : Server :=
    match mapGet infra.Servers serverName with
    | some server => server
    | none =>
      { Hostname := serverName, Label := "k8s/" ++ e.1, Type_ := ServerTypeCluster,
        Online := true }
  let state := e.2.foldl (k8sPodStep svcPorts e.1) ([], server)
  { infra with Servers := mapSet infra.Servers serverName state.2 }

/-- collector.KubernetesCollector.Collect once getPods, getServices and getIngresses have
returned the items pods and services without error; it then returns the error nil.  The
map ingressHosts that the function builds from the ingresses is never read and is left out.
The range over nsPods visits the namespaces in the order of their first pod. -/
def KubernetesCollector.Collect (kc : KubernetesCollector) (pods : List k8sPod)
    (services : List k8sService) (infra : Infrastructure) : Infrastructure :=
  let svcPorts := services.foldl svcPortsStep []
  let nsPods := pods.foldl (nsPodsStep kc) []
  nsPods.foldl (k8sNamespaceStep svcPorts) infra

/-! ## internal/collector: Configure -/

/-- The type assertion v.(string) on the result of a map lookup. -/
def assertString : Option ConfigValue → Option String
  | some (ConfigValue.str s) => some s
  | _ => none

/-- The type assertion v.(bool) on the result of a map lookup. -/
def assertBool : Option ConfigValue → Option Bool
  | some (ConfigValue.bool b) => some b
  | _ => none

/-- The type assertion v.(int) on the result of a map lookup. -/
def assertInt : Option ConfigValue → Option Int
  | some (ConfigValue.int i) => some i
  | _ => none

/-- The type assertion v.(float64) on the result of a map lookup, followed by int(v). -/
def assertFloat : Option ConfigValue → Option Int
  | some (ConfigValue.float i) => some i
  | _ => none

/-- The type assertion v.([]any) on the result of a map lookup. -/
def assertList : Option ConfigValue → Option (List ConfigValue)
  | some (ConfigValue.list items) => some items
  | _ => none

/-- The type assertion item.(map[string]any). -/
def assertMap : ConfigValue → Option (List (String × ConfigValue))
  | ConfigValue.map entries => some entries
  | _ => none

/-- The strings of a list of values, the loop
`for _, x := range v { if s, ok := x.(string); ok { out = append(out, s) } }`. -/
def stringItems (items : List ConfigValue) : List String :=
  items.filterMap (fun x => assertString (some x))

/-- collector.AnsibleCollector -/
structure AnsibleCollector where
  InventoryPath : String := ""
  GroupVarsPath : String := ""
  PrimaryGroup : String := ""
  deriving DecidableEq

/-- collector.AnsibleCollector.Configure: the collector as the call leaves it, and the
error returned. -/
def AnsibleCollector.Configure (ac : AnsibleCollector)
    (sect : Option (List (String × ConfigValue))) : AnsibleCollector × Option GoError :=
  match sect with
  | none => (ac, none)
  | some sect =>
    let ac : AnsibleCollector :=
      match assertString (mapGet sect "inventory") with
      | some v => { ac with InventoryPath := v }
      | none => ac
    let ac : AnsibleCollector :=
      match assertString (mapGet sect "group_vars") with
      | some v => { ac with GroupVarsPath := v }
      | none => ac
    let ac : AnsibleCollector :=
      match assertString (mapGet sect "primary_group") with
      | some v => { ac with PrimaryGroup := v }
      | none => ac
    (ac, none)

/-- config.ComposeFile -/
structure ComposeFile where
  Path : String := ""
  Server : String := ""
  Template : Bool := false
  deriving DecidableEq

/-- config.ScanDir -/
structure ScanDir where
  Path : String := ""
  Server : String := ""
  deriving DecidableEq

/-- collector.ComposeCollector -/
structure ComposeCollector where
  Files : List ComposeFile := []
  ScanDirs : List ScanDir := []
  deriving DecidableEq

/-- The ComposeFile that ComposeCollector.Configure reads from one item of files. -/
def composeFileOf (m : List (String × ConfigValue)) : ComposeFile :=
  let cf : ComposeFile := {}
  let cf : ComposeFile :=
    match assertString (mapGet m "path") with
    | some v => { cf with Path := v }
    | none => cf
  let cf : ComposeFile :=
    match assertString (mapGet m "server") with
    | some v => { cf with Server := v }
    | none => cf
  match assertBool (mapGet m "template") with
  | some v => { cf with Template := v }
  | none => cf

/-- The ScanDir that ComposeCollector.Configure reads from one item of scan_dirs. -/
def scanDirOf (m : List (String × ConfigValue)) : ScanDir :=
  let sd : ScanDir := {}
  let sd : ScanDir :=
    match assertString (mapGet m "path") with
    | some v => { sd with Path := v }
    | none => sd
  match assertString (mapGet m "server") with
  | some v => { sd with Server := v }
  | none => sd

/-- collector.ComposeCollector.Configure: the collector as the call leaves it, and the
error returned. -/
def ComposeCollector.Configure (cc : ComposeCollector)
    (sect : Option (List (String × ConfigValue))) : ComposeCollector × Option GoError :=
  match sect with
  | none => (cc, none)
  | some sect =>
    let cc : ComposeCollector :=
      match assertList (mapGet sect "files") with
      | some list =>
        { cc with Files := cc.Files ++ (list.filterMap assertMap).map composeFileOf }
      | none => cc
    let cc : ComposeCollector :=
      match assertList (mapGet sect "scan_dirs") with
      | some list =>
        { cc with ScanDirs := cc.ScanDirs ++ (list.filterMap assertMap).map scanDirOf }
      | none => cc
    (cc, none)

/-- collector.KubernetesCollector.Configure: the collector as the call leaves it, and the
error returned.  The argument expandPath is util.ExpandPath. -/
def KubernetesCollector.Configure (kc : KubernetesCollector) (expandPath : String → String)
    (sect : Option (List (String × ConfigValue))) : KubernetesCollector × Option GoError :=
  match sect with
  | none => (kc, none)
  | some sect =>
    let kc : KubernetesCollector :=
      match assertString (mapGet sect "kubeconfig") with
      | some v => { kc with Kubeconfig := expandPath v }
      | none => kc
    let kc : KubernetesCollector :=
      match assertString (mapGet sect "context") with
      | some v => { kc with Context := v }
      | none => kc
    let kc : KubernetesCollector :=
      match assertList (mapGet sect "namespaces") with
      | some v => { kc with Namespaces := kc.Namespaces ++ stringItems v }
      | none => kc
    (kc, none)

/-- collector.PortainerCollector -/
structure PortainerCollector where
  URL : String := ""
  APIKey : String := ""
  Endpoint : Int := 0
  Server : String := ""
  TestFile : String := ""
  deriving DecidableEq

/-- collector.PortainerCollector.Configure: the collector as the call leaves it, and the
error returned.  The argument getenv is os.Getenv. -/
def PortainerCollector.Configure (pc : PortainerCollector) (getenv : String → String)
    (sect : Option (List (String × ConfigValue))) : PortainerCollector × Option GoError :=
  match sect with
  | none => (pc, none)
  | some sect =>
    let pc : PortainerCollector :=
      match assertString (mapGet sect "url") with
      | some v => { pc with URL := v }
      | none => pc
    let pc : PortainerCollector :=
      match assertString (mapGet sect "api_key") with
      | some v => { pc with APIKey := v }
      | none => pc
    let pc : PortainerCollector :=
      if pc.APIKey = "" then { pc with APIKey := getenv "INFRAMAP_PORTAINER_API_KEY" } else pc
    let pc : PortainerCollector :=
      match assertInt (mapGet sect "endpoint") with
      | some v => { pc with Endpoint := v }
      | none => pc
    let pc : PortainerCollector :=
      match assertFloat (mapGet sect "endpoint") with
      | some v => { pc with Endpoint := v }
      | none => pc
    let pc : PortainerCollector :=
      match assertString (mapGet sect "server") with
      | some v => { pc with Server := v }
      | none => pc
    let pc : PortainerCollector :=
      match assertString (mapGet sect "test_file") with
      | some v => { pc with TestFile := v }
      | none => pc
    let pc : PortainerCollector :=
      if pc.Endpoint = 0 then { pc with Endpoint := 1 } else pc
    (pc, none)

/-- collector.ProxmoxCollector.Configure: the collector as the call leaves it, and the
error returned.  The argument getenv is os.Getenv. -/
def ProxmoxCollector.Configure (pc : ProxmoxCollector) (getenv : String → String)
    (sect : Option (List (String × ConfigValue))) : ProxmoxCollector × Option GoError :=
  match sect with
  | none => (pc, none)
  | some sect =>
    let pc : ProxmoxCollector :=
      match assertString (mapGet sect "api_url") with
      | some v => { pc with APIURL := v }
      | none => pc
    let pc : ProxmoxCollector :=
      match assertString (mapGet sect "token_id") with
      | some v => { pc with TokenID := v }
      | none => pc
    let pc : ProxmoxCollector :=
      match assertString (mapGet sect "token") with
      | some v => { pc with Token := v }
      | none => pc
    let pc : ProxmoxCollector :=
      if pc.TokenID = "" then { pc with TokenID := getenv "INFRAMAP_PROXMOX_TOKEN_ID" } else pc
    let pc : ProxmoxCollector :=
      if pc.Token = "" then { pc with Token := getenv "INFRAMAP_PROXMOX_TOKEN" } else pc
    let pc : ProxmoxCollector :=
      match assertBool (mapGet sect "insecure") with
      | some v => { pc with Insecure := v }
      | none => pc
    (pc, none)

/-- The systemdServer that SystemdCollector.Configure reads from one item of servers. -/
def systemdServerOf (m : List (String × ConfigValue)) : systemdServer :=
  let srv : systemdServer := {}
  let srv : systemdServer :=
    match assertString (mapGet m "host") with
    | some v => { srv with Host := v }
    | none => srv
  let srv : systemdServer :=
    match assertString (mapGet m "ssh") with
    | some v => { srv with SSH := v }
    | none => srv
  let srv : systemdServer :=
    match assertList (mapGet m "filter") with
    | some v => { srv with Filter := srv.Filter ++ stringItems v }
    | none => srv
  let srv : systemdServer :=
    match assertList (mapGet m "exclude") with
    | some v => { srv with Exclude := srv.Exclude ++ stringItems v }
    | none => srv
  match assertString (mapGet m "test_file") with
  | some v => { srv with TestFile := v }
  | none => srv

/-- collector.SystemdCollector.Configure: the collector as the call leaves it, and the
error returned. -/
def SystemdCollector.Configure (sc : SystemdCollector)
    (sect : Option (List (String × ConfigValue))) : SystemdCollector × Option GoError :=
  match sect with
  | none => (sc, none)
  | some sect =>
    match assertList (mapGet sect "servers") with
    | none => (sc, none)
    | some serversRaw =>
      ({ sc with Servers := sc.Servers ++ (serversRaw.filterMap assertMap).map systemdServerOf },
       none)

/-- collector.TailscaleCollector.Configure: the collector as the call leaves it, and the
error returned. -/
def TailscaleCollector.Configure (tc : TailscaleCollector)
    (sect : Option (List (String × ConfigValue))) : TailscaleCollector × Option GoError :=
  match sect with
  | none => (tc, none)
  | some sect =>
    let tc : TailscaleCollector :=
      match assertString (mapGet sect "json_file") with
      | some v => { tc with JsonFile := v }
      | none => tc
    let tc : TailscaleCollector :=
      match assertBool (mapGet sect "include_offline") with
      | some v => { tc with IncludeOffline := v }
      | none => tc
    (tc, none)

/-! ## Properties stated in the words of the specification -/

/-- From the specification: every key of Servers and of Devices is lowercase and equals the
Hostname of the entity stored under it. -/
def keysNormalized (infra : Infrastructure) : Prop :=
  (∀ e ∈ infra.Servers, e.1 = goToLower e.1 ∧ e.2.Hostname = e.1) ∧
  (∀ e ∈ infra.Devices, e.1 = goToLower e.1 ∧ e.2.Hostname = e.1)

/-- From the specification: lowercase the string, replace every space, dot and slash by a
hyphen, delete every remaining rune that is not an ASCII letter, digit, hyphen or
underscore, and return the literal unknown when nothing remains. -/
def sanitizeSpec (s : String) : String :=
  let lowered := s.data.map lowerRune
  let hyphened := lowered.map (fun c => if c = ' ' ∨ c = '.' ∨ c = '/' then '-' else c)
  let kept := hyphened.filter (fun c => c.isAlpha || c.isDigit || c = '-' || c = '_')
  if kept = [] then "unknown" else String.mk kept

/-- From the specification: the entry of the result list for a collector that did not
fail: skipped when it is not enabled, without error otherwise. -/
def okResult (rawSources : List (String × ConfigValue)) (c : RegisteredCollector) :
    CollectResult :=
  { Name := c.Metadata.DisplayName, Skipped := !c.Enabled rawSources }

/-- From the specification: the entry of the result list for the collector that failed. -/
def failResult (c : RegisteredCollector) (err : GoError) : CollectResult :=
  { Name := c.Metadata.DisplayName,
    Err := some { Collector := c.Metadata.DisplayName, Err := err } }

/-- A call on the collector at position j. -/
def Call.onCollector (call : Call) (j : Nat) : Prop :=
  call = Call.configure j ∨ call = Call.collect j

/-- The two ways a run of the loop of Collect over the collectors cs, the first of which
is at position i of the registry, can end, given the results and calls before it: without
error, or with the failure of one collector ck of cs. -/
def LoopOutcome (visit : List (String × String)) (rawSources : List (String × ConfigValue))
    (cs : List RegisteredCollector) (i : Nat) (results : List CollectResult)
    (calls : List Call) (out : CollectOutcome) : Prop :=
  (out.err = none ∧
    (∃ final, out.infra = some (Merge visit final)) ∧
    out.results = results ++ cs.map (okResult rawSources) ∧
    ∃ added, out.calls = calls ++ added ++ [Call.merge] ∧
      ∀ call ∈ added, ∃ j, i ≤ j ∧ j < i + cs.length ∧ call.onCollector j) ∨
  (∃ (pre : List RegisteredCollector) (ck : RegisteredCollector)
      (post : List RegisteredCollector) (err : GoError),
    cs = pre ++ ck :: post ∧ ck.Enabled rawSources = true ∧
    (ck.Configure (sectionOf rawSources ck.Metadata.ConfigKey) = some err ∨
      (ck.Configure (sectionOf rawSources ck.Metadata.ConfigKey) = none ∧
        ∃ infra0, (ck.Collect (sectionOf rawSources ck.Metadata.ConfigKey) infra0).2
          = some err)) ∧
    (∀ c ∈ pre, c.Enabled rawSources = true →
      c.Configure (sectionOf rawSources c.Metadata.ConfigKey) = none) ∧
    out.err = some { Collector := ck.Metadata.DisplayName, Err := err } ∧
    out.infra = none ∧
    out.results = results ++ pre.map (okResult rawSources) ++ [failResult ck err] ∧
    ∃ added, out.calls = calls ++ added ∧ Call.merge ∉ added ∧
      ∀ call ∈ added, ∃ j, i ≤ j ∧ j ≤ i + pre.length ∧ call.onCollector j)

/-- The pods that contribute to the namespace ns: those in phase Running whose namespace is
ns, provided ns is one of the configured namespaces when a list of namespaces is
configured. -/
def contributingPods (kc : KubernetesCollector) (pods : List k8sPod) (ns : String) :
    List k8sPod :=
  pods.filter (fun pod =>
    decide (pod.Status.Phase = "Running" ∧ pod.Metadata.Namespace = ns
      ∧ (kc.Namespaces = [] ∨ ns ∈ kc.Namespaces)))

/-- The Server that the orchestrator collector fills for the namespace ns: the one found
under k8s-ns, or a new Server of classification cluster. -/
def namespaceServer (infra : Infrastructure) (ns : String) : Server :=
  match mapGet infra.Servers ("k8s-" ++ ns) with
  | some server => server
  | none =>
    { Hostname := "k8s-" ++ ns, Label := "k8s/" ++ ns, Type_ := ServerTypeCluster,
      Online := true }

/-- From the specification: the Model after the collectors cs have run in order from infra
without a failure, and none when one of them fails: a collector that is not enabled is
passed over; an enabled collector fails when its Configure returns an error, or when its
Collect, applied to the Model the collectors before it have left, returns an error. -/
def modelAfter (rawSources : List (String × ConfigValue)) :
    List RegisteredCollector → Infrastructure → Option Infrastructure
  | [], infra => some infra
  | c :: rest, infra =>
    if c.Enabled rawSources = false then modelAfter rawSources rest infra
    else
      match c.Configure (sectionOf rawSources c.Metadata.ConfigKey) with
      | some _ => none
      | none =>
        match c.Collect (sectionOf rawSources c.Metadata.ConfigKey) infra with
        | (_, some _) => none
        | (infra2, none) => modelAfter rawSources rest infra2

/-- From the specification: the calls made on collectors that do not fail, the first of
which is at position i of the registry: Configure and then Collect on each enabled one. -/
def callsOf (rawSources : List (String × ConfigValue)) :
    List RegisteredCollector → Nat → List Call
  | [], _ => []
  | c :: rest, i =>
    (if c.Enabled rawSources = true then [Call.configure i, Call.collect i] else [])
      ++ callsOf rawSources rest (i + 1)

/-! ## Concrete inputs -/

/-- The Server of TestTailscaleCollectorEnrichesExistingServers. -/
def gatewayServer : Server :=
  { Hostname := "gateway", Label := "gateway", PublicIP := "203.0.113.10",
    Type_ := ServerTypeProduction }

def gatewayInfra : Infrastructure := { Servers := [("gateway", gatewayServer)] }

def gatewayPeer : tailscalePeer :=
  { HostName := "gateway", OS := "linux", TailscaleIPs := ["100.64.0.2"], Online := true,
    Tags := ["tag:server"] }

/-- The Server the service-manager collector creates for a configured host with an empty
name. -/
def namelessServer : Server := { Type_ := ServerTypeLab, Online := true }

def namelessInfra : Infrastructure := { Servers := [("", namelessServer)] }

def namelessPeer : tailscalePeer :=
  { HostName := "", OS := "linux", TailscaleIPs := ["100.64.0.9"], Online := false }

/-- An offline peer without tags. -/
def laptopPeer : tailscalePeer :=
  { HostName := "Offline-Laptop", OS := "macOS", TailscaleIPs := ["100.64.0.7"],
    Online := false }

def laptopStatus : tailscaleStatus :=
  { Self := { HostName := "minicore", OS := "linux", Online := true },
    Peer := [("nodekey:1", gatewayPeer), ("nodekey:2", laptopPeer)] }

/-- The Server gateway of TestD2RendererBasic: one app Service and one system Service. -/
def basicServer : Server :=
  { Hostname := "gateway", Label := "gateway", PublicIP := "203.0.113.10",
    Type_ := ServerTypeProduction, OS := "linux", Online := true,
    Services := [
      { Name := "galerie", Image := "galerie:latest", Type_ := ServiceTypeApp,
        Ports := [{ HostPort := 3000, ContainerPort := 3000 }] },
      { Name := "netdata", Type_ := ServiceTypeSystem,
        Ports := [{ HostPort := 19999, ContainerPort := 19999 }] }] }

/-- Two production Servers without Services. -/
def alphaServer : Server := { Hostname := "alpha", Label := "alpha", Type_ := ServerTypeProduction }

def betaServer : Server := { Hostname := "beta", Label := "beta", Type_ := ServerTypeProduction }

/-- A lab Server whose only Service has an image naming two products of the icon table. -/
def stackServer : Server :=
  { Hostname := "stack", Label := "stack", Type_ := ServerTypeLab,
    Services := [{ Name := "db", Image := "example/postgres-redis:1",
                   Type_ := ServiceTypeContainer }] }

/-- A Model with the test Server gateway, a device and a tailnet name. -/
def basicInfra : Infrastructure :=
  { Servers := [("gateway", basicServer)],
    Devices := [("user-phone", { Hostname := "user-phone", OS := "iOS", Online := true })],
    TailnetName := "user@example" }

/-- The configuration of TestD2RendererBasic at detail level minimal. -/
def minimalCfg : Config :=
  { Direction := "right", Theme := "default", Display := { ShowDevices := true },
    Render := { DetailLevel := "minimal" } }

/-- The Server gateway after an enrichment by the overlay collector. -/
def enrichedServer : Server :=
  { Hostname := "gateway", Label := "gateway", PublicIP := "203.0.113.10",
    TailscaleIP := "100.64.0.2", Type_ := ServerTypeProduction, OS := "linux", Online := true }

def enrichedInfra : Infrastructure := { Servers := [("gateway", enrichedServer)] }

/-- A peer named gateway that reports no address and no OS. -/
def silentPeer : tailscalePeer := { HostName := "gateway", Online := true }

/-- A Model as the inventory collector leaves it: the Server gw, classified production, and
the inventory groups tailnet and production. -/
def inventoryInfra : Infrastructure :=
  { Servers := [("gw", { Hostname := "gw", Label := "gw", Type_ := ServerTypeProduction,
                         Online := true })],
    ServerGroups := [
      ("tailnet", { Name := "tailnet", Label := "tailnet", Servers := ["gw", "db1"] }),
      ("production", { Name := "production", Label := "production",
                       Servers := ["gw", "db1"] })] }

/-- A registry of four collectors: the first succeeds, the second is not enabled, the third
fails in Collect, the fourth would succeed. -/
def demoRegistry : List RegisteredCollector :=
  [{ Metadata := { Name := "ansible", DisplayName := "Ansible Inventory",
                   ConfigKey := "ansible" },
     Enabled := fun _ => true,
     Configure := fun _ => none,
     Collect := fun _ infra => (ensureServer infra "gw", none) },
   { Metadata := { Name := "compose", DisplayName := "Docker Compose",
                   ConfigKey := "compose" },
     Enabled := fun _ => false,
     Configure := fun _ => none,
     Collect := fun _ infra => (infra, none) },
   { Metadata := { Name := "tailscale", DisplayName := "Tailscale",
                   ConfigKey := "tailscale" },
     Enabled := fun _ => true,
     Configure := fun _ => none,
     Collect := fun _ infra => (infra, some { msg := "getting tailscale data: exit status 1" }) },
   { Metadata := { Name := "proxmox", DisplayName := "Proxmox VE", ConfigKey := "proxmox" },
     Enabled := fun _ => true,
     Configure := fun _ => none,
     Collect := fun _ infra => (infra, none) }]

/-- Six running units as systemctl lists them. -/
def testUnits : List systemdUnit :=
  [{ Unit := "docker.service", Load := "loaded", Active := "active", Sub := "running" },
   { Unit := "nginx.service", Load := "loaded", Active := "active", Sub := "running" },
   { Unit := "postgresql.service", Load := "loaded", Active := "active", Sub := "running" },
   { Unit := "sshd.service", Load := "loaded", Active := "active", Sub := "running" },
   { Unit := "cron.service", Load := "loaded", Active := "active", Sub := "running" },
   { Unit := "systemd-networkd.service", Load := "loaded", Active := "active",
     Sub := "running" }]

/-- A compose project with the two services web and db. -/
def webProject : List composeServiceConfig :=
  [{ Name := "web", Image := "nginx:1.25",
     Ports := [{ Published := "8080", Target := 80, Protocol := "tcp" }],
     DependsOn := ["db"] },
   { Name := "db", Image := "postgres:15" }]

/-- Pods of a cluster: two replicas of the deployment nginx and one postgres pod in the
namespace default, a grafana pod with a sidecar in monitoring, and a pending pod in
staging. -/
def clusterPods : List k8sPod :=
  [{ Metadata := { Name := "nginx-7d9c-abcde", Namespace := "default",
                   Labels := [("app", "nginx")] },
     Spec := { Containers := [{ Name := "nginx", Image := "nginx:1.25",
                                Ports := [{ ContainerPort := 80, Protocol := "TCP" }] }] },
     Status := { Phase := "Running" } },
   { Metadata := { Name := "nginx-7d9c-fghij", Namespace := "default",
                   Labels := [("app", "nginx")] },
     Spec := { Containers := [{ Name := "nginx", Image := "nginx:1.25",
                                Ports := [{ ContainerPort := 80, Protocol := "TCP" }] }] },
     Status := { Phase := "Running" } },
   { Metadata := { Name := "postgres-0", Namespace := "default" },
     Spec := { Containers := [{ Name := "postgres", Image := "postgres:15" }] },
     Status := { Phase := "Running" } },
   { Metadata := { Name := "grafana-5b6f-xyz12", Namespace := "monitoring",
                   Labels := [("app", "grafana")] },
     Spec := { Containers := [{ Name := "grafana", Image := "grafana/grafana:10.0.0" },
                              { Name := "sidecar", Image := "kiwigrid/k8s-sidecar:1" }] },
     Status := { Phase := "Running" } },
   { Metadata := { Name := "job-1", Namespace := "staging" },
     Spec := { Containers := [{ Name := "job", Image := "busybox" }] },
     Status := { Phase := "Pending" } }]

/-- A local Server, as the compose collector creates it, whose two Services belong to
different categories; the Service radarr depends on the Service transmission. -/
def mediaServer : Server :=
  { Hostname := "nas", Label := "nas", Type_ := ServerTypeLocal, Online := true,
    Services := [
      { Name := "radarr", Image := "linuxserver/radarr", Type_ := ServiceTypeContainer,
        DependsOn := ["transmission"], Category := "media" },
      { Name := "transmission", Image := "linuxserver/transmission",
        Type_ := ServiceTypeContainer, Category := "downloads" }] }

def mediaInfra : Infrastructure := { Servers := [("nas", mediaServer)] }

/-- The configuration that config.Load gives by default: services grouped by category. -/
def categoryCfg : Config :=
  { Direction := "right", Theme := "default", Display := { GroupBy := "category" } }

/-- A lab Server with a system service that depends on a Service the Server does not
have. -/
def agentServer : Server :=
  { Hostname := "srv", Label := "srv", Type_ := ServerTypeLab, Online := true,
    Services := [
      { Name := "web", Type_ := ServiceTypeContainer },
      { Name := "agent", Type_ := ServiceTypeSystem, DependsOn := ["dockerd"] }] }

def agentInfra : Infrastructure := { Servers := [("srv", agentServer)] }

/-- A case table that lowers the capital É as well, as unicode.ToLower does. -/
def accentTable (c : Char) : Char := if c = 'É' then 'é' else lowerRune c

/-- A lab Server stored under a lowercase name with an accent. -/
def ecoleServer : Server := { Hostname := "école", Label := "école", Type_ := ServerTypeLab }

def ecoleInfra : Infrastructure := { Servers := [("école", ecoleServer)] }

/-- A peer that reports the name of the Server école in capitals. -/
def ecolePeer : tailscalePeer :=
  { HostName := "ÉCOLE", OS := "linux", TailscaleIPs := ["100.64.0.5"], Online := true }

/-! ## Lemmas on the library functions -/

theorem char_le_iff (a b : Char) : a ≤ b ↔ a.toNat ≤ b.toNat := by
  show a.val ≤ b.val ↔ _
  rw [UInt32.le_def]
  rfl

theorem lowerRune_not_upper (c : Char) : ¬ ('A' ≤ lowerRune c ∧ lowerRune c ≤ 'Z') := by
  unfold lowerRune
  split
  · rename_i h
    rw [char_le_iff, char_le_iff] at h
    obtain ⟨h1, h2⟩ := h
    have e1 : ('A' : Char).toNat = 65 := by decide
    have e2 : ('Z' : Char).toNat = 90 := by decide
    rw [e1] at h1
    rw [e2] at h2
    generalize hn : c.toNat = n at h1 h2
    have hc : c = Char.ofNat n := by
      rw [← hn]
      exact (Char.ofNat_toNat c).symm
    subst hc
    interval_cases n <;> decide
  · split
    · decide
    · split
      · decide
      · assumption

theorem mem_replaceRune {s : String} {old : Char} {new : String} {c : Char}
    (h : c ∈ (replaceRune s old new).data) : c ∈ new.data ∨ c ∈ s.data := by
  unfold replaceRune at h
  simp only [List.mem_flatMap] at h
  obtain ⟨x, hx, hc⟩ := h
  split at hc
  · exact Or.inl hc
  · simp only [List.mem_singleton] at hc
    subst hc
    exact Or.inr hx

/-- Every rune of the string SanitizeID filters is free of ASCII capitals. -/
theorem sanitize_prefilter_not_upper (s : String) (c : Char)
    (h : c ∈ (replaceRune (replaceRune (replaceRune (goToLower s) ' ' "-") '.' "-") '/' "-").data) :
    ¬ ('A' ≤ c ∧ c ≤ 'Z') := by
  have dash : ∀ x : Char, x ∈ ("-" : String).data → ¬ ('A' ≤ x ∧ x ≤ 'Z') := by
    intro x hx
    have : x = '-' := by simpa using hx
    subst this
    decide
  rcases mem_replaceRune h with h1 | h1
  · exact dash c h1
  rcases mem_replaceRune h1 with h2 | h2
  · exact dash c h2
  rcases mem_replaceRune h2 with h3 | h3
  · exact dash c h3
  unfold goToLower at h3
  simp only [List.mem_map] at h3
  obtain ⟨x, _, hx⟩ := h3
  subst hx
  exact lowerRune_not_upper x

/-! ## C3: the shape of a sanitized identifier -/

/-- C3: for every string s, SanitizeID s is non-empty, has no uppercase letter, and each of
its runes is one of a-z, 0-9, underscore or hyphen; SanitizeID of the empty string is the
token unknown. -/
theorem SanitizeID_shape (s : String) :
    SanitizeID s ≠ "" ∧
    (∀ c ∈ (SanitizeID s).data,
      c.isUpper = false ∧
      (('a' ≤ c ∧ c ≤ 'z') ∨ ('0' ≤ c ∧ c ≤ '9') ∨ c = '_' ∨ c = '-')) ∧
    SanitizeID "" = "unknown" := by
  have key : ∀ c : Char, ¬ ('A' ≤ c ∧ c ≤ 'Z') → isIDRune c = true →
      c.isUpper = false ∧
      (('a' ≤ c ∧ c ≤ 'z') ∨ ('0' ≤ c ∧ c ≤ '9') ∨ c = '_' ∨ c = '-') := by
    intro c hu hid
    have hup : c.isUpper = false := by
      simp only [Char.isUpper, Bool.and_eq_false_iff, decide_eq_false_iff_not]
      by_contra hcon
      push_neg at hcon
      exact hu ⟨hcon.1, hcon.2⟩
    refine ⟨hup, ?_⟩
    simp only [isIDRune, Bool.or_eq_true, decide_eq_true_eq] at hid
    rcases hid with (((h | h) | h) | h) | h
    · exact Or.inl h
    · exact absurd h hu
    · exact Or.inr (Or.inl h)
    · exact Or.inr (Or.inr (Or.inl h))
    · exact Or.inr (Or.inr (Or.inr h))
  refine ⟨?_, ?_, by decide⟩
  · unfold SanitizeID
    simp only
    split
    · decide
    · assumption
  · intro c hc
    unfold SanitizeID at hc
    simp only at hc
    split at hc
    · have hmem : c ∈ ['u', 'n', 'k', 'n', 'o', 'w', 'n'] := by simpa using hc
      simp only [List.mem_cons, List.mem_singleton, List.not_mem_nil, or_false] at hmem
      rcases hmem with h | h | h | h | h | h | h <;> subst h <;> decide
    · simp only [List.mem_filter] at hc
      exact key c (sanitize_prefilter_not_upper s c hc.1) hc.2

/-! ## Lemmas on maps -/

theorem mapGet_mapSet_same {α : Type} (m : List (String × α)) (k : String) (v : α) :
    mapGet (mapSet m k v) k = some v := by
  induction m with
  | nil => simp [mapSet, mapGet]
  | cons e rest ih =>
    obtain ⟨k', v'⟩ := e
    by_cases h : k' = k
    · simp [mapSet, mapGet, h]
    · simp [mapSet, mapGet, h, ih]

theorem mapGet_mapSet_other {α : Type} (m : List (String × α)) (k k2 : String) (v : α)
    (h : k2 ≠ k) : mapGet (mapSet m k v) k2 = mapGet m k2 := by
  induction m with
  | nil => simp [mapSet, mapGet, Ne.symm h]
  | cons e rest ih =>
    obtain ⟨k', v'⟩ := e
    by_cases hk : k' = k
    · subst hk
      simp [mapSet, mapGet, Ne.symm h]
    · by_cases hk2 : k' = k2
      · subst hk2
        simp [mapSet, mapGet, hk]
      · simp [mapSet, mapGet, hk, hk2, ih]

theorem mapKeys_mapSet_of_get {α : Type} (m : List (String × α)) (k : String) (v x : α)
    (h : mapGet m k = some x) : mapKeys (mapSet m k v) = mapKeys m := by
  induction m with
  | nil => simp [mapGet] at h
  | cons e rest ih =>
    obtain ⟨k', v'⟩ := e
    by_cases hk : k' = k
    · simp [mapSet, mapKeys, hk]
    · simp only [mapGet, hk, if_false] at h
      have := ih h
      simp only [mapKeys] at this
      simp [mapSet, mapKeys, hk, this]

/-! ## The overlay-network collector -/

/-- processPeer touches no entry of Servers or Devices under another key than the
lowercased hostname of the peer. -/
theorem processPeer_frame {lower : Char → Char} (tc : TailscaleCollector) (infra : Infrastructure)
    (peer : tailscalePeer) (k : String) (hk : k ≠ strToLower lower peer.HostName) :
    mapGet (tc.processPeer lower infra peer).Servers k = mapGet infra.Servers k ∧
    mapGet (tc.processPeer lower infra peer).Devices k = mapGet infra.Devices k := by
  unfold TailscaleCollector.processPeer
  simp only
  split
  · exact ⟨rfl, rfl⟩
  · split
    · exact ⟨mapGet_mapSet_other _ _ _ _ hk, rfl⟩
    · split
      · exact ⟨mapGet_mapSet_other _ _ _ _ hk, rfl⟩
      · exact ⟨rfl, mapGet_mapSet_other _ _ _ _ hk⟩

/-- C1 (as amended): for every case table of strings.ToLower, let the Model hold a Server s
under the lowercased hostname h of a peer.  When h is empty processPeer leaves the Model as it is.  When h is not empty it stores under
h the Server s with its OS and Online set to the peer's and its TailscaleIP set to the
peer's first IP; Type, PublicIP, Label, Hostname, AnsibleGroups and Services of that Server
are those of s, every other Server and every Device is unchanged, and the key set of
Servers is unchanged, so that no Server and no Device is created. -/
theorem processPeer_enriches_existing (lower : Char → Char) (tc : TailscaleCollector)
    (infra : Infrastructure) (peer : tailscalePeer) (s : Server)
    (hs : mapGet infra.Servers (strToLower lower peer.HostName) = some s) :
    (strToLower lower peer.HostName = "" → tc.processPeer lower infra peer = infra) ∧
    (strToLower lower peer.HostName ≠ "" →
      ∃ s2 : Server,
        mapGet (tc.processPeer lower infra peer).Servers (strToLower lower peer.HostName)
          = some s2 ∧
        s2.OS = peer.OS ∧ s2.Online = peer.Online ∧
        (∀ ip rest, peer.TailscaleIPs = ip :: rest → s2.TailscaleIP = ip) ∧
        s2.Type_ = s.Type_ ∧ s2.PublicIP = s.PublicIP ∧ s2.Label = s.Label ∧
        s2.Hostname = s.Hostname ∧ s2.AnsibleGroups = s.AnsibleGroups ∧
        s2.Services = s.Services ∧
        (∀ k, k ≠ strToLower lower peer.HostName →
          mapGet (tc.processPeer lower infra peer).Servers k = mapGet infra.Servers k) ∧
        mapKeys (tc.processPeer lower infra peer).Servers = mapKeys infra.Servers ∧
        (tc.processPeer lower infra peer).Devices = infra.Devices ∧
        (tc.processPeer lower infra peer).ServerGroups = infra.ServerGroups ∧
        (tc.processPeer lower infra peer).Networks = infra.Networks ∧
        (tc.processPeer lower infra peer).TailnetName = infra.TailnetName) := by
  constructor
  · intro he
    unfold TailscaleCollector.processPeer
    simp only [he, if_true]
  · intro hne
    have hframe := fun k hk => (@processPeer_frame lower tc infra peer k hk).1
    have hres : tc.processPeer lower infra peer =
        { infra with
          Servers :=
            mapSet infra.Servers (strToLower lower peer.HostName) (enrichServer s peer) } := by
      unfold TailscaleCollector.processPeer
      simp only [hne, if_false, hs]
    rw [hres] at hframe ⊢
    refine ⟨_, mapGet_mapSet_same _ _ _, rfl, rfl, ?_, rfl, rfl, rfl, rfl, rfl, rfl, hframe,
      mapKeys_mapSet_of_get _ _ _ s hs, rfl, rfl, rfl, rfl⟩
    intro ip rest hip
    simp only [enrichServer, firstIP, hip]

/-- C1 (witness): the Server gateway of the test keeps its classification, public IP and
every other field and receives the address, OS and online flag of the peer.  With a case
table that lowers É, the peer ÉCOLE enriches the Server école and no Device is created. -/
theorem processPeer_enriches_existing_witness :
    mapGet (({} : TailscaleCollector).processPeer lowerRune gatewayInfra
        gatewayPeer).Servers "gateway"
      = some { Hostname := "gateway", Label := "gateway", PublicIP := "203.0.113.10",
               TailscaleIP := "100.64.0.2", Type_ := ServerTypeProduction, OS := "linux",
               Online := true } ∧
    ({} : TailscaleCollector).processPeer accentTable ecoleInfra ecolePeer
      = { Servers := [("école", { ecoleServer with TailscaleIP := "100.64.0.5",
                                                    OS := "linux", Online := true })] } := by
  refine ⟨?_, by decide⟩
  obtain ⟨s2, h1, hOS, hOn, hIP, hT, hP, hL, hH, hA, hS, _⟩ :=
    (processPeer_enriches_existing lowerRune {} gatewayInfra gatewayPeer gatewayServer
      (by decide)).2 (by decide)
  have hIP2 := hIP "100.64.0.2" [] rfl
  have hs2 : s2 = { Hostname := "gateway", Label := "gateway", PublicIP := "203.0.113.10",
                    TailscaleIP := "100.64.0.2", Type_ := ServerTypeProduction, OS := "linux",
                    Online := true } := by
    cases s2
    simp only [Server.mk.injEq]
    exact ⟨hH, hL, hP, hIP2, hT, hOS, hOn, hA, hS⟩
  rw [← hs2]
  exact h1

/-- C1 (counterexample): a Server stored under the empty hostname and a peer whose HostName
is empty: processPeer returns at its guard, so the Server keeps its OS, overlay IP and online
flag instead of receiving the peer's. -/
theorem processPeer_skips_empty_hostname :
    mapGet namelessInfra.Servers (strToLower lowerRune namelessPeer.HostName)
      = some namelessServer ∧
    mapGet (({} : TailscaleCollector).processPeer lowerRune namelessInfra namelessPeer).Servers
      (strToLower lowerRune namelessPeer.HostName) = some namelessServer ∧
    namelessServer.OS ≠ namelessPeer.OS ∧
    namelessPeer.TailscaleIPs = ["100.64.0.9"] ∧ namelessServer.TailscaleIP ≠ "100.64.0.9" ∧
    namelessServer.Online ≠ namelessPeer.Online := by
  decide

/-! ## C7: offline peers -/

theorem collectPeer_frame {lower : Char → Char} (tc : TailscaleCollector) (infra : Infrastructure)
    (peer : tailscalePeer) (k : String) (hk : k ≠ strToLower lower peer.HostName) :
    mapGet (tc.collectPeer lower infra peer).Servers k = mapGet infra.Servers k ∧
    mapGet (tc.collectPeer lower infra peer).Devices k = mapGet infra.Devices k := by
  unfold TailscaleCollector.collectPeer
  split
  · exact ⟨rfl, rfl⟩
  · exact processPeer_frame tc infra peer k hk

theorem collect_fold_frame {lower : Char → Char} (tc : TailscaleCollector)
    (peers : List (String × tailscalePeer)) (k : String)
    (hp : ∀ e ∈ peers, strToLower lower e.2.HostName ≠ k) (infra : Infrastructure) :
    mapGet (peers.foldl (fun acc e => tc.collectPeer lower acc e.2) infra).Servers k
      = mapGet infra.Servers k ∧
    mapGet (peers.foldl (fun acc e => tc.collectPeer lower acc e.2) infra).Devices k
      = mapGet infra.Devices k := by
  induction peers generalizing infra with
  | nil => exact ⟨rfl, rfl⟩
  | cons e rest ih =>
    have hrest : ∀ x ∈ rest, strToLower lower x.2.HostName ≠ k :=
      fun x hx => hp x (List.mem_cons_of_mem _ hx)
    have he : k ≠ strToLower lower e.2.HostName := Ne.symm (hp e (List.mem_cons_self _ _))
    have h1 := ih hrest (tc.collectPeer lower infra e.2)
    have h2 := collectPeer_frame tc infra e.2 k he
    simp only [List.foldl_cons]
    exact ⟨h1.1.trans h2.1, h1.2.trans h2.2⟩

theorem collect_fold_filter {lower : Char → Char} (tc : TailscaleCollector)
    (hoff : tc.IncludeOffline = false)
    (peers : List (String × tailscalePeer)) (infra : Infrastructure) :
    peers.foldl (fun acc e => tc.collectPeer lower acc e.2) infra
      = (peers.filter (fun e => e.2.Online)).foldl
          (fun acc e => tc.collectPeer lower acc e.2) infra := by
  induction peers generalizing infra with
  | nil => rfl
  | cons e rest ih =>
    cases hon : e.2.Online with
    | false =>
      have : tc.collectPeer lower infra e.2 = infra := by
        simp [TailscaleCollector.collectPeer, hon, hoff]
      simp [List.filter, hon, this, ih]
    | true =>
      simp [List.filter, hon, ih]

/-- What processPeer does with an untagged peer whose hostname is in neither map yet. -/
theorem processPeer_new_device {lower : Char → Char} (tc : TailscaleCollector)
    (infra : Infrastructure) (p : tailscalePeer) (hne : strToLower lower p.HostName ≠ "")
    (hs : mapGet infra.Servers (strToLower lower p.HostName) = none)
    (htag : p.Tags.any (fun tag => strContains tag "server") = false) :
    mapGet (tc.processPeer lower infra p).Devices (strToLower lower p.HostName)
      = some { Hostname := strToLower lower p.HostName, OS := p.OS, TailscaleIP := firstIP p,
               Online := p.Online, Tags := p.Tags } := by
  unfold TailscaleCollector.processPeer
  simp only [hne, if_false, hs, htag]
  exact mapGet_mapSet_same _ _ _

/-- C7: for every case table of strings.ToLower, an offline entry of the Peer map is left
out when IncludeOffline is false (the Model is returned as it was) and goes through processPeer, as an online entry does, when it is
true; Collect with IncludeOffline false is Collect on the payload without its offline
entries; and from an empty Model, a payload whose only entry named h is an offline untagged
peer gives a Devices map without h when the option is false and with h when it is true. -/
theorem Collect_offline_peers (lower : Char → Char) :
    (∀ (tc : TailscaleCollector) (infra : Infrastructure) (peer : tailscalePeer),
      tc.IncludeOffline = false → peer.Online = false →
      tc.collectPeer lower infra peer = infra) ∧
    (∀ (tc : TailscaleCollector) (infra : Infrastructure) (peer : tailscalePeer),
      tc.IncludeOffline = true ∨ peer.Online = true →
      tc.collectPeer lower infra peer = tc.processPeer lower infra peer) ∧
    (∀ (tc : TailscaleCollector) (infra : Infrastructure) (status : tailscaleStatus),
      tc.IncludeOffline = false →
      tc.Collect lower infra status
        = tc.Collect lower infra
            { status with Peer := status.Peer.filter (fun e => e.2.Online) }) ∧
    (∀ (tc : TailscaleCollector) (status : tailscaleStatus)
      (before after : List (String × tailscalePeer)) (id : String) (p : tailscalePeer),
      status.Peer = before ++ (id, p) :: after →
      p.Online = false →
      p.Tags.any (fun tag => strContains tag "server") = false →
      strToLower lower p.HostName ≠ "" →
      strToLower lower status.Self.HostName ≠ strToLower lower p.HostName →
      (∀ e ∈ before ++ after, strToLower lower e.2.HostName ≠ strToLower lower p.HostName) →
      (tc.IncludeOffline = false →
        mapGet (tc.Collect lower NewInfrastructure status).Devices (strToLower lower p.HostName)
          = none) ∧
      (tc.IncludeOffline = true →
        mapGet (tc.Collect lower NewInfrastructure status).Devices (strToLower lower p.HostName)
          = some { Hostname := strToLower lower p.HostName, OS := p.OS, TailscaleIP := firstIP p,
                   Online := false, Tags := p.Tags })) := by
  refine ⟨?_, ?_, ?_, ?_⟩
  · intro tc infra peer hoff hon
    simp [TailscaleCollector.collectPeer, hoff, hon]
  · intro tc infra peer h
    rcases h with h | h <;> simp [TailscaleCollector.collectPeer, h]
  · intro tc infra status hoff
    unfold TailscaleCollector.Collect
    exact collect_fold_filter tc hoff _ _
  · intro tc status before after id p hpeer hoff htag hne hself hothers
    have hb : ∀ e ∈ before, strToLower lower e.2.HostName ≠ strToLower lower p.HostName :=
      fun e he => hothers e (List.mem_append_left _ he)
    have ha : ∀ e ∈ after, strToLower lower e.2.HostName ≠ strToLower lower p.HostName :=
      fun e he => hothers e (List.mem_append_right _ he)
    -- the Model before the loop
    obtain ⟨infra1, hdef, hS1, hD1⟩ : ∃ infra1 : Infrastructure,
        tc.Collect lower NewInfrastructure status
          = status.Peer.foldl (fun acc e => tc.collectPeer lower acc e.2) infra1 ∧
        mapGet infra1.Servers (strToLower lower p.HostName) = none ∧
        mapGet infra1.Devices (strToLower lower p.HostName) = none := by
      refine ⟨_, rfl, ?_, ?_⟩
      · rw [(processPeer_frame tc _ status.Self _ (Ne.symm hself)).1]
        cases status.CurrentTailnet <;> rfl
      · rw [(processPeer_frame tc _ status.Self _ (Ne.symm hself)).2]
        cases status.CurrentTailnet <;> rfl
    rw [hdef, hpeer, List.foldl_append, List.foldl_cons]
    have hB := collect_fold_frame tc before _ hb infra1
    rw [hS1, hD1] at hB
    constructor
    · intro hincl
      have hskip : ∀ infra, tc.collectPeer lower infra p = infra := by
        intro infra
        simp [TailscaleCollector.collectPeer, hoff, hincl]
      rw [hskip, (collect_fold_frame tc after _ ha _).2]
      exact hB.2
    · intro hincl
      have hproc : ∀ infra, tc.collectPeer lower infra p = tc.processPeer lower infra p := by
        intro infra
        simp [TailscaleCollector.collectPeer, hincl]
      rw [hproc, (collect_fold_frame tc after _ ha _).2,
        processPeer_new_device tc _ p hne hB.1 htag, hoff]

/-- C7 (witness): the payload with the server gateway and the offline laptop, collected into
an empty Model with and without IncludeOffline. -/
theorem Collect_offline_peers_witness :
    mapGet (({ IncludeOffline := false } : TailscaleCollector).Collect lowerRune NewInfrastructure
      laptopStatus).Devices "offline-laptop" = none ∧
    mapGet (({ IncludeOffline := true } : TailscaleCollector).Collect lowerRune NewInfrastructure
      laptopStatus).Devices "offline-laptop"
      = some { Hostname := "offline-laptop", OS := "macOS", TailscaleIP := "100.64.0.7",
               Online := false, Tags := [] } := by
  have h := fun tc => (Collect_offline_peers lowerRune).2.2.2 tc laptopStatus
    [("nodekey:1", gatewayPeer)] [] "nodekey:2" laptopPeer rfl rfl (by decide) (by decide)
    (by decide) (by decide)
  exact ⟨(h { IncludeOffline := false }).1 rfl, (h { IncludeOffline := true }).2 rfl⟩

/-! ## C8, C9: categorization -/

theorem mapGet_of_mem {α : Type} (m : List (String × α)) (k : String) (v : α)
    (hnd : (mapKeys m).Nodup) (hmem : (k, v) ∈ m) : mapGet m k = some v := by
  induction m with
  | nil => simp at hmem
  | cons e rest ih =>
    obtain ⟨k', v'⟩ := e
    simp only [mapKeys, List.map_cons, List.nodup_cons, List.mem_map, not_exists, not_and] at hnd
    simp only [List.mem_cons, Prod.mk.injEq] at hmem
    rcases hmem with ⟨hk, hv⟩ | hrest
    · simp [mapGet, hk, hv]
    · have hne : k' ≠ k := fun heq => hnd.1 (k, v) hrest heq.symm
      simp only [mapGet, hne, if_false]
      exact ih hnd.2 hrest

theorem categoryPatterns_keys_nodup : (mapKeys categoryPatterns).Nodup := by
  decide

/-- C8: when the lowercased service name is a key of the category table, CategorizeService
returns the category the table gives for it, whatever the image and whatever order the
substring pass would take; the substring pass decides only when the name is not a key. -/
theorem CategorizeService_name_priority (visit : List (String × String))
    (name image cat : String) (hkey : (goToLower name, cat) ∈ categoryPatterns) :
    CategorizeService visit name image = cat ∧
    (∀ name2 : String, mapGet categoryPatterns (goToLower name2) = none →
      CategorizeService visit name2 image
        = (firstContained visit (goToLower (name2 ++ " " ++ image))).getD "") := by
  constructor
  · have h := mapGet_of_mem categoryPatterns _ _ categoryPatterns_keys_nodup hkey
    unfold CategorizeService
    simp only [h]
  · intro name2 hnone
    unfold CategorizeService
    simp only [hnone]
    cases firstContained visit (goToLower (name2 ++ " " ++ image)) <;> rfl

/-- C8 (witness): a service named Traefik is infrastructure although its image names
products of two other categories, also when the table is visited backwards. -/
theorem CategorizeService_name_priority_witness :
    CategorizeService categoryPatterns.reverse "Traefik" "plex-grafana:1" = "infrastructure" :=
  (CategorizeService_name_priority categoryPatterns.reverse "Traefik" "plex-grafana:1"
    "infrastructure" (by decide)).1

/-- C9 (the code at the failing input): for the service plex-exporter with image
prometheus-plex-exporter:latest, whose name is not a key of the table, the category returned
depends on the order in which the range statement visits the table: media in the order of
the source text, monitoring in the reverse order. -/
theorem CategorizeService_order_dependent :
    categoryPatterns.reverse.Perm categoryPatterns ∧
    mapGet categoryPatterns (goToLower "plex-exporter") = none ∧
    CategorizeService categoryPatterns "plex-exporter" "prometheus-plex-exporter:latest"
      = "media" ∧
    CategorizeService categoryPatterns.reverse "plex-exporter" "prometheus-plex-exporter:latest"
      = "monitoring" := by
  refine ⟨List.reverse_perm _, ?_, ?_, ?_⟩ <;> decide

/-! ## C10: service types of compose services -/

theorem hasInfix_iff (s sub : List Char) : hasInfix s sub = true ↔ sub <:+: s := by
  induction s with
  | nil =>
    cases sub <;> simp [hasInfix]
  | cons c cs ih =>
    rw [hasInfix, Bool.or_eq_true, ih, List.infix_cons_iff, List.isPrefixOf_iff_prefix]

theorem strContains_iff (s sub : String) : strContains s sub = true ↔ sub.data <:+: s.data :=
  hasInfix_iff s.data sub.data

/-- C10: detectServiceType returns database exactly when the lowercased string
image + " " + name contains one of the eight keywords, and container otherwise; a service
db with image postgres:15 is a database. -/
theorem detectServiceType_spec (image name : String) :
    (detectServiceType image name = ServiceTypeDatabase ↔
      ∃ kw ∈ ["postgres", "mysql", "mariadb", "mongo", "redis", "memcached", "influxdb",
              "sqlite"],
        kw.data <:+: (goToLower (image ++ " " ++ name)).data) ∧
    (detectServiceType image name ≠ ServiceTypeDatabase →
      detectServiceType image name = ServiceTypeContainer) ∧
    detectServiceType "postgres:15" "db" = ServiceTypeDatabase := by
  have hcases : ∀ b : Bool, (if b = true then ServiceTypeDatabase else ServiceTypeContainer)
      = ServiceTypeDatabase ↔ b = true := by
    intro b
    cases b <;> decide
  refine ⟨?_, ?_, by decide⟩
  · unfold detectServiceType
    simp only
    rw [hcases, List.any_eq_true]
    constructor
    · rintro ⟨kw, hkw, hc⟩
      exact ⟨kw, hkw, (strContains_iff _ _).1 hc⟩
    · rintro ⟨kw, hkw, hc⟩
      exact ⟨kw, hkw, (strContains_iff _ _).2 hc⟩
  · unfold detectServiceType
    simp only
    split
    · intro h
      exact absurd rfl h
    · intro _
      rfl

/-! ## C4: port strings and their labels -/


theorem digitVal_digitChar (k : Nat) (hk : k < 10) :
    digitVal (Nat.digitChar k) = some k ∧ isDigitRune (Nat.digitChar k) := by
  unfold isDigitRune
  interval_cases k <;> decide

theorem toDigitsCore_spec (fuel n : Nat) (ds : List Char) (hf : n < fuel) :
    ∃ pre : List Char, Nat.toDigitsCore 10 fuel n ds = pre ++ ds ∧ pre ≠ [] ∧
      (∀ c ∈ pre, isDigitRune c) ∧
      (∀ rest : List Char, parseDigits (pre ++ rest) 0 = parseDigits rest n) := by
  induction fuel generalizing n ds with
  | zero => omega
  | succ fuel ih =>
    have hd := digitVal_digitChar (n % 10) (Nat.mod_lt _ (by norm_num))
    have step : ∀ (rest : List Char) (acc : Nat),
        parseDigits (Nat.digitChar (n % 10) :: rest) acc = parseDigits rest (acc * 10 + n % 10) := by
      intro rest acc
      simp only [parseDigits, hd.1]
    unfold Nat.toDigitsCore
    simp only
    split
    · rename_i h0
      refine ⟨[Nat.digitChar (n % 10)], rfl, by simp, ?_, ?_⟩
      · intro c hc
        simp only [List.mem_singleton] at hc
        subst hc
        exact hd.2
      · intro rest
        have hn : 0 * 10 + n % 10 = n := by omega
        rw [List.singleton_append, step, hn]
    · rename_i h0
      have hlt : n / 10 < fuel := by omega
      obtain ⟨pre, hpre, hne, hdig, hparse⟩ := ih (n / 10) (Nat.digitChar (n % 10) :: ds) hlt
      refine ⟨pre ++ [Nat.digitChar (n % 10)], ?_, by simp, ?_, ?_⟩
      · rw [hpre]
        simp
      · intro c hc
        simp only [List.mem_append, List.mem_singleton] at hc
        rcases hc with hc | hc
        · exact hdig c hc
        · subst hc
          exact hd.2
      · intro rest
        have hn : n / 10 * 10 + n % 10 = n := by omega
        rw [List.append_assoc, hparse, List.singleton_append, step, hn]

theorem repr_spec (n : Nat) :
    (Nat.repr n).data ≠ [] ∧ (∀ c ∈ (Nat.repr n).data, isDigitRune c) ∧
    parseDigits (Nat.repr n).data 0 = some n := by
  obtain ⟨pre, hpre, hne, hdig, hparse⟩ := toDigitsCore_spec (n + 1) n [] (Nat.lt_succ_self n)
  have hdata : (Nat.repr n).data = pre := by
    show Nat.toDigitsCore 10 (n + 1) n [] = pre
    rw [hpre, List.append_nil]
  rw [hdata]
  refine ⟨hne, hdig, ?_⟩
  have := hparse []
  rw [List.append_nil] at this
  rw [this]
  rfl

theorem Atoi_digits (ds : List Char) (v : Nat) (hne : ds ≠ []) (hdig : ∀ c ∈ ds, isDigitRune c)
    (hparse : parseDigits ds 0 = some v) (hv : (v : Int) < 2 ^ 63) :
    Atoi (String.mk ds) = ((v : Int), true) := by
  cases ds with
  | nil => exact absurd rfl hne
  | cons c cs =>
    have hc := hdig c (List.mem_cons_self _ _)
    have h1 : c ≠ '-' := by
      rintro rfl
      revert hc
      unfold isDigitRune
      decide
    have h2 : c ≠ '+' := by
      rintro rfl
      revert hc
      unfold isDigitRune
      decide
    unfold Atoi
    simp only
    split
    · rename_i heq
      simp at heq
    · rename_i heq
      simp only [List.cons.injEq] at heq
      exact absurd heq.1 h1
    · rename_i heq
      simp only [List.cons.injEq] at heq
      exact absurd heq.1 h2
    · simp only [hparse]
      have : ¬ ((v : Int) ≥ 2 ^ 63) := by omega
      simp only [this, if_false]
      simp


theorem Atoi_neg_digits (ds : List Char) (v : Nat) (hne : ds ≠ [])
    (hparse : parseDigits ds 0 = some v) (hv : (v : Int) ≤ 2 ^ 63) :
    Atoi (String.mk ('-' :: ds)) = (-(v : Int), true) := by
  cases ds with
  | nil => exact absurd rfl hne
  | cons c cs =>
    unfold Atoi
    simp only [hparse]
    have : ¬ ((v : Int) > 2 ^ 63) := by omega
    rw [if_pos trivial, if_neg this]

theorem Atoi_fmtD (i : Int) (hlo : minInt ≤ i) (hhi : i ≤ maxInt) : Atoi (fmtD i) = (i, true) := by
  unfold minInt at hlo
  unfold maxInt at hhi
  unfold fmtD
  split
  · rename_i hneg
    obtain ⟨hne, _, hparse⟩ := repr_spec i.natAbs
    have hv : ((i.natAbs : Nat) : Int) ≤ 2 ^ 63 := by omega
    have h := Atoi_neg_digits _ _ hne hparse hv
    have hi : -((i.natAbs : Nat) : Int) = i := by omega
    rw [hi] at h
    exact h
  · rename_i hpos
    obtain ⟨hne, hdig, hparse⟩ := repr_spec i.toNat
    have hv : ((i.toNat : Nat) : Int) < 2 ^ 63 := by omega
    have h := Atoi_digits _ _ hne hdig hparse hv
    have hi : ((i.toNat : Nat) : Int) = i := by omega
    rw [hi] at h
    exact h

theorem fmtD_runes (i : Int) (c : Char) (hc : c ∈ (fmtD i).data) : c ≠ '/' ∧ c ≠ ':' := by
  have hdigit : ∀ n : Nat, c ∈ (Nat.repr n).data → c ≠ '/' ∧ c ≠ ':' := by
    intro n hn
    have hd := (repr_spec n).2.1 c hn
    constructor <;>
    · rintro rfl
      revert hd
      unfold isDigitRune
      decide
  unfold fmtD at hc
  split at hc
  · rw [String.data_append] at hc
    rcases List.mem_append.1 hc with h | h
    · have : c = '-' := by simpa using h
      subst this
      decide
    · exact hdigit _ h
  · exact hdigit _ hc

theorem cutRunes_none (c : Char) (l : List Char) (h : c ∉ l) : cutRunes c l = none := by
  induction l with
  | nil => rfl
  | cons x xs ih =>
    simp only [List.mem_cons, not_or] at h
    simp [cutRunes, Ne.symm h.1, ih h.2]

theorem cutRunes_append (c : Char) (pre post : List Char) (h : c ∉ pre) :
    cutRunes c (pre ++ c :: post) = some (pre, post) := by
  induction pre with
  | nil => simp [cutRunes]
  | cons x xs ih =>
    simp only [List.mem_cons, not_or] at h
    simp [cutRunes, Ne.symm h.1, ih h.2]

theorem splitRunes_none (sep : Char) (l : List Char) (h : sep ∉ l) : splitRunes sep l = [l] := by
  induction l with
  | nil => rfl
  | cons x xs ih =>
    simp only [List.mem_cons, not_or] at h
    simp [splitRunes, Ne.symm h.1, ih h.2]

theorem Atoi_range (s : String) : minInt ≤ (Atoi s).1 ∧ (Atoi s).1 ≤ maxInt := by
  have body : ∀ (neg : Bool) (ds : List Char),
      minInt ≤ (match ds with
        | [] => ((0 : Int), false)
        | _ :: _ =>
          match parseDigits ds 0 with
          | none => (0, false)
          | some v =>
            if neg then
              if (v : Int) > 2 ^ 63 then (minInt, false) else (-(v : Int), true)
            else
              if (v : Int) ≥ 2 ^ 63 then (maxInt, false) else ((v : Int), true)).1 ∧
      (match ds with
        | [] => ((0 : Int), false)
        | _ :: _ =>
          match parseDigits ds 0 with
          | none => (0, false)
          | some v =>
            if neg then
              if (v : Int) > 2 ^ 63 then (minInt, false) else (-(v : Int), true)
            else
              if (v : Int) ≥ 2 ^ 63 then (maxInt, false) else ((v : Int), true)).1 ≤ maxInt := by
    intro neg ds
    unfold minInt maxInt
    split
    · simp
    · split
      · simp
      · split
        · split <;> simp
          omega
        · split <;> simp
          omega
  unfold Atoi
  simp only
  split
  · unfold minInt maxInt; simp
  · exact body true _
  · exact body false _
  · exact body false _

theorem ParsePortMapping_range (s : String) :
    minInt ≤ (ParsePortMapping s).HostPort ∧ (ParsePortMapping s).HostPort ≤ maxInt := by
  have zero : minInt ≤ (0 : Int) ∧ (0 : Int) ≤ maxInt := by decide
  unfold ParsePortMapping
  simp only
  split <;> split <;> first | exact Atoi_range _ | exact zero

/-- Parsing a string without slash and colon that Atoi reads as h. -/
theorem ParsePortMapping_plain (t : String) (h : Int) (hslash : '/' ∉ t.data)
    (hcolon : ':' ∉ t.data) (hval : (Atoi t).1 = h) :
    ParsePortMapping t = { HostIP := "", HostPort := h, ContainerPort := h, Protocol := "tcp" } := by
  unfold ParsePortMapping
  simp only [cutRunes_none _ _ hslash, strSplit, splitRunes_none _ _ hcolon, List.map_cons,
    List.map_nil]
  rw [← hval]

theorem ParsePortMapping_suffixed (t proto : String) (h : Int) (hslash : '/' ∉ t.data)
    (hcolon : ':' ∉ t.data) (hval : (Atoi t).1 = h) :
    ParsePortMapping (t ++ ("/" ++ proto))
      = { HostIP := "", HostPort := h, ContainerPort := h, Protocol := proto } := by
  have hdata : (t ++ ("/" ++ proto)).data = t.data ++ '/' :: proto.data := by
    simp [String.data_append]
  unfold ParsePortMapping
  simp only [hdata, cutRunes_append _ _ _ hslash, strSplit, splitRunes_none _ _ hcolon,
    List.map_cons, List.map_nil]
  rw [← hval]

theorem reparse_label (pm : PortMapping) (hlo : minInt ≤ pm.HostPort)
    (hhi : pm.HostPort ≤ maxInt) (heq : pm.HostPort = pm.ContainerPort)
    (hproto : pm.Protocol ≠ "") :
    ParsePortMapping pm.String
      = { HostIP := "", HostPort := pm.HostPort, ContainerPort := pm.ContainerPort,
          Protocol := pm.Protocol } := by
  have hs := fun c hc => (fmtD_runes pm.HostPort c hc).1
  have hc := fun c hc => (fmtD_runes pm.HostPort c hc).2
  have hslash : '/' ∉ (fmtD pm.HostPort).data := fun hmem => hs _ hmem rfl
  have hcolon : ':' ∉ (fmtD pm.HostPort).data := fun hmem => hc _ hmem rfl
  have hval : (Atoi (fmtD pm.HostPort)).1 = pm.HostPort := by
    rw [Atoi_fmtD _ hlo hhi]
  unfold PortMapping.String
  simp only [heq.symm, if_true, hproto, false_or]
  split
  · rename_i htcp
    rw [String.append_empty, ParsePortMapping_plain _ _ hslash hcolon hval, htcp]
  · rw [ParsePortMapping_suffixed _ _ _ hslash hcolon hval]

theorem ParsePortMapping_protocol (t : String) :
    (ParsePortMapping t).Protocol =
      match cutRunes '/' t.data with
      | some (_, after) => String.mk after
      | none => "tcp" := by
  unfold ParsePortMapping
  simp only
  split <;> split <;> rfl

theorem label_protocol (pm : PortMapping) (hproto : pm.Protocol ≠ "") :
    (ParsePortMapping pm.String).Protocol = pm.Protocol := by
  have hports : ∀ c : Char, c ∈ (if pm.HostPort = pm.ContainerPort then fmtD pm.HostPort
      else fmtD pm.HostPort ++ "→" ++ fmtD pm.ContainerPort).data → c ≠ '/' := by
    intro c hc
    split at hc
    · exact (fmtD_runes _ c hc).1
    · simp only [String.data_append, List.mem_append] at hc
      rcases hc with (h | h) | h
      · exact (fmtD_runes _ c h).1
      · have : c = '→' := by simpa using h
        subst this
        decide
      · exact (fmtD_runes _ c h).1
  have hslash : '/' ∉ (if pm.HostPort = pm.ContainerPort then fmtD pm.HostPort
      else fmtD pm.HostPort ++ "→" ++ fmtD pm.ContainerPort).data := fun hmem => hports _ hmem rfl
  have hstr : pm.String = (if pm.HostPort = pm.ContainerPort then fmtD pm.HostPort
      else fmtD pm.HostPort ++ "→" ++ fmtD pm.ContainerPort)
      ++ (if pm.Protocol = "" ∨ pm.Protocol = "tcp" then "" else "/" ++ pm.Protocol) := by
    unfold PortMapping.String
    simp only
    split <;> rfl
  have hdata : ∀ a : String,
      (a ++ ("/" ++ pm.Protocol)).data = a.data ++ '/' :: pm.Protocol.data := by
    intro a
    simp [String.data_append]
  rw [ParsePortMapping_protocol, hstr]
  by_cases htcp : pm.Protocol = "tcp"
  · rw [if_pos (Or.inr htcp), String.append_empty, cutRunes_none _ _ hslash, htcp]
  · have hboth : ¬ (pm.Protocol = "" ∨ pm.Protocol = "tcp") := by
      rintro (h | h)
      · exact hproto h
      · exact htcp h
    rw [if_neg hboth, hdata, cutRunes_append _ _ _ hslash]

/-- C4 (as amended): for every port string s whose parse has a non-empty protocol, parsing
the label of the parse gives the same Protocol; and when the parse has equal host and
container port (as for every string of one segment), it gives the same HostPort and
ContainerPort as well. -/
theorem ParsePortMapping_label_roundtrip (s : String)
    (hproto : (ParsePortMapping s).Protocol ≠ "") :
    (ParsePortMapping (ParsePortMapping s).String).Protocol = (ParsePortMapping s).Protocol ∧
    ((ParsePortMapping s).HostPort = (ParsePortMapping s).ContainerPort →
      (ParsePortMapping (ParsePortMapping s).String).HostPort = (ParsePortMapping s).HostPort ∧
      (ParsePortMapping (ParsePortMapping s).String).ContainerPort
        = (ParsePortMapping s).ContainerPort) := by
  refine ⟨label_protocol _ hproto, ?_⟩
  intro heq
  obtain ⟨hlo, hhi⟩ := ParsePortMapping_range s
  rw [reparse_label _ hlo hhi heq hproto]
  exact ⟨rfl, rfl⟩

/-- C4 (witness): the one-segment string 8080/udp. -/
theorem ParsePortMapping_label_roundtrip_witness :
    (ParsePortMapping "8080/udp").String = "8080/udp" ∧
    (ParsePortMapping (ParsePortMapping "8080/udp").String).Protocol = "udp" ∧
    (ParsePortMapping (ParsePortMapping "8080/udp").String).HostPort = 8080 ∧
    (ParsePortMapping (ParsePortMapping "8080/udp").String).ContainerPort = 8080 :=
  have h := ParsePortMapping_label_roundtrip "8080/udp" (by decide)
  ⟨by decide, h.1, (h.2 (by decide)).1, (h.2 (by decide)).2⟩

/-- C4 (counterexample): the string 8080:80/udp of the specification parses to host port
8080 and container port 80; its label is written with an arrow, which ParsePortMapping does
not read, so parsing the label gives host port 0 and container port 0. -/
theorem ParsePortMapping_arrow_label_not_parsed :
    ParsePortMapping "8080:80/udp"
      = { HostIP := "", HostPort := 8080, ContainerPort := 80, Protocol := "udp" } ∧
    (ParsePortMapping "8080:80/udp").String = "8080→80/udp" ∧
    (ParsePortMapping (ParsePortMapping "8080:80/udp").String).HostPort = 0 ∧
    (ParsePortMapping (ParsePortMapping "8080:80/udp").String).ContainerPort = 0 ∧
    (ParsePortMapping (ParsePortMapping "8080:80/udp").String).HostPort
      ≠ (ParsePortMapping "8080:80/udp").HostPort := by
  decide

/-! ## C5: the detail levels standard and detailed -/

theorem detail_minimal (r : D2Renderer) (h : r.DetailLevel = "minimal") :
    r.detail = "minimal" := by
  unfold D2Renderer.detail
  simp [h]

theorem renderServer_minimal (r : D2Renderer) (ord : TableOrder) (server : Server)
    (theme : Theme) (cfg : Config) (indent : String) (h : r.DetailLevel = "minimal") :
    r.renderServer ord server theme cfg indent
      = indent ++ SanitizeID server.Hostname ++ ": " ++ Quote server.Hostname ++ " \x7b\n"
        ++ indent ++ "\x7d\n" := by
  unfold D2Renderer.renderServer
  simp only [detail_minimal r h, ne_eq, not_true_eq_false, and_false, if_false]
  apply String.ext
  simp [String.data_append]

/-- C6: at detail level minimal a Server is written as a block holding its identifier and
its quoted hostname and nothing else, whatever its Services, OS, addresses and the
configuration; a classification group is its header followed by these blocks; and the
output of RenderD2 is the preamble, the groups and the closing brace: the device block and
the external connections (internet and cloudflare nodes, dependency edges) are empty. -/
theorem minimal_rendering (ord : TableOrder) (infra : Infrastructure) (cfg : Config) :
    (∀ (r : D2Renderer) (server : Server) (theme : Theme) (indent : String),
      r.DetailLevel = "minimal" →
      r.renderServer ord server theme cfg indent
        = indent ++ SanitizeID server.Hostname ++ ": " ++ Quote server.Hostname ++ " \x7b\n"
          ++ indent ++ "\x7d\n") ∧
    (∀ (r : D2Renderer) (theme : Theme) (stype : ServerType),
      r.DetailLevel = "minimal" →
      r.renderGroup ord infra theme cfg stype
        = if (serversOfType infra stype).length = 0 then ""
          else
            "  " ++ SanitizeID stype ++ ": "
              ++ Quote (match mapGet infra.ServerGroups stype with
                        | some group => group.Label
                        | none => stype) ++ " \x7b\n"
              ++ "    style.fill: " ++ fmtQ (theme.ColorForServerType stype).Fill ++ "\n"
              ++ "    style.stroke: " ++ fmtQ (theme.ColorForServerType stype).Stroke ++ "\n"
              ++ "\n"
              ++ String.join ((serversOfType infra stype).map (fun server =>
                  "    " ++ SanitizeID server.Hostname ++ ": " ++ Quote server.Hostname
                    ++ " \x7b\n" ++ "    " ++ "\x7d\n"))
              ++ "  \x7d\n\n") ∧
    (∀ (r : D2Renderer) (theme : Theme), r.DetailLevel = "minimal" →
      r.devicesPart ord infra theme cfg = "" ∧ r.externalPart infra = "") ∧
    (cfg.Render.DetailLevel = "minimal" →
      RenderD2 ord infra cfg
        = "direction: " ++ (if cfg.Direction = "" then "right" else cfg.Direction) ++ "\n\n"
          ++ "tailnet: "
          ++ Quote (if infra.TailnetName ≠ "" then "Tailscale — " ++ infra.TailnetName
                    else "Tailscale VPN") ++ " \x7b\n"
          ++ String.join (groupOrder.map (fun stype =>
              ({ DetailLevel := "minimal" } : D2Renderer).renderGroup ord infra
                (GetTheme cfg.Theme) cfg stype))
          ++ "\x7d\n\n") := by
  have hparts : ∀ (r : D2Renderer) (theme : Theme), r.DetailLevel = "minimal" →
      r.devicesPart ord infra theme cfg = "" ∧ r.externalPart infra = "" := by
    intro r theme h
    unfold D2Renderer.devicesPart D2Renderer.externalPart
    simp [detail_minimal r h]
  refine ⟨fun r server theme indent h => renderServer_minimal r ord server theme cfg indent h,
    ?_, hparts, ?_⟩
  · intro r theme stype h
    unfold D2Renderer.renderGroup
    simp only [renderServer_minimal r ord _ theme cfg _ h]
  · intro h
    unfold RenderD2 D2Renderer.Render
    simp only [h]
    rw [(hparts { DetailLevel := "minimal" } (GetTheme cfg.Theme) rfl).1,
      (hparts { DetailLevel := "minimal" } (GetTheme cfg.Theme) rfl).2]
    apply String.ext
    simp [String.data_append]

set_option maxRecDepth 1000000 in
/-- C6 (witness): the test Server gateway, with two Services, an OS, a public IP and a
device beside it, rendered at detail level minimal. -/
theorem minimal_rendering_witness :
    RenderD2 {} basicInfra minimalCfg
      = "direction: right\n\n"
        ++ "tailnet: \"Tailscale — user@example\" \x7b\n"
        ++ "  production: \"production\" \x7b\n"
        ++ "    style.fill: \"#FEE2E2\"\n"
        ++ "    style.stroke: \"#DC2626\"\n"
        ++ "\n"
        ++ "    gateway: \"gateway\" \x7b\n"
        ++ "    \x7d\n"
        ++ "  \x7d\n\n"
        ++ "\x7d\n\n" := by
  rw [(minimal_rendering {} basicInfra minimalCfg).2.2.2 rfl]
  decide

/-! ## C2: determinism of the rendering -/

set_option maxRecDepth 1000000 in
/-- C2 (the code at the failing inputs): the text RenderD2 returns depends on the order in
which the range statements visit the Servers map, the icon table and the product-name
table.  Two production Servers give their two cloudflare edges in the order of the visit;
a Service db with image example/postgres-redis:1 gets the icon, and the display name, of
whichever product is visited first. -/
theorem RenderD2_order_dependent :
    ([("beta", betaServer), ("alpha", alphaServer)] : List (String × Server)).Perm
      [("alpha", alphaServer), ("beta", betaServer)] ∧
    RenderD2 {} { Servers := [("alpha", alphaServer), ("beta", betaServer)] } {}
      ≠ RenderD2 {} { Servers := [("beta", betaServer), ("alpha", alphaServer)] } {} ∧
    iconRegistry.reverse.Perm iconRegistry ∧
    RenderD2 { icons := iconRegistry } { Servers := [("stack", stackServer)] } {}
      ≠ RenderD2 { icons := iconRegistry.reverse } { Servers := [("stack", stackServer)] } {} ∧
    imageNames.reverse.Perm imageNames ∧
    RenderD2 { products := imageNames } { Servers := [("stack", stackServer)] } {}
      ≠ RenderD2 { products := imageNames.reverse } { Servers := [("stack", stackServer)] } {} := by
  refine ⟨List.Perm.swap _ _ _, ?_, List.reverse_perm _, ?_, List.reverse_perm _, ?_⟩ <;> decide

/-! ## C17, C18: port strings -/

theorem splitRunes_append (sep : Char) (a b : List Char) (h : sep ∉ a) :
    splitRunes sep (a ++ sep :: b) = a :: splitRunes sep b := by
  induction a with
  | nil => simp [splitRunes]
  | cons x xs ih =>
    simp only [List.mem_cons, not_or] at h
    simp [splitRunes, Ne.symm h.1, ih h.2]

theorem repr_runes (n : Nat) : '/' ∉ (Nat.repr n).data ∧ ':' ∉ (Nat.repr n).data := by
  constructor <;>
  · intro hmem
    have hd := (repr_spec n).2.1 _ hmem
    revert hd
    unfold isDigitRune
    decide

theorem Atoi_repr (n : Nat) (hn : n < 2 ^ 63) : (Atoi (Nat.repr n)).1 = (n : Int) := by
  obtain ⟨hne, hdig, hparse⟩ := repr_spec n
  have hv : ((n : Nat) : Int) < 2 ^ 63 := by exact_mod_cast hn
  have h := Atoi_digits _ _ hne hdig hparse hv
  have he : Atoi (Nat.repr n) = Atoi (String.mk (Nat.repr n).data) := rfl
  rw [he, h]

/-- Appending a slash and p to a string without slash changes only the Protocol of its
parse, to p. -/
theorem ParsePortMapping_suffix (t p : String) (hslash : '/' ∉ t.data) :
    ParsePortMapping (t ++ "/" ++ p) = { ParsePortMapping t with Protocol := p } := by
  have hdata : (t ++ "/" ++ p).data = t.data ++ '/' :: p.data := by
    simp [String.data_append]
  unfold ParsePortMapping
  simp only [hdata, cutRunes_append _ _ _ hslash, cutRunes_none _ _ hslash]
  generalize strSplit { data := t.data } ':' = parts
  have ht : ({ data := t.data } : String) = t := rfl
  split <;> simp_all

theorem ParsePortMapping_two (a b : String) (ha : '/' ∉ a.data ∧ ':' ∉ a.data)
    (hb : '/' ∉ b.data ∧ ':' ∉ b.data) :
    ParsePortMapping (a ++ ":" ++ b)
      = { HostIP := "", HostPort := (Atoi a).1, ContainerPort := (Atoi b).1,
          Protocol := "tcp" } := by
  have hdata : (a ++ ":" ++ b).data = a.data ++ ':' :: b.data := by
    simp [String.data_append]
  have hslash : '/' ∉ a.data ++ ':' :: b.data := by
    simp only [List.mem_append, List.mem_cons, not_or]
    exact ⟨ha.1, by decide, hb.1⟩
  unfold ParsePortMapping
  simp only [hdata, cutRunes_none _ _ hslash, strSplit, splitRunes_append _ _ _ ha.2,
    splitRunes_none _ _ hb.2, List.map_cons, List.map_nil]

theorem ParsePortMapping_three (ip a b : String) (hip : '/' ∉ ip.data ∧ ':' ∉ ip.data)
    (ha : '/' ∉ a.data ∧ ':' ∉ a.data) (hb : '/' ∉ b.data ∧ ':' ∉ b.data) :
    ParsePortMapping (ip ++ ":" ++ a ++ ":" ++ b)
      = { HostIP := ip, HostPort := (Atoi a).1, ContainerPort := (Atoi b).1,
          Protocol := "tcp" } := by
  have hdata : (ip ++ ":" ++ a ++ ":" ++ b).data
      = ip.data ++ ':' :: (a.data ++ ':' :: b.data) := by
    simp [String.data_append]
  have hslash : '/' ∉ ip.data ++ ':' :: (a.data ++ ':' :: b.data) := by
    simp only [List.mem_append, List.mem_cons, not_or]
    exact ⟨hip.1, by decide, ha.1, by decide, hb.1⟩
  unfold ParsePortMapping
  simp only [hdata, cutRunes_none _ _ hslash, strSplit, splitRunes_append _ _ _ hip.2,
    splitRunes_append _ _ _ ha.2, splitRunes_none _ _ hb.2, List.map_cons, List.map_nil]

/-- C17: for decimal port numbers h and c (within the range of a Go int), a host IP without
colon and slash and any protocol string p, ParsePortMapping reads the one-, two- and
three-segment strings as stated, with Protocol tcp, and appending a slash and p changes only
the Protocol, to p. -/
theorem ParsePortMapping_segments (h c : Nat) (ip p : String)
    (hh : h < 2 ^ 63) (hc : c < 2 ^ 63) (hip : ':' ∉ ip.data ∧ '/' ∉ ip.data) :
    ParsePortMapping (Nat.repr h)
      = { HostIP := "", HostPort := h, ContainerPort := h, Protocol := "tcp" } ∧
    ParsePortMapping (Nat.repr h ++ ":" ++ Nat.repr c)
      = { HostIP := "", HostPort := h, ContainerPort := c, Protocol := "tcp" } ∧
    ParsePortMapping (ip ++ ":" ++ Nat.repr h ++ ":" ++ Nat.repr c)
      = { HostIP := ip, HostPort := h, ContainerPort := c, Protocol := "tcp" } ∧
    ParsePortMapping (Nat.repr h ++ "/" ++ p)
      = { HostIP := "", HostPort := h, ContainerPort := h, Protocol := p } ∧
    ParsePortMapping (Nat.repr h ++ ":" ++ Nat.repr c ++ "/" ++ p)
      = { HostIP := "", HostPort := h, ContainerPort := c, Protocol := p } ∧
    ParsePortMapping (ip ++ ":" ++ Nat.repr h ++ ":" ++ Nat.repr c ++ "/" ++ p)
      = { HostIP := ip, HostPort := h, ContainerPort := c, Protocol := p } := by
  have rh := repr_runes h
  have rc := repr_runes c
  have h1 : ParsePortMapping (Nat.repr h)
      = { HostIP := "", HostPort := h, ContainerPort := h, Protocol := "tcp" } :=
    ParsePortMapping_plain _ _ rh.1 rh.2 (Atoi_repr h hh)
  have h2 : ParsePortMapping (Nat.repr h ++ ":" ++ Nat.repr c)
      = { HostIP := "", HostPort := h, ContainerPort := c, Protocol := "tcp" } := by
    rw [ParsePortMapping_two _ _ rh rc, Atoi_repr h hh, Atoi_repr c hc]
  have h3 : ParsePortMapping (ip ++ ":" ++ Nat.repr h ++ ":" ++ Nat.repr c)
      = { HostIP := ip, HostPort := h, ContainerPort := c, Protocol := "tcp" } := by
    rw [ParsePortMapping_three _ _ _ ⟨hip.2, hip.1⟩ rh rc, Atoi_repr h hh, Atoi_repr c hc]
  have s2 : '/' ∉ (Nat.repr h ++ ":" ++ Nat.repr c).data := by
    simp only [String.data_append, List.mem_append, not_or]
    exact ⟨⟨rh.1, by decide⟩, rc.1⟩
  have s3 : '/' ∉ (ip ++ ":" ++ Nat.repr h ++ ":" ++ Nat.repr c).data := by
    simp only [String.data_append, List.mem_append, not_or]
    exact ⟨⟨⟨⟨hip.2, by decide⟩, rh.1⟩, by decide⟩, rc.1⟩
  refine ⟨h1, h2, h3, ?_, ?_, ?_⟩
  · rw [ParsePortMapping_suffix _ _ rh.1, h1]
  · rw [ParsePortMapping_suffix _ _ s2, h2]
  · rw [ParsePortMapping_suffix _ _ s3, h3]

/-- C17 (witness): the four inputs of TestParsePortMapping. -/
theorem ParsePortMapping_segments_witness :
    ParsePortMapping "8080"
      = { HostIP := "", HostPort := 8080, ContainerPort := 8080, Protocol := "tcp" } ∧
    ParsePortMapping "8080:80"
      = { HostIP := "", HostPort := 8080, ContainerPort := 80, Protocol := "tcp" } ∧
    ParsePortMapping "127.0.0.1:8080:80"
      = { HostIP := "127.0.0.1", HostPort := 8080, ContainerPort := 80, Protocol := "tcp" } ∧
    ParsePortMapping "8080:80/udp"
      = { HostIP := "", HostPort := 8080, ContainerPort := 80, Protocol := "udp" } := by
  have h := ParsePortMapping_segments 8080 80 "127.0.0.1" "udp" (by decide) (by decide)
    (by decide)
  exact ⟨h.1, h.2.1, h.2.2.1, h.2.2.2.2.1⟩

/-- C18: the label of a PortMapping is the decimal HostPort when HostPort equals
ContainerPort and HostPort, an arrow and ContainerPort when they differ, followed by a slash
and the Protocol exactly when the Protocol is neither empty nor tcp; it is the same for
every HostIP. -/
theorem PortMapping_String_label (p : PortMapping) :
    (p.HostPort = p.ContainerPort → p.Protocol = "" ∨ p.Protocol = "tcp" →
      p.String = fmtD p.HostPort) ∧
    (p.HostPort = p.ContainerPort → p.Protocol ≠ "" → p.Protocol ≠ "tcp" →
      p.String = fmtD p.HostPort ++ "/" ++ p.Protocol) ∧
    (p.HostPort ≠ p.ContainerPort → p.Protocol = "" ∨ p.Protocol = "tcp" →
      p.String = fmtD p.HostPort ++ "→" ++ fmtD p.ContainerPort) ∧
    (p.HostPort ≠ p.ContainerPort → p.Protocol ≠ "" → p.Protocol ≠ "tcp" →
      p.String = fmtD p.HostPort ++ "→" ++ fmtD p.ContainerPort ++ "/" ++ p.Protocol) ∧
    (∀ ip : String, ({ p with HostIP := ip } : PortMapping).String = p.String) ∧
    (minInt ≤ p.HostPort → p.HostPort ≤ maxInt → Atoi (fmtD p.HostPort) = (p.HostPort, true)) := by
  refine ⟨?_, ?_, ?_, ?_, fun _ => rfl, fun hlo hhi => Atoi_fmtD _ hlo hhi⟩
  · intro he hp
    unfold PortMapping.String
    simp only [he, hp, if_true]
    exact String.append_empty _
  · intro he h1 h2
    unfold PortMapping.String
    simp only [he, h1, h2, or_self, if_true, if_false]
    apply String.ext
    simp [String.data_append]
  · intro he hp
    unfold PortMapping.String
    simp only [he, hp, if_true, if_false]
    exact String.append_empty _
  · intro he h1 h2
    unfold PortMapping.String
    simp only [he, h1, h2, or_self, if_false]
    apply String.ext
    simp [String.data_append]

/-- C18 (witness): the three cases of TestPortMappingString, the last with a host IP. -/
theorem PortMapping_String_label_witness :
    ({ HostPort := 8080, ContainerPort := 8080, Protocol := "tcp" } : PortMapping).String
      = "8080" ∧
    ({ HostPort := 8080, ContainerPort := 80, Protocol := "tcp" } : PortMapping).String
      = "8080→80" ∧
    ({ HostIP := "127.0.0.1", HostPort := 8080, ContainerPort := 80, Protocol := "udp" } :
      PortMapping).String = "8080→80/udp" := by
  refine ⟨?_, ?_, ?_⟩
  · rw [(PortMapping_String_label _).1 rfl (Or.inr rfl)]
    decide
  · rw [(PortMapping_String_label _).2.2.1 (by decide) (Or.inr rfl)]
    decide
  · rw [(PortMapping_String_label _).2.2.2.1 (by decide) (by decide) (by decide)]
    decide

/-! ## C19: SanitizeID against the words of the specification -/

theorem replaceRune_hyphen (s : String) (old : Char) :
    (replaceRune s old "-").data = s.data.map (fun c => if c = old then '-' else c) := by
  unfold replaceRune
  show s.data.flatMap _ = _
  induction s.data with
  | nil => rfl
  | cons x xs ih =>
    rw [List.flatMap_cons, ih, List.map_cons]
    by_cases h : x = old <;> simp [h]

theorem isIDRune_eq (c : Char) :
    isIDRune c = (c.isAlpha || c.isDigit || c = '-' || c = '_') := by
  have hle : ∀ a b : Char, (a ≤ b) = (a.val ≤ b.val) := fun _ _ => rfl
  unfold isIDRune Char.isAlpha Char.isUpper Char.isLower Char.isDigit
  simp only [hle, ge_iff_le]
  have e0 : ('0' : Char).val = 48 := rfl
  have e9 : ('9' : Char).val = 57 := rfl
  have ea : ('a' : Char).val = 97 := rfl
  have ez : ('z' : Char).val = 122 := rfl
  have eA : ('A' : Char).val = 65 := rfl
  have eZ : ('Z' : Char).val = 90 := rfl
  rw [e0, e9, ea, ez, eA, eZ]
  simp only [Bool.decide_and]
  generalize decide (97 ≤ c.val) = b1
  generalize decide (c.val ≤ 122) = b2
  generalize decide (65 ≤ c.val) = b3
  generalize decide (c.val ≤ 90) = b4
  generalize decide (48 ≤ c.val) = b5
  generalize decide (c.val ≤ 57) = b6
  generalize decide (c = '_') = b7
  generalize decide (c = '-') = b8
  cases b1 <;> cases b2 <;> cases b3 <;> cases b4 <;> cases b5 <;> cases b6 <;>
    cases b7 <;> cases b8 <;> rfl

/-- C19: SanitizeID is the function the specification describes: lowercase, replace spaces,
dots and slashes by hyphens, delete every other rune that is not an ASCII letter, digit,
hyphen or underscore, and return unknown when nothing remains. -/
theorem SanitizeID_eq_spec (s : String) :
    SanitizeID s = sanitizeSpec s ∧
    SanitizeID "my server" = "my-server" ∧ SanitizeID "node.js" = "node-js" ∧
    SanitizeID "special@chars!" = "specialchars" ∧ SanitizeID "" = "unknown" := by
  refine ⟨?_, by decide, by decide, by decide, by decide⟩
  have hmap : (replaceRune (replaceRune (replaceRune (goToLower s) ' ' "-") '.' "-") '/' "-").data
      = (s.data.map lowerRune).map
          (fun c => if c = ' ' ∨ c = '.' ∨ c = '/' then '-' else c) := by
    rw [replaceRune_hyphen, replaceRune_hyphen, replaceRune_hyphen]
    unfold goToLower
    simp only [List.map_map]
    apply List.map_congr_left
    intro c _
    simp only [Function.comp]
    by_cases h1 : lowerRune c = ' '
    · rw [h1]; decide
    · by_cases h2 : lowerRune c = '.'
      · rw [h2]; decide
      · by_cases h3 : lowerRune c = '/'
        · rw [h3]; decide
        · simp [h1, h2, h3]
  have hfilter : (fun c => c.isAlpha || c.isDigit || decide (c = '-') || decide (c = '_'))
      = isIDRune := by
    funext c
    exact (isIDRune_eq c).symm
  unfold SanitizeID sanitizeSpec
  simp only [hmap, hfilter]
  have hempty : ∀ l : List Char, (String.mk l = "") ↔ (l = []) := by
    intro l
    constructor
    · intro h
      have := congrArg String.data h
      simpa using this
    · intro h
      rw [h]
  by_cases hk : List.filter isIDRune
      ((s.data.map lowerRune).map (fun c => if c = ' ' ∨ c = '.' ∨ c = '/' then '-' else c)) = []
  · rw [if_pos ((hempty _).2 hk), if_pos hk]
  · rw [if_neg (fun h => hk ((hempty _).1 h)), if_neg hk]

/-! ## C13, C20: what processPeer writes -/

theorem goToLower_eq_empty (s : String) : goToLower s = "" ↔ s = "" := by
  unfold goToLower
  constructor
  · intro h
    have hd := congrArg String.data h
    simp only [List.map_eq_nil_iff] at hd
    exact String.ext hd
  · intro h
    subst h
    rfl

theorem strToLower_eq_empty (lower : Char → Char) (s : String) :
    strToLower lower s = "" ↔ s = "" := by
  unfold strToLower
  constructor
  · intro h
    have hd := congrArg String.data h
    simp only [List.map_eq_nil_iff] at hd
    exact String.ext hd
  · intro h
    subst h
    rfl

theorem mapSet_of_get_none {α : Type} (m : List (String × α)) (k : String) (v : α)
    (h : mapGet m k = none) : mapSet m k v = m ++ [(k, v)] := by
  induction m with
  | nil => rfl
  | cons e rest ih =>
    obtain ⟨k', v'⟩ := e
    by_cases hk : k' = k
    · simp [mapGet, hk] at h
    · simp only [mapGet, hk, if_false] at h
      simp [mapSet, hk, ih h]

theorem firstIP_eq (peer : tailscalePeer) : firstIP peer = peer.TailscaleIPs.headD "" := by
  unfold firstIP
  cases peer.TailscaleIPs <;> rfl

/-- The Model processPeer returns when the lowercased hostname is not empty and a Server
is stored under it. -/
theorem processPeer_existing {lower : Char → Char} (tc : TailscaleCollector)
    (infra : Infrastructure) (peer : tailscalePeer) (s : Server)
    (hne : strToLower lower peer.HostName ≠ "")
    (hs : mapGet infra.Servers (strToLower lower peer.HostName) = some s) :
    tc.processPeer lower infra peer =
      { infra with
        Servers :=
          mapSet infra.Servers (strToLower lower peer.HostName) (enrichServer s peer) } := by
  unfold TailscaleCollector.processPeer
  simp only [hne, if_false, hs]

/-- C13 (as amended): for every case table of strings.ToLower, when the overlay collector
processes a peer whose non-empty lowercased hostname is already in Servers, it assigns to that Server the peer's first IP, the empty
string when the peer reports none, and the peer's OS, also when it is empty; Type, PublicIP,
Label, Hostname, AnsibleGroups and Services keep their values. -/
theorem processPeer_overwrites (lower : Char → Char) (tc : TailscaleCollector)
    (infra : Infrastructure) (peer : tailscalePeer) (s : Server) (hne : strToLower lower peer.HostName ≠ "")
    (hs : mapGet infra.Servers (strToLower lower peer.HostName) = some s) :
    ∃ s2 : Server,
      mapGet (tc.processPeer lower infra peer).Servers (strToLower lower peer.HostName)
        = some s2 ∧
      s2.TailscaleIP = peer.TailscaleIPs.headD "" ∧ s2.OS = peer.OS ∧
      (peer.TailscaleIPs = [] → s2.TailscaleIP = "") ∧ (peer.OS = "" → s2.OS = "") ∧
      s2.Type_ = s.Type_ ∧ s2.PublicIP = s.PublicIP ∧ s2.Label = s.Label ∧
      s2.Hostname = s.Hostname ∧ s2.AnsibleGroups = s.AnsibleGroups ∧
      s2.Services = s.Services := by
  rw [processPeer_existing tc infra peer s hne hs]
  refine ⟨_, mapGet_mapSet_same _ _ _, firstIP_eq peer, rfl, ?_, ?_, rfl, rfl, rfl, rfl, rfl,
    rfl⟩
  · intro h
    show firstIP peer = ""
    rw [firstIP_eq, h]
    rfl
  · intro h
    exact h

/-- C13 (witness): a peer with a new address and OS for the enriched Server gateway. -/
theorem processPeer_overwrites_witness :
    ∃ s2 : Server,
      mapGet (({} : TailscaleCollector).processPeer lowerRune enrichedInfra
        { HostName := "Gateway", OS := "freebsd", TailscaleIPs := ["100.64.0.3"] }).Servers
        "gateway" = some s2 ∧
      s2.TailscaleIP = "100.64.0.3" ∧ s2.OS = "freebsd" ∧ s2.PublicIP = "203.0.113.10" := by
  obtain ⟨s2, h1, h2, h3, _, _, _, h4, _⟩ :=
    processPeer_overwrites lowerRune {} enrichedInfra
      { HostName := "Gateway", OS := "freebsd", TailscaleIPs := ["100.64.0.3"] }
      enrichedServer (by decide) (by decide)
  exact ⟨s2, h1, h2, h3, h4⟩

/-- C13 (counterexample): the Server gateway holds the overlay IP 100.64.0.2 and the OS
linux; a peer named gateway that reports no address and an empty OS is processed; the
Server's overlay IP and OS are then empty. -/
theorem processPeer_clears_ip_and_os :
    mapGet enrichedInfra.Servers "gateway" = some enrichedServer ∧
    enrichedServer.TailscaleIP = "100.64.0.2" ∧ enrichedServer.OS = "linux" ∧
    silentPeer.TailscaleIPs = [] ∧ silentPeer.OS = "" ∧
    strToLower lowerRune silentPeer.HostName = "gateway" ∧
    mapGet (({} : TailscaleCollector).processPeer lowerRune enrichedInfra silentPeer).Servers
        "gateway"
      = some { enrichedServer with TailscaleIP := "", OS := "", Online := true } := by
  decide

/-- C20: for every case table of strings.ToLower and a peer with a non-empty HostName
whose lowercased hostname h is not a key of Servers: if some tag contains server, processPeer appends to Servers the entry h with a lab
Server carrying h, the peer's first IP, OS and online flag, and leaves Devices as they are;
otherwise it stores under h a Device carrying the peer's OS, first IP, online flag and tags,
touches no other Device and leaves Servers as they are. -/
theorem processPeer_new_host (lower : Char → Char) (tc : TailscaleCollector)
    (infra : Infrastructure) (peer : tailscalePeer) (hne : peer.HostName ≠ "")
    (hnew : mapGet infra.Servers (strToLower lower peer.HostName) = none) :
    ((∃ tag ∈ peer.Tags, "server".data <:+: tag.data) →
      (tc.processPeer lower infra peer).Servers
        = infra.Servers ++ [(strToLower lower peer.HostName,
            { Hostname := strToLower lower peer.HostName, Label := strToLower lower peer.HostName,
              TailscaleIP := peer.TailscaleIPs.headD "", OS := peer.OS,
              Online := peer.Online, Type_ := ServerTypeLab })] ∧
      (tc.processPeer lower infra peer).Devices = infra.Devices) ∧
    ((¬ ∃ tag ∈ peer.Tags, "server".data <:+: tag.data) →
      mapGet (tc.processPeer lower infra peer).Devices (strToLower lower peer.HostName)
        = some { Hostname := strToLower lower peer.HostName, OS := peer.OS,
                 TailscaleIP := peer.TailscaleIPs.headD "", Online := peer.Online,
                 Tags := peer.Tags } ∧
      (∀ k, k ≠ strToLower lower peer.HostName →
        mapGet (tc.processPeer lower infra peer).Devices k = mapGet infra.Devices k) ∧
      (mapGet infra.Devices (strToLower lower peer.HostName) = none →
        mapKeys (tc.processPeer lower infra peer).Devices
          = mapKeys infra.Devices ++ [strToLower lower peer.HostName]) ∧
      (tc.processPeer lower infra peer).Servers = infra.Servers) := by
  have hlow : strToLower lower peer.HostName ≠ "" := fun h => hne ((strToLower_eq_empty _ _).1 h)
  have htags : (peer.Tags.any (fun tag => strContains tag "server") = true)
      ↔ ∃ tag ∈ peer.Tags, "server".data <:+: tag.data := by
    rw [List.any_eq_true]
    constructor
    · rintro ⟨tag, hm, hc⟩
      exact ⟨tag, hm, (strContains_iff _ _).1 hc⟩
    · rintro ⟨tag, hm, hc⟩
      exact ⟨tag, hm, (strContains_iff _ _).2 hc⟩
  constructor
  · intro h
    have hany := htags.2 h
    unfold TailscaleCollector.processPeer
    simp only [hlow, if_false, hnew, hany, if_true, firstIP_eq]
    exact ⟨mapSet_of_get_none _ _ _ hnew, trivial⟩
  · intro h
    have hany : peer.Tags.any (fun tag => strContains tag "server") = false := by
      cases hb : peer.Tags.any (fun tag => strContains tag "server")
      · rfl
      · exact absurd (htags.1 hb) h
    have hframe := fun k hk => (@processPeer_frame lower tc infra peer k hk).2
    unfold TailscaleCollector.processPeer at hframe ⊢
    simp only [hlow, if_false, hnew, hany, firstIP_eq, Bool.false_eq_true] at hframe ⊢
    refine ⟨mapGet_mapSet_same _ _ _, hframe, ?_, trivial⟩
    intro hd
    rw [mapSet_of_get_none _ _ _ hd]
    simp [mapKeys]

/-- C20 (witness): the tagged peer gateway and the untagged offline laptop, each processed
into an empty Model. -/
theorem processPeer_new_host_witness :
    (({} : TailscaleCollector).processPeer lowerRune NewInfrastructure gatewayPeer).Servers
      = [("gateway", { Hostname := "gateway", Label := "gateway", TailscaleIP := "100.64.0.2",
                        OS := "linux", Online := true, Type_ := ServerTypeLab })] ∧
    mapGet (({} : TailscaleCollector).processPeer lowerRune NewInfrastructure laptopPeer).Devices
      "offline-laptop"
      = some { Hostname := "offline-laptop", OS := "macOS", TailscaleIP := "100.64.0.7",
               Online := false, Tags := [] } :=
  ⟨((processPeer_new_host lowerRune {} NewInfrastructure gatewayPeer (by decide) (by decide)).1
      ⟨"tag:server", by decide, by decide⟩).1,
   ((processPeer_new_host lowerRune {} NewInfrastructure laptopPeer (by decide) (by decide)).2
      (by decide)).1⟩

/-! ## C14: classifications under the hypervisor collector -/

theorem pveNodeStep_get (infra : Infrastructure) (node : pveNode) (k : String) (s : Server)
    (hs : mapGet infra.Servers k = some s) :
    ∃ s2 : Server, mapGet (pveNodeStep infra node).Servers k = some s2 ∧
      s2.Type_ = (if k = node.Node then ServerTypeHypervisor else s.Type_) := by
  unfold pveNodeStep
  by_cases hk : k = node.Node
  · subst hk
    simp only [hs, if_true]
    exact ⟨_, mapGet_mapSet_same _ _ _, rfl⟩
  · simp only [hk, if_false]
    cases hn : mapGet infra.Servers node.Node with
    | none =>
      simp only
      rw [mapGet_mapSet_other _ _ _ _ hk]
      exact ⟨s, hs, rfl⟩
    | some old =>
      simp only
      rw [mapGet_mapSet_other _ _ _ _ hk]
      exact ⟨s, hs, rfl⟩

theorem pveResourceStep_get (infra : Infrastructure) (res : pveResource) (k : String)
    (s : Server) (hs : mapGet infra.Servers k = some s) :
    ∃ s2 : Server, mapGet (pveResourceStep infra res).Servers k = some s2 ∧
      s2.Type_ = s.Type_ := by
  unfold pveResourceStep
  split
  · exact ⟨s, hs, rfl⟩
  · cases hn : mapGet infra.Servers res.Node with
    | none => exact ⟨s, hs, rfl⟩
    | some old =>
      simp only
      by_cases hk : k = res.Node
      · subst hk
        rw [hs] at hn
        cases hn
        exact ⟨_, mapGet_mapSet_same _ _ _, rfl⟩
      · rw [mapGet_mapSet_other _ _ _ _ hk]
        exact ⟨s, hs, rfl⟩

theorem pveNodes_get (nodes : List pveNode) (infra : Infrastructure) (k : String) (s : Server)
    (hs : mapGet infra.Servers k = some s) :
    ∃ s2 : Server, mapGet (nodes.foldl pveNodeStep infra).Servers k = some s2 ∧
      s2.Type_ = (if k ∈ nodes.map (fun n => n.Node) then ServerTypeHypervisor
                  else s.Type_) := by
  induction nodes generalizing infra s with
  | nil => exact ⟨s, hs, by simp⟩
  | cons node rest ih =>
    obtain ⟨s1, h1, t1⟩ := pveNodeStep_get infra node k s hs
    obtain ⟨s2, h2, t2⟩ := ih (pveNodeStep infra node) s1 h1
    refine ⟨s2, h2, ?_⟩
    rw [t2, t1]
    by_cases hk : k = node.Node
    · simp [hk]
    · by_cases hr : k ∈ rest.map (fun n => n.Node)
      · simp [hr]
      · simp [hk, hr]

theorem pveResources_get (resources : List pveResource) (infra : Infrastructure) (k : String)
    (s : Server) (hs : mapGet infra.Servers k = some s) :
    ∃ s2 : Server, mapGet (resources.foldl pveResourceStep infra).Servers k = some s2 ∧
      s2.Type_ = s.Type_ := by
  induction resources generalizing infra s with
  | nil => exact ⟨s, hs, rfl⟩
  | cons res rest ih =>
    obtain ⟨s1, h1, t1⟩ := pveResourceStep_get infra res k s hs
    obtain ⟨s2, h2, t2⟩ := ih (pveResourceStep infra res) s1 h1
    exact ⟨s2, h2, t2.trans t1⟩

/-- C14 (as amended): a Server that existed under key k before the hypervisor collector's
Collect still exists after it; it has the same Type when k is not the name of a reported
node, and the Type hypervisor when k is the name of a reported node. -/
theorem ProxmoxCollector_Collect_types (pc : ProxmoxCollector) (infra : Infrastructure)
    (nodes : List pveNode) (resources : List pveResource) (k : String) (s : Server)
    (hs : mapGet infra.Servers k = some s) :
    ∃ s2 : Server, mapGet (pc.Collect infra nodes resources).Servers k = some s2 ∧
      (k ∉ nodes.map (fun n => n.Node) → s2.Type_ = s.Type_) ∧
      (k ∈ nodes.map (fun n => n.Node) → s2.Type_ = ServerTypeHypervisor) := by
  obtain ⟨s1, h1, t1⟩ := pveNodes_get nodes infra k s hs
  obtain ⟨s2, h2, t2⟩ := pveResources_get resources _ k s1 h1
  refine ⟨s2, h2, ?_, ?_⟩
  · intro hk
    rw [t2, t1, if_neg hk]
  · intro hk
    rw [t2, t1, if_pos hk]

/-- C14 (witness): the production Server gateway keeps its Type when the node list names
pve1 only. -/
theorem ProxmoxCollector_Collect_types_witness :
    ∃ s2 : Server,
      mapGet (({} : ProxmoxCollector).Collect gatewayInfra
        [{ Node := "pve1", Status := "online" }]
        [{ Name := "pihole", Type_ := "lxc", Node := "pve1", Status := "running" }]).Servers
        "gateway" = some s2 ∧
      s2.Type_ = ServerTypeProduction := by
  obtain ⟨s2, h1, h2, _⟩ := ProxmoxCollector_Collect_types {} gatewayInfra
    [{ Node := "pve1", Status := "online" }]
    [{ Name := "pihole", Type_ := "lxc", Node := "pve1", Status := "running" }]
    "gateway" gatewayServer (by decide)
  exact ⟨s2, h1, h2 (by decide)⟩

/-- C14 (counterexample): the Model holds the production Server gateway and the node list
names a node gateway: after Collect the Server gateway has the Type hypervisor. -/
theorem ProxmoxCollector_Collect_reclassifies :
    mapGet gatewayInfra.Servers "gateway" = some gatewayServer ∧
    gatewayServer.Type_ = ServerTypeProduction ∧
    mapGet (({} : ProxmoxCollector).Collect gatewayInfra
      [{ Node := "gateway", Status := "online" }] []).Servers "gateway"
      = some { gatewayServer with Type_ := ServerTypeHypervisor } ∧
    ServerTypeHypervisor ≠ ServerTypeProduction := by
  decide

/-! ## C15: normalized keys -/

theorem lowerRune_idem (c : Char) : lowerRune (lowerRune c) = lowerRune c := by
  have hnu := lowerRune_not_upper c
  by_cases h1 : 'A' ≤ c ∧ c ≤ 'Z'
  · have e1 : ('A' : Char).toNat = 65 := by decide
    have e2 : ('Z' : Char).toNat = 90 := by decide
    obtain ⟨ha, hz⟩ := h1
    rw [char_le_iff, e1] at ha
    rw [char_le_iff, e2] at hz
    generalize hn : c.toNat = n at ha hz
    have hc : c = Char.ofNat n := by
      rw [← hn]
      exact (Char.ofNat_toNat c).symm
    subst hc
    interval_cases n <;> decide
  · by_cases h2 : c = Char.ofNat 0x130
    · subst h2
      decide
    · by_cases h3 : c = Char.ofNat 0x212A
      · subst h3
        decide
      · have hc : lowerRune c = c := by
          unfold lowerRune
          simp only [h1, h2, h3, if_false]
        rw [hc, hc]

theorem goToLower_idem (s : String) : goToLower (goToLower s) = goToLower s := by
  unfold goToLower
  simp only [List.map_map]
  congr 1
  apply List.map_congr_left
  intro c _
  exact lowerRune_idem c

theorem mem_mapSet {α : Type} (m : List (String × α)) (k : String) (v : α)
    (e : String × α) (h : e ∈ mapSet m k v) : e ∈ m ∨ e = (k, v) := by
  induction m with
  | nil =>
    simp only [mapSet, List.mem_singleton] at h
    exact Or.inr h
  | cons x rest ih =>
    obtain ⟨k', v'⟩ := x
    by_cases hk : k' = k
    · simp only [mapSet, hk, if_true, List.mem_cons] at h
      rcases h with h | h
      · exact Or.inr h
      · exact Or.inl (List.mem_cons_of_mem _ h)
    · simp only [mapSet, hk, if_false, List.mem_cons] at h
      rcases h with h | h
      · exact Or.inl (by rw [h]; exact List.mem_cons_self _ _)
      · rcases ih h with h2 | h2
        · exact Or.inl (List.mem_cons_of_mem _ h2)
        · exact Or.inr h2

theorem mapGet_mem {α : Type} (m : List (String × α)) (k : String) (v : α)
    (h : mapGet m k = some v) : (k, v) ∈ m := by
  induction m with
  | nil => simp [mapGet] at h
  | cons x rest ih =>
    obtain ⟨k', v'⟩ := x
    by_cases hk : k' = k
    · simp only [mapGet, hk, if_true, Option.some.injEq] at h
      rw [hk, h]
      exact List.mem_cons_self _ _
    · simp only [mapGet, hk, if_false] at h
      exact List.mem_cons_of_mem _ (ih h)

/-- The overlay collector keeps the keys normalized, for a case table whose values are
lower case. -/
theorem processPeer_keysNormalized (lower : Char → Char)
    (hlower : ∀ c, lowerRune (lower c) = lower c) (tc : TailscaleCollector)
    (infra : Infrastructure) (peer : tailscalePeer) (h : keysNormalized infra) :
    keysNormalized (tc.processPeer lower infra peer) := by
  obtain ⟨hS, hD⟩ := h
  have hidem : goToLower (strToLower lower peer.HostName) = strToLower lower peer.HostName := by
    unfold goToLower strToLower
    simp only [List.map_map]
    congr 1
    apply List.map_congr_left
    intro c _
    exact hlower c
  unfold TailscaleCollector.processPeer
  simp only
  split
  · exact ⟨hS, hD⟩
  · split
    · rename_i server hget
      refine ⟨?_, hD⟩
      intro e he
      rcases mem_mapSet _ _ _ _ he with h1 | h1
      · exact hS e h1
      · subst h1
        exact ⟨hidem.symm, (hS _ (mapGet_mem _ _ _ hget)).2⟩
    · split
      · refine ⟨?_, hD⟩
        intro e he
        rcases mem_mapSet _ _ _ _ he with h1 | h1
        · exact hS e h1
        · subst h1
          exact ⟨hidem.symm, rfl⟩
      · refine ⟨hS, ?_⟩
        intro e he
        rcases mem_mapSet _ _ _ _ he with h1 | h1
        · exact hD e h1
        · subst h1
          exact ⟨hidem.symm, rfl⟩

/-- The compose collector and the service-manager collector keep the keys normalized when
the configured name is in lower case. -/
theorem ensureServer_keysNormalized (infra : Infrastructure) (name : String)
    (srv : systemdServer) (h : keysNormalized infra) :
    (name = goToLower name → keysNormalized (ensureServer infra name)) ∧
    (srv.Host = goToLower srv.Host → keysNormalized (systemdEnsureServer infra srv)) := by
  obtain ⟨hS, hD⟩ := h
  constructor
  · intro hl
    unfold ensureServer
    split
    · exact ⟨hS, hD⟩
    · split
      · exact ⟨hS, hD⟩
      · refine ⟨?_, hD⟩
        intro e he
        rcases mem_mapSet _ _ _ _ he with h1 | h1
        · exact hS e h1
        · subst h1
          exact ⟨hl, rfl⟩
  · intro hl
    unfold systemdEnsureServer
    split
    · exact ⟨hS, hD⟩
    · refine ⟨?_, hD⟩
      intro e he
      rcases mem_mapSet _ _ _ _ he with h1 | h1
      · exact hS e h1
      · subst h1
        exact ⟨hl, rfl⟩

/-- C15 (the code at the failing input): the empty Model has normalized keys; after
ensureServer for the configured name Gateway, and after the service-manager collector's
server creation for the configured host Gateway, the key Gateway is not lowercase, so the
keys are not normalized; and the overlay peer Gateway, processed next, is stored as a
separate Device under gateway instead of enriching that Server. -/
theorem ensureServer_breaks_keysNormalized :
    keysNormalized NewInfrastructure ∧
    mapKeys (ensureServer NewInfrastructure "Gateway").Servers = ["Gateway"] ∧
    ¬ keysNormalized (ensureServer NewInfrastructure "Gateway") ∧
    mapKeys (systemdEnsureServer NewInfrastructure { Host := "Gateway" }).Servers
      = ["Gateway"] ∧
    ¬ keysNormalized (systemdEnsureServer NewInfrastructure { Host := "Gateway" }) ∧
    mapKeys (({} : TailscaleCollector).processPeer lowerRune
      (ensureServer NewInfrastructure "Gateway")
      { HostName := "Gateway", OS := "linux", Online := true }).Servers = ["Gateway"] ∧
    mapKeys (({} : TailscaleCollector).processPeer lowerRune
      (ensureServer NewInfrastructure "Gateway")
      { HostName := "Gateway", OS := "linux", Online := true }).Devices = ["gateway"] := by
  unfold keysNormalized
  decide

/-! ## C11, C12: the groups Merge builds -/

theorem mapGet_of_not_mem_keys {α : Type} (m : List (String × α)) (k : String)
    (h : k ∉ mapKeys m) : mapGet m k = none := by
  induction m with
  | nil => rfl
  | cons x rest ih =>
    obtain ⟨k', v'⟩ := x
    simp only [mapKeys, List.map_cons, List.mem_cons, not_or] at h
    simp only [mapGet, Ne.symm h.1, if_false]
    exact ih h.2

theorem mapKeys_mapSet_same {α : Type} (m : List (String × α)) (k : String) (v x : α)
    (h : mapGet m k = some x) : mapKeys (mapSet m k v) = mapKeys m :=
  mapKeys_mapSet_of_get m k v x h

theorem groupStep_get (groups : List (ServerType × ServerGroup)) (e : String × Server)
    (c : ServerType) :
    mapGet (groupStep groups e) c
      = (mapGet groups c).map (fun g =>
          if e.2.Type_ = c then { g with Servers := g.Servers ++ [e.1] } else g) ∧
    mapKeys (groupStep groups e) = mapKeys groups := by
  unfold groupStep
  cases hg : mapGet groups e.2.Type_ with
  | none =>
    refine ⟨?_, rfl⟩
    by_cases hc : e.2.Type_ = c
    · rw [← hc, hg]
      rfl
    · cases mapGet groups c <;> simp [hc]
  | some g =>
    refine ⟨?_, mapKeys_mapSet_of_get _ _ _ g hg⟩
    by_cases hc : e.2.Type_ = c
    · show mapGet (mapSet groups e.2.Type_ _) c = _
      rw [← hc, mapGet_mapSet_same, hg]
      simp
    · show mapGet (mapSet groups e.2.Type_ _) c = _
      rw [mapGet_mapSet_other _ _ _ _ (Ne.symm hc)]
      cases mapGet groups c <;> simp [hc]

/-- The first loop of buildTypeGroups: every group of the literal receives, in the order of
the visit, the keys of the Servers whose Type is its key; no key of the literal is added or
removed. -/
theorem groupFold_get (servers : List (String × Server))
    (groups : List (ServerType × ServerGroup)) (c : ServerType) :
    mapGet (servers.foldl groupStep groups) c
      = (mapGet groups c).map (fun g =>
          { g with Servers := g.Servers
              ++ (servers.filter (fun e => decide (e.2.Type_ = c))).map Prod.fst }) ∧
    mapKeys (servers.foldl groupStep groups) = mapKeys groups := by
  induction servers generalizing groups with
  | nil =>
    refine ⟨?_, rfl⟩
    show mapGet groups c = _
    cases mapGet groups c with
    | none => rfl
    | some g =>
      simp only [Option.map_some', List.filter_nil, List.map_nil, List.append_nil]
  | cons e rest ih =>
    obtain ⟨ih1, ih2⟩ := ih (groupStep groups e)
    obtain ⟨st1, st2⟩ := groupStep_get groups e c
    rw [List.foldl_cons, ih1, ih2, st1, st2]
    refine ⟨?_, rfl⟩
    cases mapGet groups c with
    | none => rfl
    | some g =>
      by_cases hc : e.2.Type_ = c
      · simp [List.filter_cons, hc]
      · simp [List.filter_cons, hc]

/-- The second loop of buildTypeGroups: under a key of the groups whose group has members
the group is stored; every other key of ServerGroups keeps its entry. -/
theorem storeFold_get (gl : List (ServerType × ServerGroup))
    (sgs : List (String × ServerGroup)) (k : String) (hnd : (mapKeys gl).Nodup) :
    mapGet (gl.foldl storeStep sgs) k
      = match mapGet gl k with
        | some g => if g.Servers.length > 0 then some g else mapGet sgs k
        | none => mapGet sgs k := by
  induction gl generalizing sgs with
  | nil => rfl
  | cons x rest ih =>
    obtain ⟨k', g'⟩ := x
    simp only [mapKeys, List.map_cons, List.nodup_cons] at hnd
    rw [List.foldl_cons, ih _ hnd.2]
    by_cases hk : k' = k
    · subst hk
      rw [mapGet_of_not_mem_keys rest k' hnd.1]
      simp only [mapGet, if_true]
      unfold storeStep
      by_cases hlen : g'.Servers.length > 0
      · simp only [hlen, if_true, mapGet_mapSet_same]
      · simp only [hlen, if_false]
    · simp only [mapGet, hk, if_false]
      have hsame : mapGet (storeStep sgs (k', g')) k = mapGet sgs k := by
        unfold storeStep
        split
        · exact mapGet_mapSet_other _ _ _ _ (Ne.symm hk)
        · rfl
      rw [hsame]

theorem members_map (f : String × Server → String × Server)
    (hf : ∀ e, (f e).1 = e.1 ∧ (f e).2.Type_ = e.2.Type_) (c : ServerType)
    (l : List (String × Server)) :
    ((l.map f).filter (fun e => decide (e.2.Type_ = c))).map Prod.fst
      = (l.filter (fun e => decide (e.2.Type_ = c))).map Prod.fst := by
  induction l with
  | nil => rfl
  | cons e rest ih =>
    by_cases hc : e.2.Type_ = c
    · simp [List.filter_cons, hc, (hf e).1, (hf e).2, ih]
    · simp [List.filter_cons, hc, (hf e).2, ih]

theorem categorizeServices_members (visit : List (String × String)) (infra : Infrastructure)
    (c : ServerType) :
    ((categorizeServices visit infra).Servers.filter (fun e => decide (e.2.Type_ = c))).map
        Prod.fst
      = (infra.Servers.filter (fun e => decide (e.2.Type_ = c))).map Prod.fst ∧
    (categorizeServices visit infra).ServerGroups = infra.ServerGroups := by
  refine ⟨?_, rfl⟩
  unfold categorizeServices
  simp only
  apply members_map
  intro e
  exact ⟨rfl, rfl⟩

/-- What Merge leaves under a key of ServerGroups. -/
theorem Merge_get (visit : List (String × String)) (infra : Infrastructure) (k : String) :
    mapGet (Merge visit infra).ServerGroups k
      = match mapGet typeGroups k with
        | some g =>
          if (infra.Servers.filter (fun e => decide (e.2.Type_ = k))).map Prod.fst ≠ [] then
            some { g with
              Servers := (infra.Servers.filter (fun e => decide (e.2.Type_ = k))).map Prod.fst }
          else mapGet infra.ServerGroups k
        | none => mapGet infra.ServerGroups k := by
  have hnd : (mapKeys typeGroups).Nodup := by decide
  obtain ⟨hmem, hsg⟩ := categorizeServices_members visit infra k
  obtain ⟨hget, hkeys⟩ := groupFold_get (categorizeServices visit infra).Servers typeGroups k
  unfold Merge buildTypeGroups
  simp only
  rw [storeFold_get _ _ _ (by rw [hkeys]; exact hnd), hget, hmem, hsg]
  cases hg : mapGet typeGroups k with
  | none => rfl
  | some g =>
    have hempty : g.Servers = [] := by
      have hall : ∀ e ∈ typeGroups, e.2.Servers = [] := by decide
      exact hall _ (mapGet_mem _ _ _ hg)
    simp only [Option.map_some', hempty, List.nil_append]
    by_cases hl : (infra.Servers.filter (fun e => decide (e.2.Type_ = k))).map Prod.fst = []
    · simp [hl]
    · have hpos : ((infra.Servers.filter (fun e => decide (e.2.Type_ = k))).map
          Prod.fst).length > 0 := List.length_pos.2 hl
      simp only [hpos, if_true, ne_eq, hl, not_false_eq_true]

theorem members_ne_nil (servers : List (String × Server)) (c : ServerType) :
    (servers.filter (fun e => decide (e.2.Type_ = c))).map Prod.fst ≠ []
      ↔ ∃ e ∈ servers, e.2.Type_ = c := by
  rw [Ne, List.map_eq_nil_iff, List.filter_eq_nil_iff]
  simp only [decide_eq_true_eq, not_forall, not_not]
  constructor
  · rintro ⟨e, he, ht⟩
    exact ⟨e, he, ht⟩
  · rintro ⟨e, he, ht⟩
    exact ⟨e, he, ht⟩

/-- C12 (as amended): a ServerGroup stored under key k before Merge is the same after Merge
when k is not a classification value or no Server has the Type k; when k is a classification
value and some Server has that Type, Merge replaces it by the synthesized group. -/
theorem Merge_keeps_groups (visit : List (String × String)) (infra : Infrastructure)
    (k : String) (g : ServerGroup) (hg : mapGet infra.ServerGroups k = some g) :
    ((k ∉ mapKeys typeGroups ∨ ∀ e ∈ infra.Servers, e.2.Type_ ≠ k) →
      mapGet (Merge visit infra).ServerGroups k = some g) ∧
    (∀ sg : ServerGroup, (k, sg) ∈ typeGroups → (∃ e ∈ infra.Servers, e.2.Type_ = k) →
      mapGet (Merge visit infra).ServerGroups k
        = some { Name := sg.Name, Label := sg.Label,
                 Servers := (infra.Servers.filter (fun e => decide (e.2.Type_ = k))).map
                   Prod.fst }) := by
  constructor
  · intro h
    rw [Merge_get]
    rcases h with h | h
    · rw [mapGet_of_not_mem_keys _ _ h]
      exact hg
    · have hno : ¬ ∃ e ∈ infra.Servers, e.2.Type_ = k := by
        rintro ⟨e, he, ht⟩
        exact h e he ht
      cases mapGet typeGroups k with
      | none => exact hg
      | some sg =>
        simp only
        rw [if_neg (fun hne => hno ((members_ne_nil _ _).1 hne))]
        exact hg
  · intro sg hsg hex
    rw [Merge_get, mapGet_of_mem typeGroups k sg (by decide) hsg]
    simp only
    rw [if_pos ((members_ne_nil _ _).2 hex)]

/-- C12 (witness): the inventory group tailnet is kept. -/
theorem Merge_keeps_groups_witness :
    mapGet (Merge categoryPatterns inventoryInfra).ServerGroups "tailnet"
      = some { Name := "tailnet", Label := "tailnet", Servers := ["gw", "db1"] } :=
  (Merge_keeps_groups categoryPatterns inventoryInfra "tailnet"
    { Name := "tailnet", Label := "tailnet", Servers := ["gw", "db1"] } (by decide)).1
    (Or.inl (by decide))

/-- C12 (counterexample): the inventory has a group named production with the hosts gw and
db1, and the Server gw is classified production: after Merge the entry under production is
the synthesized group, with another label and without db1. -/
theorem Merge_replaces_inventory_group :
    mapGet inventoryInfra.ServerGroups "production"
      = some { Name := "production", Label := "production", Servers := ["gw", "db1"] } ∧
    mapGet (Merge categoryPatterns inventoryInfra).ServerGroups "production"
      = some { Name := "production", Label := "Production", Servers := ["gw"] } := by
  decide

/-! ## C16: the pipeline -/

/-- A collector that does not fail, in front of a run of the rest of the loop. -/
theorem LoopOutcome_cons (visit : List (String × String))
    (rawSources : List (String × ConfigValue)) (c : RegisteredCollector)
    (rest : List RegisteredCollector) (i : Nat) (results : List CollectResult)
    (calls mine : List Call) (out : CollectOutcome)
    (hmine : ∀ call ∈ mine, call.onCollector i)
    (hconf : c.Enabled rawSources = true →
      c.Configure (sectionOf rawSources c.Metadata.ConfigKey) = none)
    (h : LoopOutcome visit rawSources rest (i + 1) (results ++ [okResult rawSources c])
      (calls ++ mine) out) :
    LoopOutcome visit rawSources (c :: rest) i results calls out := by
  rcases h with ⟨h1, h2, h3, added, h4, h5⟩ |
    ⟨pre, ck, post, err, h1, h2, h3, h4, h5, h6, h7, added, h8, h9, h10⟩
  · left
    refine ⟨h1, h2, ?_, mine ++ added, ?_, ?_⟩
    · rw [h3]
      simp
    · rw [h4]
      simp
    · intro call hc
      rcases List.mem_append.1 hc with hc | hc
      · exact ⟨i, le_refl _, by simp, hmine call hc⟩
      · obtain ⟨j, hj1, hj2, hj3⟩ := h5 call hc
        exact ⟨j, by omega, by simp only [List.length_cons]; omega, hj3⟩
  · right
    refine ⟨c :: pre, ck, post, err, by rw [h1]; rfl, h2, h3, ?_, h5, h6, ?_,
      mine ++ added, ?_, ?_, ?_⟩
    · intro x hx
      rcases List.mem_cons.1 hx with hx | hx
      · subst hx
        exact hconf
      · exact h4 x hx
    · rw [h7]
      simp
    · rw [h8]
      simp
    · intro hm
      rcases List.mem_append.1 hm with hm | hm
      · rcases hmine _ hm with h | h <;> cases h
      · exact h9 hm
    · intro call hc
      rcases List.mem_append.1 hc with hc | hc
      · exact ⟨i, le_refl _, by omega, hmine call hc⟩
      · obtain ⟨j, hj1, hj2, hj3⟩ := h10 call hc
        exact ⟨j, by omega, by simp only [List.length_cons]; omega, hj3⟩

theorem collectFrom_spec (visit : List (String × String))
    (rawSources : List (String × ConfigValue)) (cs : List RegisteredCollector) (i : Nat)
    (infra : Infrastructure) (results : List CollectResult) (calls : List Call) :
    LoopOutcome visit rawSources cs i results calls
      (collectFrom visit rawSources cs i infra results calls) := by
  induction cs generalizing i infra results calls with
  | nil =>
    left
    refine ⟨rfl, ⟨infra, rfl⟩, by simp [collectFrom], [], by simp [collectFrom], ?_⟩
    intro call hc
    simp at hc
  | cons c rest ih =>
    cases hen : c.Enabled rawSources with
    | false =>
      have heq : collectFrom visit rawSources (c :: rest) i infra results calls
          = collectFrom visit rawSources rest (i + 1) infra
              (results ++ [okResult rawSources c]) (calls ++ []) := by
        simp [collectFrom, hen, okResult]
      rw [heq]
      exact LoopOutcome_cons visit rawSources c rest i results calls [] _ (by simp)
        (by simp [hen]) (ih _ _ _ _)
    | true =>
      cases hcf : c.Configure (sectionOf rawSources c.Metadata.ConfigKey) with
      | some err =>
        right
        refine ⟨[], c, rest, err, rfl, hen, Or.inl hcf, by simp, ?_, ?_, ?_,
          [Call.configure i], ?_, by simp, ?_⟩
        · simp [collectFrom, hen, hcf]
        · simp [collectFrom, hen, hcf]
        · simp [collectFrom, hen, hcf, failResult]
        · simp [collectFrom, hen, hcf]
        · intro call hc
          simp only [List.mem_singleton] at hc
          exact ⟨i, le_refl _, by simp, Or.inl hc⟩
      | none =>
        cases hco : c.Collect (sectionOf rawSources c.Metadata.ConfigKey) infra with
        | mk infra2 oerr =>
          cases oerr with
          | some err =>
            right
            refine ⟨[], c, rest, err, rfl, hen, Or.inr ⟨hcf, infra, by rw [hco]⟩, by simp,
              ?_, ?_, ?_, [Call.configure i, Call.collect i], ?_, by simp, ?_⟩
            · simp [collectFrom, hen, hcf, hco]
            · simp [collectFrom, hen, hcf, hco]
            · simp [collectFrom, hen, hcf, hco, failResult]
            · simp [collectFrom, hen, hcf, hco]
            · intro call hc
              simp only [List.mem_cons, List.mem_singleton, List.not_mem_nil, or_false] at hc
              exact ⟨i, le_refl _, by simp, hc⟩
          | none =>
            have heq : collectFrom visit rawSources (c :: rest) i infra results calls
                = collectFrom visit rawSources rest (i + 1) infra2
                    (results ++ [okResult rawSources c])
                    (calls ++ [Call.configure i, Call.collect i]) := by
              simp [collectFrom, hen, hcf, hco, okResult]
            rw [heq]
            refine LoopOutcome_cons visit rawSources c rest i results calls
              [Call.configure i, Call.collect i] _ ?_ (fun _ => hcf) (ih _ _ _ _)
            intro call hc
            simp only [List.mem_cons, List.mem_singleton, List.not_mem_nil, or_false] at hc
            exact hc

/-- Read from the outcome, a run of Collect over the registered collectors ends in one of
two ways.  Without error: the Model is the result of Merge, and the result list has one
entry per collector, in registration order, skipped for a collector that is not enabled and
without error otherwise.
With an error: the error is the CollectorError of an enabled collector ck, carrying its
display name and wrapping the error its Configure or Collect returned; no Model is returned;
the result list has one entry without error for each collector before ck, in registration
order, followed by the entry of ck with the error; every call made is a Configure or Collect
on ck or on a collector before it, and Merge is not called. -/
theorem Collect_error_source (visit : List (String × String)) (all : List RegisteredCollector)
    (rawSources : List (String × ConfigValue)) :
    ((Collect visit all rawSources).err = none →
      (∃ final, (Collect visit all rawSources).infra = some (Merge visit final)) ∧
      (Collect visit all rawSources).results = all.map (okResult rawSources) ∧
      (Collect visit all rawSources).results.length = all.length) ∧
    (∀ cerr : CollectorError, (Collect visit all rawSources).err = some cerr →
      ∃ (pre : List RegisteredCollector) (ck : RegisteredCollector)
          (post : List RegisteredCollector),
        all = pre ++ ck :: post ∧ ck.Enabled rawSources = true ∧
        cerr.Collector = ck.Metadata.DisplayName ∧
        (ck.Configure (sectionOf rawSources ck.Metadata.ConfigKey) = some cerr.Unwrap ∨
          (ck.Configure (sectionOf rawSources ck.Metadata.ConfigKey) = none ∧
            ∃ infra0, (ck.Collect (sectionOf rawSources ck.Metadata.ConfigKey) infra0).2
              = some cerr.Unwrap)) ∧
        (∀ c ∈ pre, c.Enabled rawSources = true →
          c.Configure (sectionOf rawSources c.Metadata.ConfigKey) = none) ∧
        (Collect visit all rawSources).infra = none ∧
        (Collect visit all rawSources).results
          = pre.map (okResult rawSources)
            ++ [{ Name := ck.Metadata.DisplayName, Err := some cerr }] ∧
        (Collect visit all rawSources).results.length = pre.length + 1 ∧
        Call.merge ∉ (Collect visit all rawSources).calls ∧
        ∀ call ∈ (Collect visit all rawSources).calls,
          ∃ j, j ≤ pre.length ∧ (call = Call.configure j ∨ call = Call.collect j)) := by
  have h := collectFrom_spec visit rawSources all 0 NewInfrastructure [] []
  unfold Collect
  generalize collectFrom visit rawSources all 0 NewInfrastructure [] [] = out at h
  rcases h with ⟨h1, h2, h3, _⟩ |
    ⟨pre, ck, post, err, h1, h2, h3, h4, h5, h6, h7, added, h8, h9, h10⟩
  · constructor
    · intro _
      refine ⟨h2, by simpa using h3, ?_⟩
      rw [h3]
      simp
    · intro cerr hc
      rw [h1] at hc
      cases hc
  · constructor
    · intro hnone
      rw [h5] at hnone
      cases hnone
    · intro cerr hc
      rw [h5] at hc
      cases hc
      have hcalls : out.calls = added := by simpa using h8
      refine ⟨pre, ck, post, h1, h2, rfl, h3, h4, h6, by simpa [failResult] using h7, ?_, ?_, ?_⟩
      · rw [h7]
        simp
      · rw [hcalls]
        exact h9
      · intro call hcall
        rw [hcalls] at hcall
        obtain ⟨j, _, hj2, hj3⟩ := h10 call hcall
        exact ⟨j, by omega, hj3⟩

/-- The loop of Collect over collectors that do not fail, in front of the rest of the
loop. -/
theorem collectFrom_append (visit : List (String × String))
    (rawSources : List (String × ConfigValue)) (pre rest : List RegisteredCollector) (i : Nat)
    (infra mid : Infrastructure) (results : List CollectResult) (calls : List Call)
    (h : modelAfter rawSources pre infra = some mid) :
    collectFrom visit rawSources (pre ++ rest) i infra results calls
      = collectFrom visit rawSources rest (i + pre.length) mid
          (results ++ pre.map (okResult rawSources)) (calls ++ callsOf rawSources pre i) := by
  induction pre generalizing i infra results calls with
  | nil =>
    simp only [modelAfter, Option.some.injEq] at h
    subst h
    simp [callsOf]
  | cons c pre ih =>
    cases hen : c.Enabled rawSources with
    | false =>
      simp only [modelAfter, hen, if_true] at h
      have hstep : collectFrom visit rawSources (c :: (pre ++ rest)) i infra results calls
          = collectFrom visit rawSources (pre ++ rest) (i + 1) infra
              (results ++ [okResult rawSources c]) calls := by
        simp [collectFrom, hen, okResult]
      rw [List.cons_append, hstep, ih _ _ _ _ h]
      simp [callsOf, hen, Nat.add_assoc, Nat.add_comm 1]
    | true =>
      simp only [modelAfter, hen, Bool.true_eq_false, if_false] at h
      cases hcf : c.Configure (sectionOf rawSources c.Metadata.ConfigKey) with
      | some err => simp [hcf] at h
      | none =>
        cases hco : c.Collect (sectionOf rawSources c.Metadata.ConfigKey) infra with
        | mk infra2 oerr =>
          cases oerr with
          | some err => simp [hcf, hco] at h
          | none =>
            simp only [hcf, hco] at h
            have hstep : collectFrom visit rawSources (c :: (pre ++ rest)) i infra results calls
                = collectFrom visit rawSources (pre ++ rest) (i + 1) infra2
                    (results ++ [okResult rawSources c])
                    (calls ++ [Call.configure i, Call.collect i]) := by
              simp [collectFrom, hen, hcf, hco, okResult]
            rw [List.cons_append, hstep, ih _ _ _ _ h]
            simp [callsOf, hen, Nat.add_assoc, Nat.add_comm 1]

/-- A run in which some collector fails has a first failing collector. -/
theorem modelAfter_none (rawSources : List (String × ConfigValue))
    (cs : List RegisteredCollector) (infra : Infrastructure)
    (h : modelAfter rawSources cs infra = none) :
    ∃ (pre : List RegisteredCollector) (ck : RegisteredCollector)
        (post : List RegisteredCollector) (mid : Infrastructure) (err : GoError),
      cs = pre ++ ck :: post ∧ modelAfter rawSources pre infra = some mid ∧
      ck.Enabled rawSources = true ∧
      (ck.Configure (sectionOf rawSources ck.Metadata.ConfigKey) = some err ∨
        (ck.Configure (sectionOf rawSources ck.Metadata.ConfigKey) = none ∧
          (ck.Collect (sectionOf rawSources ck.Metadata.ConfigKey) mid).2 = some err)) := by
  induction cs generalizing infra with
  | nil => simp [modelAfter] at h
  | cons c rest ih =>
    cases hen : c.Enabled rawSources with
    | false =>
      simp only [modelAfter, hen, if_true] at h
      obtain ⟨pre, ck, post, mid, err, h1, h2, h3, h4⟩ := ih infra h
      refine ⟨c :: pre, ck, post, mid, err, by rw [h1]; rfl, ?_, h3, h4⟩
      simp only [modelAfter, hen, if_true]
      exact h2
    | true =>
      simp only [modelAfter, hen, Bool.true_eq_false, if_false] at h
      cases hcf : c.Configure (sectionOf rawSources c.Metadata.ConfigKey) with
      | some err =>
        exact ⟨[], c, rest, infra, err, rfl, rfl, hen, Or.inl hcf⟩
      | none =>
        cases hco : c.Collect (sectionOf rawSources c.Metadata.ConfigKey) infra with
        | mk infra2 oerr =>
          cases oerr with
          | some err =>
            exact ⟨[], c, rest, infra, err, rfl, rfl, hen, Or.inr ⟨hcf, by rw [hco]⟩⟩
          | none =>
            simp only [hcf, hco] at h
            obtain ⟨pre, ck, post, mid, err, h1, h2, h3, h4⟩ := ih infra2 h
            refine ⟨c :: pre, ck, post, mid, err, by rw [h1]; rfl, ?_, h3, h4⟩
            simp only [modelAfter, hen, Bool.true_eq_false, if_false, hcf, hco]
            exact h2

/-- What Collect returns when no collector fails, when the first failure is an error of
Configure, and when it is an error of Collect. -/
theorem Collect_outcomes (visit : List (String × String)) (all : List RegisteredCollector)
    (rawSources : List (String × ConfigValue)) :
    (∀ final, modelAfter rawSources all NewInfrastructure = some final →
      Collect visit all rawSources
        = { infra := some (Merge visit final), results := all.map (okResult rawSources),
            err := none, calls := callsOf rawSources all 0 ++ [Call.merge] }) ∧
    (∀ (pre : List RegisteredCollector) (ck : RegisteredCollector)
        (post : List RegisteredCollector) (mid : Infrastructure) (err : GoError),
      all = pre ++ ck :: post → modelAfter rawSources pre NewInfrastructure = some mid →
      ck.Enabled rawSources = true →
      ck.Configure (sectionOf rawSources ck.Metadata.ConfigKey) = some err →
      Collect visit all rawSources
        = { infra := none,
            results := pre.map (okResult rawSources) ++ [failResult ck err],
            err := some { Collector := ck.Metadata.DisplayName, Err := err },
            calls := callsOf rawSources pre 0 ++ [Call.configure pre.length] }) ∧
    (∀ (pre : List RegisteredCollector) (ck : RegisteredCollector)
        (post : List RegisteredCollector) (mid : Infrastructure) (err : GoError),
      all = pre ++ ck :: post → modelAfter rawSources pre NewInfrastructure = some mid →
      ck.Enabled rawSources = true →
      ck.Configure (sectionOf rawSources ck.Metadata.ConfigKey) = none →
      (ck.Collect (sectionOf rawSources ck.Metadata.ConfigKey) mid).2 = some err →
      Collect visit all rawSources
        = { infra := none,
            results := pre.map (okResult rawSources) ++ [failResult ck err],
            err := some { Collector := ck.Metadata.DisplayName, Err := err },
            calls := callsOf rawSources pre 0
              ++ [Call.configure pre.length, Call.collect pre.length] }) := by
  refine ⟨?_, ?_, ?_⟩
  · intro final h
    have happ := collectFrom_append visit rawSources all [] 0 NewInfrastructure final [] [] h
    unfold Collect
    rw [List.append_nil] at happ
    rw [happ]
    simp [collectFrom]
  · intro pre ck post mid err hall hpre hen hcf
    unfold Collect
    rw [hall, collectFrom_append visit rawSources pre (ck :: post) 0 NewInfrastructure mid [] []
      hpre]
    simp [collectFrom, hen, hcf, failResult]
  · intro pre ck post mid err hall hpre hen hcf hco
    unfold Collect
    rw [hall, collectFrom_append visit rawSources pre (ck :: post) 0 NewInfrastructure mid [] []
      hpre]
    cases hc : ck.Collect (sectionOf rawSources ck.Metadata.ConfigKey) mid with
    | mk infra2 oerr =>
      rw [hc] at hco
      simp only at hco
      subst hco
      simp [collectFrom, hen, hcf, hc, failResult]

/-- C16: Collect is fail-fast with partial results.  When no collector fails, it returns
the merged Model, one result entry per collector in registration order (skipped for a
collector that is not enabled, without error otherwise), the error nil, and it has called
Configure and Collect on every enabled collector and then Merge.  When the first failure is
at the collector ck, after the collectors pre, it returns no Model, the CollectorError
that carries the display name of ck and wraps the error its Configure, or its Collect on
the Model left by pre, returned, and the result entries of pre followed by the entry of ck
with that error; the calls are those on pre, Configure on ck and, when Configure succeeded,
Collect on ck: no later collector is configured or run and Merge is not called.  Every run
is of one of these kinds. -/
theorem Collect_fail_fast (visit : List (String × String)) (all : List RegisteredCollector)
    (rawSources : List (String × ConfigValue)) :
    (∀ final, modelAfter rawSources all NewInfrastructure = some final →
      Collect visit all rawSources
        = { infra := some (Merge visit final), results := all.map (okResult rawSources),
            err := none, calls := callsOf rawSources all 0 ++ [Call.merge] }) ∧
    (∀ (pre : List RegisteredCollector) (ck : RegisteredCollector)
        (post : List RegisteredCollector) (mid : Infrastructure) (err : GoError),
      all = pre ++ ck :: post → modelAfter rawSources pre NewInfrastructure = some mid →
      ck.Enabled rawSources = true →
      ck.Configure (sectionOf rawSources ck.Metadata.ConfigKey) = some err →
      Collect visit all rawSources
        = { infra := none,
            results := pre.map (okResult rawSources) ++ [failResult ck err],
            err := some { Collector := ck.Metadata.DisplayName, Err := err },
            calls := callsOf rawSources pre 0 ++ [Call.configure pre.length] }) ∧
    (∀ (pre : List RegisteredCollector) (ck : RegisteredCollector)
        (post : List RegisteredCollector) (mid : Infrastructure) (err : GoError),
      all = pre ++ ck :: post → modelAfter rawSources pre NewInfrastructure = some mid →
      ck.Enabled rawSources = true →
      ck.Configure (sectionOf rawSources ck.Metadata.ConfigKey) = none →
      (ck.Collect (sectionOf rawSources ck.Metadata.ConfigKey) mid).2 = some err →
      Collect visit all rawSources
        = { infra := none,
            results := pre.map (okResult rawSources) ++ [failResult ck err],
            err := some { Collector := ck.Metadata.DisplayName, Err := err },
            calls := callsOf rawSources pre 0
              ++ [Call.configure pre.length, Call.collect pre.length] }) ∧
    ((∃ final, modelAfter rawSources all NewInfrastructure = some final) ∨
      ∃ (pre : List RegisteredCollector) (ck : RegisteredCollector)
          (post : List RegisteredCollector) (mid : Infrastructure) (err : GoError),
        all = pre ++ ck :: post ∧ modelAfter rawSources pre NewInfrastructure = some mid ∧
        ck.Enabled rawSources = true ∧
        (ck.Configure (sectionOf rawSources ck.Metadata.ConfigKey) = some err ∨
          (ck.Configure (sectionOf rawSources ck.Metadata.ConfigKey) = none ∧
            (ck.Collect (sectionOf rawSources ck.Metadata.ConfigKey) mid).2 = some err))) ∧
    (∀ c ∈ callsOf rawSources all 0, c ≠ Call.merge) := by
  obtain ⟨h1, h2, h3⟩ := Collect_outcomes visit all rawSources
  refine ⟨h1, h2, h3, ?_, ?_⟩
  · cases hm : modelAfter rawSources all NewInfrastructure with
    | some final => exact Or.inl ⟨final, rfl⟩
    | none => exact Or.inr (modelAfter_none rawSources all NewInfrastructure hm)
  · have hgen : ∀ (cs : List RegisteredCollector) (i : Nat),
        ∀ c ∈ callsOf rawSources cs i, c ≠ Call.merge := by
      intro cs
      induction cs with
      | nil =>
        intro i c hc
        simp [callsOf] at hc
      | cons x rest ih =>
        intro i c hc
        simp only [callsOf, List.mem_append] at hc
        rcases hc with hc | hc
        · by_cases hx : x.Enabled rawSources = true
          · simp only [hx, if_true, List.mem_cons, List.mem_singleton, List.mem_nil_iff,
              or_false] at hc
            rcases hc with hc | hc <;> rw [hc] <;> simp
          · simp [hx] at hc
        · exact ih (i + 1) c hc
    exact hgen all 0

/-- C16 (witness): four registered collectors, of which the first succeeds, the second is
not enabled and the third fails in Collect; the fourth is neither configured nor run. -/
theorem Collect_fail_fast_witness :
    Collect categoryPatterns demoRegistry []
      = { infra := none,
          results :=
            [{ Name := "Ansible Inventory" },
             { Name := "Docker Compose", Skipped := true },
             { Name := "Tailscale",
               Err := some { Collector := "Tailscale",
                             Err := { msg := "getting tailscale data: exit status 1" } } }],
          err := some { Collector := "Tailscale",
                        Err := { msg := "getting tailscale data: exit status 1" } },
          calls := [Call.configure 0, Call.collect 0, Call.configure 2, Call.collect 2] } :=
  ((Collect_fail_fast categoryPatterns demoRegistry []).2.2.1
      (demoRegistry.take 2)
      { Metadata := { Name := "tailscale", DisplayName := "Tailscale",
                      ConfigKey := "tailscale" },
        Enabled := fun _ => true,
        Configure := fun _ => none,
        Collect := fun _ infra =>
          (infra, some { msg := "getting tailscale data: exit status 1" }) }
      (demoRegistry.drop 3) (ensureServer NewInfrastructure "gw")
      { msg := "getting tailscale data: exit status 1" } rfl (by decide) rfl rfl rfl).trans
    (by decide)

/-! ## Lemmas on String.join -/

theorem firstContained_none (visit : List (String × String)) (s : String) :
    firstContained visit s = none ↔ ∀ e ∈ visit, strContains s e.1 = false := by
  induction visit with
  | nil => simp [firstContained]
  | cons e rest ih =>
    obtain ⟨key, val⟩ := e
    unfold firstContained
    by_cases hc : strContains s key = true
    · simp [hc]
    · simp only [hc, Bool.false_eq_true, if_false, ih, List.mem_cons, forall_eq_or_imp]
      simp [hc]

theorem firstContained_some (visit : List (String × String)) (s val : String)
    (h : firstContained visit s = some val) :
    ∃ pre e post, visit = pre ++ e :: post ∧ (∀ x ∈ pre, strContains s x.1 = false) ∧
      strContains s e.1 = true ∧ e.2 = val := by
  induction visit with
  | nil => simp [firstContained] at h
  | cons e rest ih =>
    obtain ⟨key, v⟩ := e
    unfold firstContained at h
    by_cases hc : strContains s key = true
    · simp only [hc, if_true, Option.some.injEq] at h
      exact ⟨[], (key, v), rest, rfl, by simp, hc, h⟩
    · simp only [hc, Bool.false_eq_true, if_false] at h
      obtain ⟨pre, e, post, hv, hpre, he, hval⟩ := ih h
      refine ⟨(key, v) :: pre, e, post, by rw [hv]; rfl, ?_, he, hval⟩
      intro x hx
      rcases List.mem_cons.1 hx with hx | hx
      · rw [hx]
        simpa using hc
      · exact hpre x hx

theorem genericNames_get (k : String) :
    (mapGet genericNames k).getD false = true
      ↔ k ∈ ["db", "database", "cache", "proxy", "web", "server", "app", "api"] := by
  unfold genericNames
  simp only [mapGet, List.mem_cons, List.mem_singleton, List.mem_nil_iff, or_false]
  by_cases h1 : "db" = k
  · simp [h1.symm]
  by_cases h2 : "database" = k
  · simp [h2.symm]
  by_cases h3 : "cache" = k
  · simp [h3.symm]
  by_cases h4 : "proxy" = k
  · simp [h4.symm]
  by_cases h5 : "web" = k
  · simp [h5.symm]
  by_cases h6 : "server" = k
  · simp [h6.symm]
  by_cases h7 : "app" = k
  · simp [h7.symm]
  by_cases h8 : "api" = k
  · simp [h8.symm]
  simp [h1, h2, h3, h4, h5, h6, h7, h8, Ne.symm h1, Ne.symm h2, Ne.symm h3, Ne.symm h4,
    Ne.symm h5, Ne.symm h6, Ne.symm h7, Ne.symm h8]

/-- C24 (counterexample): the name database is none of db, cache, proxy, web, server, app
and api, and smartServiceName rewrites it to the product of the image. -/
theorem smartServiceName_database :
    goToLower "database" ∉ ["db", "cache", "proxy", "web", "server", "app", "api"] ∧
    smartServiceName imageNames "database" "mysql:8" = "MySQL" ∧
    smartServiceName imageNames "database" "mysql:8" ≠ "database" := by
  decide

/-- C24 (amended): smartServiceName returns the name unchanged when the lowercased name is
none of db, database, cache, proxy, web, server, app and api, when the image is empty, and
when the lowercased image contains no keyword of the product table.  For a name of that
set and a non-empty image that contains a keyword, it returns the display name of the first
keyword, in the order in which the product table is visited, that the lowercased image
contains. -/
theorem smartServiceName_generic (visit : List (String × String)) (name image : String) :
    (goToLower name ∉ ["db", "database", "cache", "proxy", "web", "server", "app", "api"] →
      smartServiceName visit name image = name) ∧
    (image = "" → smartServiceName visit name image = name) ∧
    ((∀ e ∈ visit, strContains (goToLower image) e.1 = false) →
      smartServiceName visit name image = name) ∧
    (goToLower name ∈ ["db", "database", "cache", "proxy", "web", "server", "app", "api"] →
      image ≠ "" → (∃ e ∈ visit, strContains (goToLower image) e.1 = true) →
      ∃ pre e post, visit = pre ++ e :: post ∧
        (∀ x ∈ pre, strContains (goToLower image) x.1 = false) ∧
        strContains (goToLower image) e.1 = true ∧
        smartServiceName visit name image = e.2) := by
  refine ⟨?_, ?_, ?_, ?_⟩
  · intro hn
    unfold smartServiceName
    rw [← genericNames_get] at hn
    simp [hn]
  · intro hi
    unfold smartServiceName
    simp [hi]
  · intro hnone
    unfold smartServiceName
    rw [(firstContained_none visit _).2 hnone]
    simp
  · intro hn hi hex
    unfold smartServiceName
    rw [← genericNames_get] at hn
    simp only [hn, hi, ne_eq, not_false_eq_true, and_self, if_true]
    cases hfc : firstContained visit (goToLower image) with
    | none =>
      obtain ⟨e, he, hc⟩ := hex
      rw [(firstContained_none visit _).1 hfc e he] at hc
      exact absurd hc Bool.false_ne_true
    | some val =>
      obtain ⟨pre, e, post, hv, hpre, he, hval⟩ := firstContained_some visit _ val hfc
      exact ⟨pre, e, post, hv, hpre, he, hval.symm⟩

/-- C24 (witness): the name grafana is kept whatever the image; the generic name web is
kept for an image without a product keyword. -/
theorem smartServiceName_generic_witness :
    smartServiceName imageNames "grafana" "postgres:15" = "grafana" ∧
    smartServiceName imageNames "web" "ghcr.io/acme/site:1" = "web" :=
  ⟨(smartServiceName_generic imageNames "grafana" "postgres:15").1 (by decide),
   (smartServiceName_generic imageNames "web" "ghcr.io/acme/site:1").2.2.1 (by decide)⟩

/-! ## C27: the filters of the service-manager collector -/

theorem matchesAny_iff (lower : Char → Char) (name : String) (patterns : List String) :
    matchesAny lower name patterns = true
      ↔ ∃ p ∈ patterns, (strToLower lower p).data <:+: (strToLower lower name).data := by
  unfold matchesAny
  simp only [List.any_eq_true, strContains_iff]

theorem trimSuffix_append (t suffix : String) : trimSuffix (t ++ suffix) suffix = t := by
  unfold trimSuffix
  have hs : suffix.data.isSuffixOf (t ++ suffix).data = true := by
    rw [List.isSuffixOf_iff_suffix, String.data_append]
    exact List.suffix_append _ _
  rw [if_pos hs]
  apply String.ext
  simp [String.data_append]

theorem trimSuffix_none (s suffix : String) (h : ¬ suffix.data <:+ s.data) :
    trimSuffix s suffix = s := by
  unfold trimSuffix
  have hs : ¬ suffix.data.isSuffixOf s.data = true := by
    rw [List.isSuffixOf_iff_suffix]
    exact h
  rw [if_neg hs]

theorem systemdUnits_fold (lower : Char → Char) (srv : systemdServer)
    (units : List systemdUnit) (server : Server) :
    units.foldl (systemdUnitStep lower srv) server
      = { server with
          Services := server.Services ++
            ((units.map (fun u => trimSuffix u.Unit ".service")).filter (fun name =>
                (srv.Filter.isEmpty || matchesAny lower name srv.Filter)
                  && !matchesAny lower name srv.Exclude)).map
              (fun name =>
                ({ Name := name,
                   Type_ := if detectServiceType "" name = ServiceTypeDatabase
                            then ServiceTypeDatabase else ServiceTypeSystem } : Service)) } := by
  induction units generalizing server with
  | nil => simp
  | cons u rest ih =>
    rw [List.foldl_cons, ih]
    unfold systemdUnitStep
    simp only [List.map_cons, List.filter_cons]
    have hlen : srv.Filter.length > 0 ↔ srv.Filter.isEmpty = false := by
      cases srv.Filter <;> simp
    by_cases hf : srv.Filter.isEmpty = true
    · have hl : ¬ srv.Filter.length > 0 := by
        rw [hlen, hf]
        simp
      by_cases hx : matchesAny lower (trimSuffix u.Unit ".service") srv.Exclude = true
      · simp [hl, hf, hx]
      · simp [hl, hf, hx, Server.AddService]
    · have hl : srv.Filter.length > 0 := by
        rw [hlen]
        simpa using hf
      by_cases hm : matchesAny lower (trimSuffix u.Unit ".service") srv.Filter = true
      · by_cases hx : matchesAny lower (trimSuffix u.Unit ".service") srv.Exclude = true
        · simp [hl, hf, hm, hx]
        · simp [hl, hf, hm, hx, Server.AddService]
      · simp [hl, hf, hm]

/-- C27: for one configured server and the units getUnits returned for it, the Server
under the host name (the one found there, or a new lab Server) receives, after the Services
it had, one Service per ingested unit, in the order of the units.  A unit is ingested under
its name without the suffix ".service" exactly when the include list is empty or matchesAny
holds of the name and the include list, and matchesAny does not hold of the name and the
exclude list; matchesAny holds exactly when the name, lowered by strings.ToLower, contains
some entry of the list, lowered the same way.  This holds for every case table lower.
The other Servers are unchanged, and Collect on one configured server
whose units were read is this step, without error. -/
theorem systemd_filters (lower : Char → Char) (infra : Infrastructure) (srv : systemdServer)
    (units : List systemdUnit) :
    mapGet (systemdServerStep lower infra srv units).Servers srv.Host
      = some
          { (match mapGet infra.Servers srv.Host with
             | some server => server
             | none =>
               ({ Hostname := srv.Host, Label := srv.Host, Type_ := ServerTypeLab,
                  Online := true } : Server)) with
            Services :=
              (match mapGet infra.Servers srv.Host with
               | some server => server.Services
               | none => []) ++
              ((units.map (fun u => trimSuffix u.Unit ".service")).filter (fun name =>
                  (srv.Filter.isEmpty || matchesAny lower name srv.Filter)
                    && !matchesAny lower name srv.Exclude)).map
                (fun name =>
                  ({ Name := name,
                     Type_ := if detectServiceType "" name = ServiceTypeDatabase
                              then ServiceTypeDatabase else ServiceTypeSystem } : Service)) } ∧
    (∀ k, k ≠ srv.Host →
      mapGet (systemdServerStep lower infra srv units).Servers k = mapGet infra.Servers k) ∧
    (∀ (name : String) (patterns : List String),
      matchesAny lower name patterns = true
        ↔ ∃ p ∈ patterns, (strToLower lower p).data <:+: (strToLower lower name).data) ∧
    (∀ t : String, trimSuffix (t ++ ".service") ".service" = t) ∧
    (∀ s : String, ¬ ".service".data <:+ s.data → trimSuffix s ".service" = s) ∧
    (∀ getUnits : systemdServer → Except GoError (List systemdUnit),
      getUnits srv = .ok units →
      SystemdCollector.Collect { Servers := [srv] } lower getUnits infra
        = (systemdServerStep lower infra srv units, none)) := by
  refine ⟨?_, ?_, matchesAny_iff lower, fun t => trimSuffix_append t _,
    fun s h => trimSuffix_none s _ h, ?_⟩
  rotate_left 2
  · intro getUnits hget
    simp only [SystemdCollector.Collect, systemdCollectLoop, hget]
  · unfold systemdServerStep systemdEnsureServer
    cases hget : mapGet infra.Servers srv.Host with
    | some server =>
      simp only [hget, mapGet_mapSet_same, systemdUnits_fold]
    | none =>
      simp only [mapGet_mapSet_same, systemdUnits_fold]
  · intro k hk
    unfold systemdServerStep systemdEnsureServer
    cases hget : mapGet infra.Servers srv.Host with
    | some server =>
      simp only [hget, mapGet_mapSet_other _ _ _ _ hk]
    | none =>
      simp only [mapGet_mapSet_same, mapGet_mapSet_other _ _ _ _ hk]

set_option maxRecDepth 1000000 in
/-- C27 (witness): six units on a new Model; the include list docker, nginx keeps two of
them, the exclude list cron, network, sshd keeps three, and an entry in capitals matches
like the lowercase one; with a case table that lowers É, the include entry ÉMI keeps the
unit émile.service. -/
theorem systemd_filters_witness :
    (mapGet (systemdServerStep lowerRune NewInfrastructure
        { Host := "filtered", Filter := ["docker", "nginx"] } testUnits).Servers
        "filtered").map (fun s => s.Services.map (fun svc => svc.Name))
      = some ["docker", "nginx"] ∧
    (mapGet (systemdServerStep lowerRune NewInfrastructure
        { Host := "excluded", Exclude := ["cron", "network", "sshd"] } testUnits).Servers
        "excluded").map (fun s => s.Services.map (fun svc => (svc.Name, svc.Type_)))
      = some [("docker", ServiceTypeSystem), ("nginx", ServiceTypeSystem),
              ("postgresql", ServiceTypeDatabase)] ∧
    (mapGet (systemdServerStep lowerRune NewInfrastructure
        { Host := "h", Filter := ["SSH"], Exclude := ["Docker"] } testUnits).Servers
        "h").map (fun s => s.Services.map (fun svc => svc.Name))
      = some ["sshd"] ∧
    (mapGet (systemdServerStep accentTable NewInfrastructure
        { Host := "h", Filter := ["ÉMI"] } [{ Unit := "émile.service" }]).Servers
        "h").map (fun s => s.Services.map (fun svc => svc.Name))
      = some ["émile"] := by
  refine ⟨?_, ?_, ?_, by decide⟩
  · rw [(systemd_filters lowerRune NewInfrastructure
          { Host := "filtered", Filter := ["docker", "nginx"] } testUnits).1]
    decide
  · rw [(systemd_filters lowerRune NewInfrastructure
          { Host := "excluded", Exclude := ["cron", "network", "sshd"] } testUnits).1]
    decide
  · rw [(systemd_filters lowerRune NewInfrastructure
          { Host := "h", Filter := ["SSH"], Exclude := ["Docker"] } testUnits).1]
    decide

/-! ## C28: StripJinja2 -/

theorem closeLen_iff (l : List Char) (n : Nat) :
    closeLen l = some n
      ↔ ∃ x rest, '}' ∉ x ∧ l = x ++ '}' :: '}' :: rest ∧ n = x.length + 2 := by
  induction l generalizing n with
  | nil =>
    simp [closeLen]
  | cons c cs ih =>
    unfold closeLen
    by_cases hc : c = '}'
    · subst hc
      simp only [if_true]
      constructor
      · intro h
        cases cs with
        | nil => simp at h
        | cons d ds =>
          by_cases hd : d = '}'
          · subst hd
            simp only [if_true, Option.some.injEq] at h
            exact ⟨[], ds, by simp, rfl, by simp [← h]⟩
          · simp [hd] at h
      · rintro ⟨x, rest, hx, hl, hn⟩
        cases x with
        | nil =>
          simp only [List.nil_append, List.cons.injEq, true_and] at hl
          subst hl
          simp [hn]
        | cons y ys =>
          simp only [List.cons_append, List.cons.injEq] at hl
          exact absurd (List.mem_cons_self y ys) (hl.1 ▸ hx)
    · simp only [hc, if_false, Option.map_eq_some']
      constructor
      · rintro ⟨m, hm, hmn⟩
        obtain ⟨x, rest, hx, hl, hlen⟩ := (ih m).1 hm
        refine ⟨c :: x, rest, ?_, by simp [hl], by simp [← hmn, hlen]⟩
        intro hmem
        rcases List.mem_cons.1 hmem with h | h
        · exact hc h.symm
        · exact hx h
      · rintro ⟨x, rest, hx, hl, hn⟩
        cases x with
        | nil =>
          simp only [List.nil_append, List.cons.injEq] at hl
          exact absurd hl.1 hc
        | cons y ys =>
          simp only [List.cons_append, List.cons.injEq] at hl
          refine ⟨ys.length + 2, (ih _).2 ⟨ys, rest, ?_, hl.2, rfl⟩, by simp [hn]⟩
          intro hmem
          exact hx (List.mem_cons_of_mem _ hmem)

theorem jinjaMatchLen_iff (l : List Char) (n : Nat) :
    jinjaMatchLen l = some n
      ↔ ∃ x rest, '}' ∉ x ∧ l = '{' :: '{' :: x ++ '}' :: '}' :: rest
          ∧ n = x.length + 4 := by
  cases l with
  | nil => simp [jinjaMatchLen]
  | cons a t =>
    cases t with
    | nil => simp [jinjaMatchLen]
    | cons b rest =>
      unfold jinjaMatchLen
      by_cases hab : a = '{' ∧ b = '{'
      · obtain ⟨ha, hb⟩ := hab
        subst ha
        subst hb
        simp only [and_self, if_true, Option.map_eq_some', closeLen_iff]
        constructor
        · rintro ⟨m, ⟨x, r, hx, hl, hm⟩, hmn⟩
          exact ⟨x, r, hx, by simp [hl], by omega⟩
        · rintro ⟨x, r, hx, hl, hn⟩
          simp only [List.cons_append, List.cons.injEq, true_and] at hl
          exact ⟨x.length + 2, ⟨x, r, hx, hl, rfl⟩, by omega⟩
      · simp only [hab, if_false]
        constructor
        · intro h
          cases h
        · rintro ⟨x, r, _, hl, _⟩
          simp only [List.cons_append, List.cons.injEq] at hl
          exact absurd ⟨hl.1, hl.2.1⟩ hab

theorem jinjaMatchLen_of_ne (c : Char) (cs : List Char) (hc : c ≠ '{') :
    jinjaMatchLen (c :: cs) = none := by
  cases cs with
  | nil => rfl
  | cons b rest => simp [jinjaMatchLen, hc]

theorem jinjaMatchLen_second (c d : Char) (cs : List Char) (hd : d ≠ '{') :
    jinjaMatchLen (c :: d :: cs) = none := by
  simp [jinjaMatchLen, hd]

theorem replaceAllJinja_skip (repl : List Char) (k : Nat) (l : List Char) :
    replaceAllJinja repl k l = replaceAllJinja repl 0 (l.drop k) := by
  induction l generalizing k with
  | nil => simp [replaceAllJinja]
  | cons c cs ih =>
    cases k with
    | zero => rfl
    | succ k => simp only [replaceAllJinja, List.drop_succ_cons, ih k]

theorem replaceAllJinja_match (repl x rest : List Char) (hx : '}' ∉ x) :
    replaceAllJinja repl 0 ('{' :: '{' :: x ++ '}' :: '}' :: rest)
      = repl ++ replaceAllJinja repl 0 rest := by
  have hm : jinjaMatchLen ('{' :: '{' :: x ++ '}' :: '}' :: rest) = some (x.length + 4) :=
    (jinjaMatchLen_iff _ _).2 ⟨x, rest, hx, rfl, rfl⟩
  have hcons : '{' :: '{' :: x ++ '}' :: '}' :: rest = '{' :: ('{' :: x ++ '}' :: '}' :: rest) :=
    rfl
  rw [hcons] at hm ⊢
  simp only [replaceAllJinja, hm]
  rw [replaceAllJinja_skip]
  have hd : List.drop (x.length + 2) (x ++ '}' :: '}' :: rest) = rest := by
    have hlen : x.length + 2 = (x ++ ['}', '}']).length := by
      simp
    have hl : x ++ '}' :: '}' :: rest = (x ++ ['}', '}']) ++ rest := by simp
    rw [hlen, hl, List.drop_left]
  show repl ++ replaceAllJinja repl 0 (List.drop (x.length + 2) (x ++ '}' :: '}' :: rest)) = _
  rw [hd]

theorem replaceAllJinja_copy (repl : List Char) (c : Char) (cs : List Char)
    (h : jinjaMatchLen (c :: cs) = none) :
    replaceAllJinja repl 0 (c :: cs) = c :: replaceAllJinja repl 0 cs := by
  simp only [replaceAllJinja, h]

/-- The first rune of a replaced text is the first rune of the text or of the
replacement. -/
theorem replaceAllJinja_head (p : Char) (ps : List Char) (hp : p ≠ '}')
    (l : List Char) (hl : l.head? ≠ some '}') :
    (replaceAllJinja (p :: ps) 0 l).head? ≠ some '}' := by
  cases l with
  | nil => simp [replaceAllJinja]
  | cons d r =>
    have hd : d ≠ '}' := by
      intro h
      apply hl
      simp [h]
    cases hm : jinjaMatchLen (d :: r) with
    | none =>
      rw [replaceAllJinja_copy _ _ _ hm]
      simpa using hd
    | some n =>
      simp only [replaceAllJinja, hm, List.cons_append, List.head?_cons, ne_eq,
        Option.some.injEq]
      exact hp

theorem closeLen_replaceAll (p : Char) (ps : List Char) (hp : p ≠ '}') (t : List Char)
    (h : closeLen t = none) : closeLen (replaceAllJinja (p :: ps) 0 t) = none := by
  induction t with
  | nil => simp [replaceAllJinja, closeLen]
  | cons x t' ih =>
    by_cases hx : x = '}'
    · subst hx
      have hm : jinjaMatchLen ('}' :: t') = none := jinjaMatchLen_of_ne _ _ (by decide)
      rw [replaceAllJinja_copy _ _ _ hm]
      have hhead : t'.head? ≠ some '}' := by
        intro hh
        cases t' with
        | nil => simp at hh
        | cons d r =>
          simp only [List.head?_cons, Option.some.injEq] at hh
          subst hh
          simp [closeLen] at h
      have hres := replaceAllJinja_head p ps hp t' hhead
      unfold closeLen
      simp only [if_true]
      cases hr : replaceAllJinja (p :: ps) 0 t' with
      | nil => rfl
      | cons d r =>
        rw [hr] at hres
        have hd : d ≠ '}' := by
          intro hd
          apply hres
          simp [hd]
        simp [hd]
    · have ht' : closeLen t' = none := by
        unfold closeLen at h
        simpa [hx] using h
      have hm : jinjaMatchLen (x :: t') = none := by
        cases hmm : jinjaMatchLen (x :: t') with
        | none => rfl
        | some n =>
          obtain ⟨y, rest, hy, hl, _⟩ := (jinjaMatchLen_iff _ _).1 hmm
          simp only [List.cons_append, List.cons.injEq] at hl
          have hsome : closeLen t' = some (y.length + 2 + 1) := by
            rw [hl.2]
            unfold closeLen
            simp only [show ('{' : Char) ≠ '}' by decide, if_false, Option.map_eq_some']
            exact ⟨y.length + 2, (closeLen_iff _ _).2 ⟨y, rest, hy, rfl, rfl⟩, rfl⟩
          rw [ht'] at hsome
          cases hsome
      rw [replaceAllJinja_copy _ _ _ hm]
      unfold closeLen
      simp only [hx, if_false, ih ht', Option.map_none']

theorem jinjaMatchLen_replaceAll (p : Char) (ps : List Char) (hp : p ≠ '}') (hp2 : p ≠ '{')
    (c : Char) (cs : List Char) (h : jinjaMatchLen (c :: cs) = none) :
    jinjaMatchLen (c :: replaceAllJinja (p :: ps) 0 cs) = none := by
  by_cases hc : c = '{'
  · subst hc
    cases cs with
    | nil => simp [replaceAllJinja, jinjaMatchLen]
    | cons c2 t =>
      by_cases hc2 : c2 = '{'
      · subst hc2
        have hclose : closeLen t = none := by
          simpa [jinjaMatchLen] using h
        cases hm : jinjaMatchLen ('{' :: t) with
        | some n =>
          simp only [replaceAllJinja, hm, List.cons_append]
          exact jinjaMatchLen_second _ _ _ hp2
        | none =>
          rw [replaceAllJinja_copy _ _ _ hm]
          simp [jinjaMatchLen, closeLen_replaceAll p ps hp t hclose]
      · have hm : jinjaMatchLen (c2 :: t) = none := jinjaMatchLen_of_ne _ _ hc2
        rw [replaceAllJinja_copy _ _ _ hm]
        exact jinjaMatchLen_second _ _ _ hc2
  · exact jinjaMatchLen_of_ne _ _ hc

theorem noMatch_cons (c : Char) (l : List Char) :
    (∀ u, u <:+ c :: l → jinjaMatchLen u = none)
      ↔ jinjaMatchLen (c :: l) = none ∧ ∀ u, u <:+ l → jinjaMatchLen u = none := by
  constructor
  · intro h
    exact ⟨h _ (List.suffix_refl _), fun u hu => h u (List.suffix_cons_iff.2 (Or.inr hu))⟩
  · rintro ⟨h1, h2⟩ u hu
    rcases List.suffix_cons_iff.1 hu with h | h
    · rw [h]
      exact h1
    · exact h2 u h

theorem noMatch_append (repl l : List Char) (hrepl : ∀ c ∈ repl, c ≠ '{')
    (h : ∀ u, u <:+ l → jinjaMatchLen u = none) :
    ∀ u, u <:+ repl ++ l → jinjaMatchLen u = none := by
  induction repl with
  | nil => simpa using h
  | cons p ps ih =>
    rw [List.cons_append, noMatch_cons]
    exact ⟨jinjaMatchLen_of_ne _ _ (hrepl p (List.mem_cons_self _ _)),
      ih (fun c hc => hrepl c (List.mem_cons_of_mem _ hc))⟩

/-- No match of the pattern starts anywhere in a replaced text. -/
theorem replaceAllJinja_noMatch (p : Char) (ps : List Char) (hp : p ≠ '}')
    (hrepl : ∀ c ∈ p :: ps, c ≠ '{') (s : List Char) :
    ∀ k u, u <:+ replaceAllJinja (p :: ps) k s → jinjaMatchLen u = none := by
  induction s with
  | nil =>
    intro k u hu
    have hnil : replaceAllJinja (p :: ps) k [] = [] := by
      cases k <;> rfl
    rw [hnil] at hu
    rw [List.suffix_nil.1 hu]
    rfl
  | cons c cs ih =>
    intro k
    cases k with
    | succ k =>
      simp only [replaceAllJinja]
      exact ih k
    | zero =>
      cases hm : jinjaMatchLen (c :: cs) with
      | some n =>
        simp only [replaceAllJinja, hm]
        exact noMatch_append _ _ hrepl (ih (n - 1))
      | none =>
        rw [replaceAllJinja_copy _ _ _ hm, noMatch_cons]
        exact ⟨jinjaMatchLen_replaceAll p ps hp (hrepl p (List.mem_cons_self _ _)) c cs hm,
          ih 0⟩

theorem replaceAllJinja_id (repl l : List Char)
    (h : ∀ u, u <:+ l → jinjaMatchLen u = none) : replaceAllJinja repl 0 l = l := by
  induction l with
  | nil => rfl
  | cons c cs ih =>
    rw [noMatch_cons] at h
    rw [replaceAllJinja_copy _ _ _ h.1, ih h.2]

theorem noMatch_of_no_open (l : List Char) (h : ¬ ['{', '{'] <:+: l) :
    ∀ u, u <:+ l → jinjaMatchLen u = none := by
  intro u hu
  cases hm : jinjaMatchLen u with
  | none => rfl
  | some n =>
    exfalso
    obtain ⟨x, rest, _, hl, _⟩ := (jinjaMatchLen_iff _ _).1 hm
    apply h
    obtain ⟨a, ha⟩ := hu
    refine ⟨a, x ++ '}' :: '}' :: rest, ?_⟩
    rw [← ha, hl]
    simp

theorem placeholder_runes :
    "PLACEHOLDER".data = 'P' :: ['L', 'A', 'C', 'E', 'H', 'O', 'L', 'D', 'E', 'R'] ∧
    (∀ c ∈ 'P' :: ['L', 'A', 'C', 'E', 'H', 'O', 'L', 'D', 'E', 'R'], c ≠ '{') := by
  refine ⟨rfl, ?_⟩
  intro c hc
  simp only [List.mem_cons, List.mem_singleton, List.mem_nil_iff, or_false] at hc
  rcases hc with h | h | h | h | h | h | h | h | h | h | h <;> subst h <;> decide

theorem StripJinja2_noMatch (t : String) :
    ∀ u, u <:+ (StripJinja2 t).data → jinjaMatchLen u = none := by
  unfold StripJinja2
  rw [placeholder_runes.1]
  exact replaceAllJinja_noMatch 'P' _ (by decide) placeholder_runes.2 t.data 0

set_option maxRecDepth 100000 in
/-- C28: StripJinja2 replaces a double-brace expression at the start of a text (two opening
braces, runes other than the closing brace, two closing braces) by PLACEHOLDER and goes on
behind it; it copies a rune at which no such expression starts and goes on with the next
rune, so the expressions are taken leftmost and do not overlap.  A text without "{{" is
returned unchanged, the result contains no double-brace expression, and applying
StripJinja2 twice gives the same text as applying it once.  The four texts of the unit test
give the expected results. -/
theorem StripJinja2_spec :
    StripJinja2 "" = "" ∧
    (∀ x rest : List Char, '}' ∉ x →
      StripJinja2 (String.mk ('{' :: '{' :: x ++ '}' :: '}' :: rest))
        = "PLACEHOLDER" ++ StripJinja2 (String.mk rest)) ∧
    (∀ (c : Char) (cs : List Char),
      (¬ ∃ x rest, '}' ∉ x ∧ c :: cs = '{' :: '{' :: x ++ '}' :: '}' :: rest) →
      StripJinja2 (String.mk (c :: cs)) = String.mk [c] ++ StripJinja2 (String.mk cs)) ∧
    (∀ t : String, ¬ "\x7b\x7b".data <:+: t.data → StripJinja2 t = t) ∧
    (∀ (t : String) (x : List Char), '}' ∉ x →
      ¬ ('{' :: '{' :: x ++ ['}', '}']) <:+: (StripJinja2 t).data) ∧
    (∀ t : String, StripJinja2 (StripJinja2 t) = StripJinja2 t) ∧
    StripJinja2 "\x7b\x7b docker_services_tailscale_ip \x7d\x7d:7200:8080"
      = "PLACEHOLDER:7200:8080" ∧
    StripJinja2 "\x7b\x7b var1 \x7d\x7d and \x7b\x7b var2 \x7d\x7d"
      = "PLACEHOLDER and PLACEHOLDER" ∧
    StripJinja2 "no jinja here" = "no jinja here" ∧
    StripJinja2 "port: \x7b\x7b netdata_port \x7d\x7d" = "port: PLACEHOLDER" := by
  refine ⟨by decide, ?_, ?_, ?_, ?_, ?_, by decide, by decide, by decide, by decide⟩
  · intro x rest hx
    unfold StripJinja2
    apply String.ext
    simp only [String.data_append]
    exact replaceAllJinja_match _ x rest hx
  · intro c cs hno
    have hm : jinjaMatchLen (c :: cs) = none := by
      cases hmm : jinjaMatchLen (c :: cs) with
      | none => rfl
      | some n =>
        obtain ⟨x, rest, hx, hl, _⟩ := (jinjaMatchLen_iff _ _).1 hmm
        exact absurd ⟨x, rest, hx, hl⟩ hno
    unfold StripJinja2
    apply String.ext
    simp only [String.data_append]
    exact replaceAllJinja_copy _ c cs hm
  · intro t hno
    unfold StripJinja2
    apply String.ext
    exact replaceAllJinja_id _ _ (noMatch_of_no_open _ hno)
  · intro t x hx hin
    obtain ⟨a, b, hab⟩ := hin
    have hsuf : ('{' :: '{' :: x ++ '}' :: '}' :: b) <:+ (StripJinja2 t).data := by
      refine ⟨a, ?_⟩
      rw [← hab]
      simp
    have hnone := StripJinja2_noMatch t _ hsuf
    rw [(jinjaMatchLen_iff _ _).2 ⟨x, b, hx, rfl, rfl⟩] at hnone
    cases hnone
  · intro t
    have hid := replaceAllJinja_id "PLACEHOLDER".data _ (StripJinja2_noMatch t)
    apply String.ext
    exact hid

/-! ## C30: the Server that receives the Services of a compose file -/

theorem addServiceAt_some (infra : Infrastructure) (server : String) (svc : Service)
    (s : Server) (h : mapGet infra.Servers server = some s) :
    ∃ out, addServiceAt infra server svc = some out ∧
      mapGet out.Servers server = some (s.AddService svc) := by
  unfold addServiceAt
  rw [h]
  exact ⟨_, rfl, mapGet_mapSet_same _ _ _⟩

theorem addServices_some (server : String) (svcs : List Service) (infra : Infrastructure)
    (s : Server) (h : mapGet infra.Servers server = some s) :
    ∃ out, addServices server svcs infra = some out ∧
      mapGet out.Servers server = some { s with Services := s.Services ++ svcs } := by
  induction svcs generalizing infra s with
  | nil =>
    refine ⟨infra, rfl, ?_⟩
    simp [h]
  | cons svc rest ih =>
    obtain ⟨mid, hmid, hget⟩ := addServiceAt_some infra server svc s h
    obtain ⟨out, hout, hres⟩ := ih mid _ hget
    refine ⟨out, ?_, ?_⟩
    · simp only [addServices, hmid, hout]
    · rw [hres]
      simp [Server.AddService]

theorem ensureServer_get (infra : Infrastructure) (name : String) (h : name ≠ "") :
    ∃ s, mapGet (ensureServer infra name).Servers name = some s := by
  unfold ensureServer
  rw [if_neg h]
  cases hget : mapGet infra.Servers name with
  | some s => exact ⟨s, hget⟩
  | none => exact ⟨_, mapGet_mapSet_same _ _ _⟩

/-- C30 (the code at the failing input): with the empty string as the configured server
name, ensureServer returns at its guard and a new Model has no entry under the name, so
the first AddService call of projectToServices, and of parseFallback, acts on the nil
pointer: both panic (none) on a compose file with a service.  For every other name
ensureServer leaves an entry under the name and both functions return without panic. -/
theorem compose_nameless_server_panics :
    ensureServer NewInfrastructure "" = NewInfrastructure ∧
    mapGet (ensureServer NewInfrastructure "").Servers "" = none ∧
    projectToServices NewInfrastructure webProject "docker-compose.yml" "" = none ∧
    parseFallback NewInfrastructure
      (some [("web", some { Name := "web", Image := "nginx:1.25",
                            Type_ := ServiceTypeContainer,
                            ComposeFile := "docker-compose.yml" })]) "" = none ∧
    (∀ (infra : Infrastructure) (name : String), name ≠ "" →
      (∃ s, mapGet (ensureServer infra name).Servers name = some s) ∧
      (∀ project path, ∃ out, projectToServices infra project path name = some out) ∧
      (∀ servicesMap, ∃ out, parseFallback infra servicesMap name = some out)) := by
  refine ⟨by decide, by decide, by decide, by decide, ?_⟩
  intro infra name hne
  obtain ⟨s, hs⟩ := ensureServer_get infra name hne
  refine ⟨⟨s, hs⟩, ?_, ?_⟩
  · intro project path
    obtain ⟨out, hout, _⟩ := addServices_some name (project.map (projectService path)) _ s hs
    exact ⟨out, hout⟩
  · intro servicesMap
    cases servicesMap with
    | none => exact ⟨infra, rfl⟩
    | some entries =>
      obtain ⟨out, hout, _⟩ := addServices_some name (entries.filterMap (fun e => e.2)) _ s hs
      exact ⟨out, hout⟩

/-! ## C26: deduplication in the orchestrator collector -/

theorem mapGet_none_not_mem {α : Type} (m : List (String × α)) (k : String)
    (h : mapGet m k = none) : k ∉ mapKeys m := by
  induction m with
  | nil => simp [mapKeys]
  | cons e rest ih =>
    obtain ⟨k', v'⟩ := e
    by_cases hk : k' = k
    · simp [mapGet, hk] at h
    · simp only [mapGet, hk, if_false] at h
      simp only [mapKeys, List.map_cons, List.mem_cons, not_or]
      exact ⟨fun heq => hk heq.symm, ih h⟩

theorem mapKeys_mapSet_nodup {α : Type} (m : List (String × α)) (k : String) (v : α)
    (h : (mapKeys m).Nodup) : (mapKeys (mapSet m k v)).Nodup := by
  cases hget : mapGet m k with
  | some x =>
    rw [mapKeys_mapSet_of_get m k v x hget]
    exact h
  | none =>
    rw [mapSet_of_get_none m k v hget]
    simp only [mapKeys, List.map_append, List.map_cons, List.map_nil]
    rw [List.nodup_append]
    refine ⟨h, by simp, ?_⟩
    intro a ha hb
    simp only [List.mem_singleton] at hb
    subst hb
    exact mapGet_none_not_mem m a hget ha

/-- The pods that nsPods files under a namespace. -/
theorem nsPods_get (kc : KubernetesCollector) (pods : List k8sPod)
    (acc : List (String × List k8sPod)) (ns : String) :
    mapGet (pods.foldl (nsPodsStep kc) acc) ns
      = match mapGet acc ns with
        | some l =>
          some (l ++ pods.filter (fun pod =>
            decide (pod.Status.Phase = "Running")
              && (kc.Namespaces.isEmpty || containsStr kc.Namespaces pod.Metadata.Namespace)
              && decide (pod.Metadata.Namespace = ns)))
        | none =>
          if pods.filter (fun pod =>
              decide (pod.Status.Phase = "Running")
                && (kc.Namespaces.isEmpty || containsStr kc.Namespaces pod.Metadata.Namespace)
                && decide (pod.Metadata.Namespace = ns)) = [] then none
          else
            some (pods.filter (fun pod =>
              decide (pod.Status.Phase = "Running")
                && (kc.Namespaces.isEmpty || containsStr kc.Namespaces pod.Metadata.Namespace)
                && decide (pod.Metadata.Namespace = ns))) := by
  induction pods generalizing acc with
  | nil =>
    cases h : mapGet acc ns <;> simp [h]
  | cons pod rest ih =>
    rw [List.foldl_cons, ih]
    have hlen : kc.Namespaces.length > 0 ↔ kc.Namespaces.isEmpty = false := by
      cases kc.Namespaces <;> simp
    by_cases hrun : pod.Status.Phase = "Running"
    · by_cases hallow : kc.Namespaces.isEmpty = true
        ∨ containsStr kc.Namespaces pod.Metadata.Namespace = true
      · have hcond : ¬ (kc.Namespaces.length > 0 ∧
            ¬ containsStr kc.Namespaces pod.Metadata.Namespace = true) := by
          rintro ⟨h1, h2⟩
          rcases hallow with h | h
          · rw [hlen, h] at h1
            cases h1
          · exact h2 h
        have hb : (kc.Namespaces.isEmpty || containsStr kc.Namespaces pod.Metadata.Namespace)
            = true := by
          simpa using hallow
        have hstep : nsPodsStep kc acc pod
            = mapSet acc pod.Metadata.Namespace
                ((mapGet acc pod.Metadata.Namespace).getD [] ++ [pod]) := by
          unfold nsPodsStep
          rw [if_neg (not_not.2 hrun)]
          simp only
          rw [if_neg hcond]
        rw [hstep]
        simp only [List.filter_cons, hrun, decide_True, Bool.true_and, hb]
        by_cases hns : pod.Metadata.Namespace = ns
        · subst hns
          rw [mapGet_mapSet_same]
          cases hacc : mapGet acc pod.Metadata.Namespace with
          | some l => simp
          | none => simp
        · rw [mapGet_mapSet_other _ _ _ _ (Ne.symm hns)]
          simp [hns]
      · have hb : (kc.Namespaces.isEmpty || containsStr kc.Namespaces pod.Metadata.Namespace)
            = false := by
          simpa using hallow
        have hcond : kc.Namespaces.length > 0 ∧
            ¬ containsStr kc.Namespaces pod.Metadata.Namespace = true := by
          simp only [not_or] at hallow
          refine ⟨?_, hallow.2⟩
          rw [hlen]
          simpa using hallow.1
        have hstep : nsPodsStep kc acc pod = acc := by
          unfold nsPodsStep
          rw [if_neg (not_not.2 hrun)]
          simp only
          rw [if_pos hcond]
        rw [hstep]
        simp only [List.filter_cons, hrun, decide_True, Bool.true_and, hb, Bool.false_and,
          Bool.false_eq_true, if_false]
    · have hstep : nsPodsStep kc acc pod = acc := by
        unfold nsPodsStep
        rw [if_pos hrun]
      rw [hstep]
      simp only [List.filter_cons, hrun, decide_False, Bool.false_and, Bool.false_eq_true,
        if_false]

theorem nsPods_nodup (kc : KubernetesCollector) (pods : List k8sPod)
    (acc : List (String × List k8sPod)) (h : (mapKeys acc).Nodup) :
    (mapKeys (pods.foldl (nsPodsStep kc) acc)).Nodup := by
  induction pods generalizing acc with
  | nil => exact h
  | cons pod rest ih =>
    rw [List.foldl_cons]
    apply ih
    unfold nsPodsStep
    split
    · exact h
    · simp only
      split
      · exact h
      · exact mapKeys_mapSet_nodup _ _ _ h

theorem foldl_pairs {α β σ : Type} (f : α → List β) (g : α → σ → β → σ) (l : List α)
    (init : σ) :
    l.foldl (fun st a => (f a).foldl (g a) st) init
      = (l.flatMap (fun a => (f a).map (fun b => (a, b)))).foldl
          (fun st ab => g ab.1 st ab.2) init := by
  induction l generalizing init with
  | nil => rfl
  | cons a rest ih =>
    rw [List.foldl_cons, ih, List.flatMap_cons, List.foldl_append]
    congr 1
    generalize f a = bs
    induction bs generalizing init with
    | nil => rfl
    | cons b bs ihb => simp only [List.foldl_cons, List.map_cons, ihb]

/-- The loop over the containers keeps the names of the Services it adds distinct. -/
theorem k8s_pairs_fold (svcPorts : List (String × Int)) (ns : String)
    (ps : List (k8sPod × k8sContainer)) (seen : List (String × Bool)) (base : Server)
    (added0 : List Service)
    (hseen : ∀ n, (mapGet seen n).getD false = true ↔ n ∈ added0.map (fun s => s.Name))
    (hnd : (added0.map (fun s => s.Name)).Nodup) :
    ∃ added,
      (ps.foldl (fun st pc => k8sContainerStep svcPorts ns pc.1 st pc.2)
          (seen, { base with Services := base.Services ++ added0 })).2
        = { base with Services := base.Services ++ added } ∧
      (added.map (fun s => s.Name)).Nodup ∧
      (∀ s ∈ added, s ∈ added0 ∨ s.Category = "kubernetes") ∧
      (∀ n, n ∈ added.map (fun s => s.Name)
        ↔ n ∈ added0.map (fun s => s.Name) ∨ n ∈ ps.map (fun pc => k8sSvcName pc.1 pc.2)) := by
  induction ps generalizing seen added0 with
  | nil =>
    exact ⟨added0, rfl, hnd, fun s hs => Or.inl hs, by simp⟩
  | cons pc rest ih =>
    rw [List.foldl_cons]
    unfold k8sContainerStep
    by_cases hs : (mapGet seen (k8sSvcName pc.1 pc.2)).getD false = true
    · simp only [hs, if_true]
      obtain ⟨added, h1, h2, h3, h4⟩ := ih seen added0 hseen hnd
      refine ⟨added, h1, h2, h3, ?_⟩
      intro n
      rw [h4 n, List.map_cons, List.mem_cons]
      constructor
      · rintro (h | h)
        · exact Or.inl h
        · exact Or.inr (Or.inr h)
      · rintro (h | h | h)
        · exact Or.inl h
        · exact Or.inl (h ▸ (hseen _).1 hs)
        · exact Or.inr h
    · simp only [hs, Bool.false_eq_true, if_false, Server.AddService, List.append_assoc]
      have hnew : k8sSvcName pc.1 pc.2 ∉ added0.map (fun s => s.Name) := fun hm =>
        hs ((hseen _).2 hm)
      obtain ⟨added, h1, h2, h3, h4⟩ := ih (mapSet seen (k8sSvcName pc.1 pc.2) true)
        (added0 ++ [{ Name := k8sSvcName pc.1 pc.2, Image := pc.2.Image,
                      Type_ := detectServiceType pc.2.Image (k8sSvcName pc.1 pc.2),
                      Ports :=
                        match mapGet svcPorts (k8sSvcName pc.1 pc.2 ++ "@" ++ ns) with
                        | some port =>
                          [{ HostPort := port, ContainerPort := port, Protocol := "tcp" }]
                        | none =>
                          match pc.2.Ports with
                          | p :: _ =>
                            [{ ContainerPort := p.ContainerPort,
                               Protocol := goToLower p.Protocol }]
                          | [] => [],
                      Category := "kubernetes" }])
        (by
          intro n
          by_cases hn : n = k8sSvcName pc.1 pc.2
          · subst hn
            simp [mapGet_mapSet_same]
          · rw [mapGet_mapSet_other _ _ _ _ hn, hseen n]
            simp [hn])
        (by
          rw [List.map_append, List.nodup_append]
          refine ⟨hnd, by simp, ?_⟩
          intro a ha hb
          simp only [List.map_cons, List.map_nil, List.mem_singleton] at hb
          subst hb
          exact hnew ha)
      refine ⟨added, h1, h2, ?_, ?_⟩
      · intro s hsmem
        rcases h3 s hsmem with h | h
        · rcases List.mem_append.1 h with h | h
          · exact Or.inl h
          · simp only [List.mem_singleton] at h
            exact Or.inr (by rw [h])
        · exact Or.inr h
      · intro n
        rw [h4 n]
        simp only [List.map_append, List.map_cons, List.map_nil, List.mem_append,
          List.mem_singleton, List.mem_cons, List.mem_nil_iff, or_false]
        constructor
        · rintro ((h | h) | h)
          · exact Or.inl h
          · exact Or.inr (Or.inl h)
          · exact Or.inr (Or.inr h)
        · rintro (h | h | h)
          · exact Or.inl (Or.inl h)
          · exact Or.inl (Or.inr h)
          · exact Or.inr h

theorem k8s_prefix_injective (a b : String) (h : "k8s-" ++ a = "k8s-" ++ b) : a = b := by
  have hd := congrArg String.data h
  simp only [String.data_append, List.append_cancel_left_eq] at hd
  exact String.ext hd

theorem k8sNamespaceStep_get (svcPorts : List (String × Int)) (infra : Infrastructure)
    (e : String × List k8sPod) :
    ∃ added,
      mapGet (k8sNamespaceStep svcPorts infra e).Servers ("k8s-" ++ e.1)
        = some { namespaceServer infra e.1 with
                 Services := (namespaceServer infra e.1).Services ++ added } ∧
      (added.map (fun s => s.Name)).Nodup ∧
      (∀ s ∈ added, s.Category = "kubernetes") ∧
      (∀ n, n ∈ added.map (fun s => s.Name)
        ↔ ∃ pod ∈ e.2, ∃ c ∈ pod.Spec.Containers, k8sSvcName pod c = n) := by
  have hfold : ∀ init : List (String × Bool) × Server,
      e.2.foldl (k8sPodStep svcPorts e.1) init
        = (e.2.flatMap (fun pod => pod.Spec.Containers.map (fun c => (pod, c)))).foldl
            (fun st pc => k8sContainerStep svcPorts e.1 pc.1 st pc.2) init := fun init =>
    foldl_pairs (fun pod : k8sPod => pod.Spec.Containers)
      (fun pod st c => k8sContainerStep svcPorts e.1 pod st c) e.2 init
  have hbase : namespaceServer infra e.1
      = { namespaceServer infra e.1 with
          Services := (namespaceServer infra e.1).Services ++ [] } := by
    simp
  obtain ⟨added, h1, h2, h3, h4⟩ := k8s_pairs_fold svcPorts e.1
    (e.2.flatMap (fun pod => pod.Spec.Containers.map (fun c => (pod, c)))) []
    (namespaceServer infra e.1) [] (by simp [mapGet]) (by simp)
  refine ⟨added, ?_, h2, ?_, ?_⟩
  · unfold k8sNamespaceStep
    simp only
    rw [mapGet_mapSet_same, hfold]
    have hserver : (match mapGet infra.Servers ("k8s-" ++ e.1) with
        | some server => server
        | none =>
          ({ Hostname := "k8s-" ++ e.1, Label := "k8s/" ++ e.1, Type_ := ServerTypeCluster,
             Online := true } : Server)) = namespaceServer infra e.1 := rfl
    rw [hserver, hbase, h1]
    simp
  · intro s hs
    rcases h3 s hs with h | h
    · simp at h
    · exact h
  · intro n
    rw [h4 n]
    simp only [List.map_nil, List.mem_nil_iff, false_or, List.mem_map, List.mem_flatMap,
      Prod.exists]
    constructor
    · rintro ⟨pod, c, ⟨pod', hpod, c', hc, heq⟩, hn⟩
      simp only [Prod.mk.injEq] at heq
      obtain ⟨h1', h2'⟩ := heq
      subst h1'
      subst h2'
      exact ⟨pod', hpod, c', hc, hn⟩
    · rintro ⟨pod, hpod, c, hc, hn⟩
      exact ⟨pod, c, ⟨pod, hpod, c, hc, rfl⟩, hn⟩

theorem k8sNamespaceStep_frame (svcPorts : List (String × Int)) (infra : Infrastructure)
    (e : String × List k8sPod) (k : String) (hk : k ≠ "k8s-" ++ e.1) :
    mapGet (k8sNamespaceStep svcPorts infra e).Servers k = mapGet infra.Servers k := by
  unfold k8sNamespaceStep
  simp only
  rw [mapGet_mapSet_other _ _ _ _ hk]

theorem k8sNamespaceStep_congr (svcPorts : List (String × Int)) (infra₁ infra₂ : Infrastructure)
    (e : String × List k8sPod)
    (h : mapGet infra₁.Servers ("k8s-" ++ e.1) = mapGet infra₂.Servers ("k8s-" ++ e.1)) :
    mapGet (k8sNamespaceStep svcPorts infra₁ e).Servers ("k8s-" ++ e.1)
      = mapGet (k8sNamespaceStep svcPorts infra₂ e).Servers ("k8s-" ++ e.1) := by
  unfold k8sNamespaceStep
  simp only
  rw [mapGet_mapSet_same, mapGet_mapSet_same, h]

theorem k8s_fold_frame (svcPorts : List (String × Int)) (es : List (String × List k8sPod))
    (infra : Infrastructure) (k : String) (hk : ∀ e ∈ es, k ≠ "k8s-" ++ e.1) :
    mapGet (es.foldl (k8sNamespaceStep svcPorts) infra).Servers k = mapGet infra.Servers k := by
  induction es generalizing infra with
  | nil => rfl
  | cons e rest ih =>
    rw [List.foldl_cons, ih _ (fun x hx => hk x (List.mem_cons_of_mem _ hx)),
      k8sNamespaceStep_frame _ _ _ _ (hk e (List.mem_cons_self _ _))]

theorem k8s_fold_get (svcPorts : List (String × Int)) (es : List (String × List k8sPod))
    (hnd : (mapKeys es).Nodup) (infra : Infrastructure) (e : String × List k8sPod)
    (he : e ∈ es) :
    mapGet (es.foldl (k8sNamespaceStep svcPorts) infra).Servers ("k8s-" ++ e.1)
      = mapGet (k8sNamespaceStep svcPorts infra e).Servers ("k8s-" ++ e.1) := by
  induction es generalizing infra with
  | nil => simp at he
  | cons x rest ih =>
    simp only [mapKeys, List.map_cons, List.nodup_cons] at hnd
    rw [List.foldl_cons]
    rcases List.mem_cons.1 he with h | h
    · subst h
      apply k8s_fold_frame
      intro y hy hc
      have hkey := k8s_prefix_injective _ _ hc
      apply hnd.1
      rw [hkey]
      exact List.mem_map_of_mem _ hy
    · have hne : "k8s-" ++ e.1 ≠ "k8s-" ++ x.1 := by
        intro hc
        have hkey := k8s_prefix_injective _ _ hc
        apply hnd.1
        rw [← hkey]
        exact List.mem_map_of_mem _ h
      rw [ih hnd.2 _ h]
      exact k8sNamespaceStep_congr _ _ _ _ (k8sNamespaceStep_frame _ _ _ _ hne)

theorem containsStr_iff (s : List String) (v : String) : containsStr s v = true ↔ v ∈ s := by
  unfold containsStr
  simp only [List.any_eq_true, decide_eq_true_eq]
  constructor
  · rintro ⟨x, hx, h⟩
    exact h ▸ hx
  · intro h
    exact ⟨v, h, rfl⟩

theorem contributingPods_eq (kc : KubernetesCollector) (pods : List k8sPod) (ns : String) :
    pods.filter (fun pod =>
        decide (pod.Status.Phase = "Running")
          && (kc.Namespaces.isEmpty || containsStr kc.Namespaces pod.Metadata.Namespace)
          && decide (pod.Metadata.Namespace = ns))
      = contributingPods kc pods ns := by
  unfold contributingPods
  congr 1
  funext pod
  rw [Bool.eq_iff_iff]
  simp only [Bool.and_eq_true, Bool.or_eq_true, decide_eq_true_eq, List.isEmpty_iff,
    containsStr_iff]
  constructor
  · rintro ⟨⟨h1, h2⟩, h3⟩
    subst h3
    exact ⟨h1, rfl, h2⟩
  · rintro ⟨h1, h2, h3⟩
    subst h2
    exact ⟨⟨h1, h3⟩, rfl⟩

theorem nsPods_get_nil (kc : KubernetesCollector) (pods : List k8sPod) (ns : String) :
    mapGet (pods.foldl (nsPodsStep kc) []) ns
      = if contributingPods kc pods ns = [] then none
        else some (contributingPods kc pods ns) := by
  rw [nsPods_get, contributingPods_eq]
  rfl

/-- C26: in one run of the orchestrator collector on the pods and services read, the
Server k8s-ns of a namespace ns with a contributing pod (phase Running, and ns among the
configured namespaces when some are configured) is the Server found under that key, or a
new Server of classification cluster, followed by the added Services: their names are
pairwise distinct, and a name is among them exactly when it is the app label, or without
one the container name, of a container of a contributing pod of ns; so the containers
that share such a name give one Service.  For a namespace without a contributing pod the
entry under k8s-ns is what it was, and so is every entry under another key. -/
theorem Collect_deduplicates (kc : KubernetesCollector) (pods : List k8sPod)
    (services : List k8sService) (infra : Infrastructure) (ns : String) :
    (contributingPods kc pods ns ≠ [] →
      ∃ added : List Service,
        mapGet (kc.Collect pods services infra).Servers ("k8s-" ++ ns)
          = some { namespaceServer infra ns with
                   Services := (namespaceServer infra ns).Services ++ added } ∧
        (added.map (fun s => s.Name)).Nodup ∧
        (∀ n, n ∈ added.map (fun s => s.Name)
          ↔ ∃ pod ∈ contributingPods kc pods ns, ∃ c ∈ pod.Spec.Containers,
              k8sSvcName pod c = n)) ∧
    (mapGet infra.Servers ("k8s-" ++ ns) = none →
      (namespaceServer infra ns).Type_ = ServerTypeCluster ∧
      (namespaceServer infra ns).Services = []) ∧
    (contributingPods kc pods ns = [] →
      mapGet (kc.Collect pods services infra).Servers ("k8s-" ++ ns)
        = mapGet infra.Servers ("k8s-" ++ ns)) ∧
    (∀ k, (∀ ns', k ≠ "k8s-" ++ ns') →
      mapGet (kc.Collect pods services infra).Servers k = mapGet infra.Servers k) := by
  have hnd : (mapKeys (pods.foldl (nsPodsStep kc) [])).Nodup :=
    nsPods_nodup kc pods [] (by simp [mapKeys])
  have hkeys : ∀ e ∈ pods.foldl (nsPodsStep kc) [],
      contributingPods kc pods e.1 ≠ [] ∧ e.2 = contributingPods kc pods e.1 := by
    intro e he
    have hget := mapGet_of_mem _ e.1 e.2 hnd he
    rw [nsPods_get_nil] at hget
    by_cases hc : contributingPods kc pods e.1 = []
    · simp [hc] at hget
    · simp only [hc, if_false, Option.some.injEq] at hget
      exact ⟨hc, hget.symm⟩
  refine ⟨?_, ?_, ?_, ?_⟩
  · intro hne
    have hget := nsPods_get_nil kc pods ns
    rw [if_neg hne] at hget
    have hmem := mapGet_mem _ _ _ hget
    obtain ⟨added, h1, h2, _, h4⟩ := k8sNamespaceStep_get (services.foldl svcPortsStep [])
      infra (ns, contributingPods kc pods ns)
    refine ⟨added, ?_, h2, h4⟩
    unfold KubernetesCollector.Collect
    simp only
    rw [k8s_fold_get _ _ hnd infra (ns, contributingPods kc pods ns) hmem]
    exact h1
  · intro hnone
    unfold namespaceServer
    rw [hnone]
    exact ⟨rfl, rfl⟩
  · intro hnil
    unfold KubernetesCollector.Collect
    simp only
    apply k8s_fold_frame
    intro e he hc
    have hkey := k8s_prefix_injective _ _ hc
    exact (hkeys e he).1 (hkey ▸ hnil)
  · intro k hk
    unfold KubernetesCollector.Collect
    simp only
    apply k8s_fold_frame
    intro e _
    exact hk e.1

set_option maxRecDepth 1000000 in
/-- C26 (witness): five pods on a new Model.  The two replicas of nginx give one Service,
the two containers of the grafana pod give one Service, and the pending pod of the
namespace staging gives no Server. -/
theorem Collect_deduplicates_witness :
    ((({} : KubernetesCollector).Collect clusterPods [] NewInfrastructure).Servers.map
        (fun e => (e.1, e.2.Type_, e.2.Services.map (fun s => s.Name))))
      = [("k8s-default", ServerTypeCluster, ["nginx", "postgres"]),
         ("k8s-monitoring", ServerTypeCluster, ["grafana"])] ∧
    mapGet (({} : KubernetesCollector).Collect clusterPods [] NewInfrastructure).Servers
        ("k8s-" ++ "staging")
      = mapGet NewInfrastructure.Servers ("k8s-" ++ "staging") :=
  ⟨by decide,
   (Collect_deduplicates {} clusterPods [] NewInfrastructure "staging").2.2.1 (by decide)⟩

/-! ## C25: Configure -/

/-- C25 (counterexample): on an empty section, which is not nil, Configure of the Portainer
collector sets the endpoint of a new collector to 1, and Configure of the Proxmox collector
takes the token from the environment: the collector is not left unchanged. -/
theorem Configure_empty_section_not_noop :
    (({} : PortainerCollector).Configure (fun _ => "") (some [])).1.Endpoint = 1 ∧
    (({} : PortainerCollector).Configure (fun _ => "") (some [])).1 ≠ {} ∧
    (({} : ProxmoxCollector).Configure
        (fun name => if name = "INFRAMAP_PROXMOX_TOKEN" then "secret" else "") (some [])).1
      = { Token := "secret" } ∧
    (({} : ProxmoxCollector).Configure
        (fun name => if name = "INFRAMAP_PROXMOX_TOKEN" then "secret" else "") (some [])).1
      ≠ {} := by
  decide

/-- C25 (amended): Configure of each of the seven collectors returns no error, whatever the
section holds; on a missing (nil) section it leaves the collector unchanged; on an empty
section it leaves the collectors for Ansible, Compose, Kubernetes, systemd and Tailscale
unchanged, while the Portainer collector gets its API key from the environment when it has
none and the endpoint 1 when its endpoint is 0, and the Proxmox collector gets its token
identifier and its token from the environment when it has none. -/
theorem Configure_tolerant (getenv expandPath : String → String)
    (ac : AnsibleCollector) (cc : ComposeCollector) (kc : KubernetesCollector)
    (pt : PortainerCollector) (px : ProxmoxCollector) (sc : SystemdCollector)
    (tc : TailscaleCollector) :
    (∀ sect : Option (List (String × ConfigValue)),
      (ac.Configure sect).2 = none ∧ (cc.Configure sect).2 = none ∧
      (kc.Configure expandPath sect).2 = none ∧ (pt.Configure getenv sect).2 = none ∧
      (px.Configure getenv sect).2 = none ∧ (sc.Configure sect).2 = none ∧
      (tc.Configure sect).2 = none) ∧
    ((ac.Configure none).1 = ac ∧ (cc.Configure none).1 = cc ∧
      (kc.Configure expandPath none).1 = kc ∧ (pt.Configure getenv none).1 = pt ∧
      (px.Configure getenv none).1 = px ∧ (sc.Configure none).1 = sc ∧
      (tc.Configure none).1 = tc) ∧
    ((ac.Configure (some [])).1 = ac ∧ (cc.Configure (some [])).1 = cc ∧
      (kc.Configure expandPath (some [])).1 = kc ∧ (sc.Configure (some [])).1 = sc ∧
      (tc.Configure (some [])).1 = tc) ∧
    (pt.Configure getenv (some [])).1
      = { pt with
          APIKey := if pt.APIKey = "" then getenv "INFRAMAP_PORTAINER_API_KEY" else pt.APIKey,
          Endpoint := if pt.Endpoint = 0 then 1 else pt.Endpoint } ∧
    (px.Configure getenv (some [])).1
      = { px with
          TokenID := if px.TokenID = "" then getenv "INFRAMAP_PROXMOX_TOKEN_ID"
                     else px.TokenID,
          Token := if px.Token = "" then getenv "INFRAMAP_PROXMOX_TOKEN" else px.Token } := by
  refine ⟨?_, ⟨rfl, rfl, rfl, rfl, rfl, rfl, rfl⟩, ⟨rfl, rfl, rfl, rfl, rfl⟩, ?_, ?_⟩
  · intro sect
    cases sect with
    | none => exact ⟨rfl, rfl, rfl, rfl, rfl, rfl, rfl⟩
    | some sect =>
      refine ⟨rfl, rfl, rfl, rfl, rfl, ?_, rfl⟩
      unfold SystemdCollector.Configure
      simp only
      split <;> rfl
  · unfold PortainerCollector.Configure
    simp only [mapGet, assertString, assertInt, assertFloat]
    by_cases h1 : pt.APIKey = "" <;> by_cases h2 : pt.Endpoint = 0 <;> simp [h1, h2]
  · unfold ProxmoxCollector.Configure
    simp only [mapGet, assertString, assertBool]
    by_cases h1 : px.TokenID = "" <;> by_cases h2 : px.Token = "" <;> simp [h1, h2]

/-- C25 (witness): a Portainer section whose endpoint is a string and whose url is a number
gives no error and the defaults; a section of the Tailscale collector sets both fields. -/
theorem Configure_tolerant_witness :
    ({} : PortainerCollector).Configure (fun _ => "")
        (some [("endpoint", ConfigValue.str "two"), ("url", ConfigValue.int 7)])
      = ({ Endpoint := 1 }, none) ∧
    ({} : TailscaleCollector).Configure
        (some [("json_file", ConfigValue.str "status.json"),
               ("include_offline", ConfigValue.bool true)])
      = ({ JsonFile := "status.json", IncludeOffline := true }, none) ∧
    (({} : PortainerCollector).Configure (fun _ => "")
        (some [("endpoint", ConfigValue.str "two"), ("url", ConfigValue.int 7)])).2 = none :=
  ⟨by decide, by decide,
   ((Configure_tolerant (fun _ => "") id {} {} {} {} {} {} {}).1
      (some [("endpoint", ConfigValue.str "two"), ("url", ConfigValue.int 7)])).2.2.2.1⟩

/-! ## C29: the endpoints of the edges -/

set_option maxRecDepth 1000000 in
/-- C29 (the code at the failing inputs): with the grouping by category, the Services of
the local Server nas are written inside the sub-groups downloads and media, as
tailnet.local.nas.downloads.transmission and tailnet.local.nas.media.radarr, while the
dependency edge names tailnet.local.nas.radarr and tailnet.local.nas.transmission, which
no block of the text declares.  At the detail level standard the system service agent of
the lab Server srv is collapsed into the node system-services, and the Server has no
Service dockerd, while the edge names tailnet.lab.srv.agent and tailnet.lab.srv.dockerd. -/
theorem edges_name_missing_nodes :
    RenderD2 {} mediaInfra categoryCfg
      = "direction: right\n\n"
        ++ "tailnet: \"Tailscale VPN\" \x7b\n"
        ++ "  local: \"local\" \x7b\n"
        ++ "    style.fill: \"#FEF9C3\"\n"
        ++ "    style.stroke: \"#CA8A04\"\n"
        ++ "\n"
        ++ "    nas: \"nas\" \x7b\n"
        ++ "      downloads: \"Downloads\" \x7b\n"
        ++ "        transmission: \"transmission\" \x7b\n"
        ++ "          icon: https://cdn.jsdelivr.net/gh/selfhst/icons/svg/transmission.svg\n"
        ++ "        \x7d\n"
        ++ "      \x7d\n"
        ++ "      media: \"Media\" \x7b\n"
        ++ "        radarr: \"radarr\" \x7b\n"
        ++ "          icon: https://cdn.jsdelivr.net/gh/selfhst/icons/svg/radarr.svg\n"
        ++ "        \x7d\n"
        ++ "      \x7d\n"
        ++ "    \x7d\n"
        ++ "  \x7d\n\n"
        ++ "\x7d\n\n"
        ++ "tailnet.local.nas.radarr -> tailnet.local.nas.transmission "
        ++ "\x7b style.stroke-dash: 3 \x7d\n" ∧
    RenderD2 {} agentInfra {}
      = "direction: right\n\n"
        ++ "tailnet: \"Tailscale VPN\" \x7b\n"
        ++ "  lab: \"lab\" \x7b\n"
        ++ "    style.fill: \"#DCFCE7\"\n"
        ++ "    style.stroke: \"#16A34A\"\n"
        ++ "\n"
        ++ "    srv: \"srv\" \x7b\n"
        ++ "      system-services: \"System (1)\" \x7b\n"
        ++ "        style.fill: \"#E0E7FF\"\n"
        ++ "        style.stroke: \"#4F46E5\"\n"
        ++ "      \x7d\n"
        ++ "      web: \"web\"\n"
        ++ "    \x7d\n"
        ++ "  \x7d\n\n"
        ++ "\x7d\n\n"
        ++ "tailnet.lab.srv.agent -> tailnet.lab.srv.dockerd "
        ++ "\x7b style.stroke-dash: 3 \x7d\n" := by
  decide

end Inframap
